import Mathlib

/-!
Media access layer of the STM32F2xx firmware driver (`flash_mal.c`).

A shallow embedding of `flash_mal.c` in the build without `USE_SERIAL_FLASH`
(the build in which the module verification block of `FLASH_CopyMemory` is
compiled in).  Machine integers are natural numbers reduced modulo `2^32`
where the C arithmetic can wrap.  The internal flash is a byte-addressed
memory; the peripheral-library primitives the driver calls are recorded in
a log of issued operations.
-/

namespace FlashMal

set_option maxRecDepth 100000

/-! ## Machine words -/

/-- The modulus of `uint32_t` arithmetic. -/
abbrev U32 : Nat := 4294967296

/-! ## Device identities and sector identifiers -/

/-- Modelled from the spec: the enumerator `FLASH_INTERNAL` of `flash_device_t`
(declared in a header that is not among the sources); the spec's closed set
of device identities is Internal, Serial, in that order. -/
def FLASH_INTERNAL : Nat := 0

/-- Modelled from the spec: the enumerator `FLASH_SERIAL` of `flash_device_t`. -/
def FLASH_SERIAL : Nat := 1

/-- Modelled from the spec: the sector identifiers `FLASH_Sector_n` of the
peripheral library header (not among the sources).  The identifier of sector
`n` is `8 * n`, which is what the step `flashSector + (8 * eraseCounter)` of
`FLASH_EraseMemory` relies on. -/
def FLASH_Sector (n : Nat) : Nat := 8 * n

/-- The value `0xFFFF` that `FLASH_SectorToErase` returns for "invalid sector". -/
def INVALID_SECTOR : Nat := 0xFFFF

/-- The function `FLASH_SectorToErase` (flash_mal.c, lines 49-108). -/
def FLASH_SectorToErase (flashDeviceID startAddress : Nat) : Nat :=
  if flashDeviceID ≠ FLASH_INTERNAL then INVALID_SECTOR
  else if startAddress < 0x08004000 then FLASH_Sector 0
  else if startAddress < 0x08008000 then FLASH_Sector 1
  else if startAddress < 0x0800C000 then FLASH_Sector 2
  else if startAddress < 0x08010000 then FLASH_Sector 3
  else if startAddress < 0x08020000 then FLASH_Sector 4
  else if startAddress < 0x08040000 then FLASH_Sector 5
  else if startAddress < 0x08060000 then FLASH_Sector 6
  else if startAddress < 0x08080000 then FLASH_Sector 7
  else if startAddress < 0x080A0000 then FLASH_Sector 8
  else if startAddress < 0x080C0000 then FLASH_Sector 9
  else if startAddress < 0x080E0000 then FLASH_Sector 10
  else if startAddress < 0x08100000 then FLASH_Sector 11
  else INVALID_SECTOR

/-- The `uint32_t` value `startAddress + length - 1` computed at the head of
`FLASH_CheckValidAddressRange`, `FLASH_CopyMemory` and `FLASH_CompareMemory`. -/
def endAddressOf (startAddress length : Nat) : Nat :=
  (startAddress + length + U32 - 1) % U32

/-- The function `FLASH_CheckValidAddressRange` (flash_mal.c, lines 110-142), in the build
without `USE_SERIAL_FLASH`: the `FLASH_SERIAL` branch is the `#else` arm. -/
def FLASH_CheckValidAddressRange (flashDeviceID startAddress length : Nat) : Bool :=
  let endAddress := endAddressOf startAddress length
  if flashDeviceID = FLASH_INTERNAL then
    if startAddress = 0x08000000 ∧ endAddress ≥ 0x08004000 then false
    else if startAddress < 0x08020000 ∨ endAddress ≥ 0x08100000 then false
    else true
  else if flashDeviceID = FLASH_SERIAL then
    false
  else
    false

/-! ## The internal flash and the peripheral-library primitives -/

/-- An operation issued to the flash program/erase controller. -/
inductive FlashOp where
  | unlock
  | lock
  | clearFlags
  | eraseSector (sector : Nat)
  | programWord (address data : Nat)
  deriving DecidableEq

/-- The state of the internal flash as the driver sees it: the byte contents of
the address space, the lock bit of the program/erase controller, the status the
hardware will report for an erase of a given sector identifier and for a program
at a given address, and the operations issued so far (oldest first). -/
structure FlashState where
  mem : Nat → Nat
  locked : Bool
  eraseOk : Nat → Bool
  programOk : Nat → Bool
  log : List FlashOp

/-- The byte stored at an address. -/
def readByte (s : FlashState) (a : Nat) : Nat := s.mem a % 256

/-- The read `*(__IO uint32_t*) address`: four bytes, little-endian. -/
def readWord (s : FlashState) (a : Nat) : Nat :=
  readByte s a + 256 * readByte s (a + 1) + 65536 * readByte s (a + 2)
    + 16777216 * readByte s (a + 3)

/-- The read of a `uint16_t` field: two bytes, little-endian. -/
def readHalf (s : FlashState) (a : Nat) : Nat :=
  readByte s a + 256 * readByte s (a + 1)

/-- Byte `i` (0 is the least significant) of a 32-bit word. -/
def wordByte (data i : Nat) : Nat := data / 256 ^ i % 256

/-- Modelled from the spec: `FLASH_Unlock` of the peripheral library (not among
the sources), "unlock program-erase controller". -/
def FLASH_Unlock (s : FlashState) : FlashState :=
  { s with locked := false, log := s.log ++ [FlashOp.unlock] }

/-- Modelled from the spec: `FLASH_Lock` of the peripheral library (not among
the sources), "lock program-erase controller". -/
def FLASH_Lock (s : FlashState) : FlashState :=
  { s with locked := true, log := s.log ++ [FlashOp.lock] }

/-- The function `FLASH_ClearFlags` (flash_mal.c, lines 663-668): clears the pending status
flags of the controller; the contents of the flash are not touched. -/
def FLASH_ClearFlags (s : FlashState) : FlashState :=
  { s with log := s.log ++ [FlashOp.clearFlags] }

/-- First address of sector `k` of the internal flash: four sectors of 16 KB,
one of 64 KB, then sectors of 128 KB, the geometry `FLASH_SectorToErase`
encodes in its thresholds. -/
def sectorBase (k : Nat) : Nat :=
  if k < 4 then 0x08000000 + k * 0x4000
  else if k = 4 then 0x08010000
  else 0x08020000 + (k - 5) * 0x20000

/-- Address `a` lies in the hardware sector with identifier `sector`. -/
def inSector (sector a : Nat) : Bool :=
  sector % 8 = 0 ∧ sector / 8 ≤ 11 ∧
    sectorBase (sector / 8) ≤ a ∧ a < sectorBase (sector / 8 + 1)

/-- The erased pattern of a flash byte. -/
def ERASED : Nat := 0xFF

/-- Modelled from the spec: `FLASH_EraseSector` of the peripheral library (not
among the sources), "erase one hardware sector given a sector identifier",
returning a status the driver reads as success or failure.  On success every
byte of the sector reads back as the erased pattern (all-ones bits); an
identifier that names no sector changes no byte. -/
def FLASH_EraseSector (s : FlashState) (sector : Nat) : Bool × FlashState :=
  if s.eraseOk sector then
    (true, { s with
      mem := fun a => if inSector sector a then ERASED else s.mem a,
      log := s.log ++ [FlashOp.eraseSector sector] })
  else
    (false, { s with log := s.log ++ [FlashOp.eraseSector sector] })

/-- Modelled from the spec: `FLASH_ProgramWord` of the peripheral library (not
among the sources), "program one native word at an address", returning a status
the driver reads as success or failure.  Programming can only clear bits: each
of the four bytes becomes the bitwise AND of its old value and the new one, so a
word programmed onto erased bytes reads back as written and programming zero is
legal without an erase. -/
def FLASH_ProgramWord (s : FlashState) (address data : Nat) : Bool × FlashState :=
  if s.programOk address then
    (true, { s with
      mem := fun a =>
        if address ≤ a ∧ a < address + 4 then
          Nat.land (s.mem a % 256) (wordByte data (a - address))
        else s.mem a,
      log := s.log ++ [FlashOp.programWord address data] })
  else
    (false, { s with log := s.log ++ [FlashOp.programWord address data] })

/-! ## Erase engine -/

/-- Modelled from the spec: the macro `INTERNAL_FLASH_PAGE_SIZE` of flash_mal.h
(not among the sources): the erase unit of the internal device in the region the
validator admits, sectors 5 to 11 of 128 KB each. -/
def INTERNAL_FLASH_PAGE_SIZE : Nat := 0x20000

/-- The function `FLASH_PagesMask` (flash_mal.c, lines 772-787). -/
def FLASH_PagesMask (imageSize pageSize : Nat) : Nat :=
  if imageSize % pageSize ≠ 0 then (imageSize / pageSize + 1) % U32
  else imageSize / pageSize

/-- The `for` loop of `FLASH_EraseMemory` (lines 174-183), by recursion on the
number `numPages - eraseCounter` of iterations still to run: one
`FLASH_EraseSector` per iteration, leaving the loop (and the function, with
`false`) at the first status other than `FLASH_COMPLETE`. -/
def eraseLoop (flashSector : Nat) : Nat → Nat → FlashState → Bool × FlashState
  | 0, _, s => (true, s)
  | remaining + 1, eraseCounter, s =>
    let r := FLASH_EraseSector s ((flashSector + 8 * eraseCounter) % U32)
    if r.1 then eraseLoop flashSector remaining (eraseCounter + 1) r.2
    else (false, r.2)

/-- The function `FLASH_EraseMemory` (flash_mal.c, lines 144-212), in the build without
`USE_SERIAL_FLASH`. -/
def FLASH_EraseMemory (s : FlashState) (flashDeviceID startAddress length : Nat) :
    Bool × FlashState :=
  if FLASH_CheckValidAddressRange flashDeviceID startAddress length != true then (false, s)
  else if flashDeviceID = FLASH_INTERNAL then
    let flashSector := FLASH_SectorToErase FLASH_INTERNAL startAddress
    if flashSector > FLASH_Sector 11 then (false, s)
    else
      let s1 := FLASH_Unlock s
      let numPages := FLASH_PagesMask length INTERNAL_FLASH_PAGE_SIZE
      let s2 := FLASH_ClearFlags s1
      let r := eraseLoop flashSector numPages 0 s2
      if r.1 then (true, FLASH_Lock r.2) else (false, r.2)
  else (false, s)

/-! ## Module metadata -/

/-- The constants of the build that the driver takes from headers that are not
among the sources: the platform identity, the resource function tag, the
verification flag bits, the vector-table mask, the CRC routine (the spec treats
it as a pure function of the bytes) and the byte offsets of the four fields of
`module_info_t` that the driver reads. -/
structure Platform where
  PLATFORM_ID : Nat
  MODULE_FUNCTION_RESOURCE : Nat
  MODULE_VERIFY_MASK : Nat
  MODULE_VERIFY_CRC : Nat
  MODULE_VERIFY_DESTINATION_IS_START_ADDRESS : Nat
  MODULE_VERIFY_FUNCTION : Nat
  MODULE_VERIFY_LENGTH : Nat
  APP_START_MASK : Nat
  Compute_CRC32 : List Nat → Nat
  offset_module_start_address : Nat
  offset_module_end_address : Nat
  offset_platform_id : Nat
  offset_module_function : Nat

/-- The fields of `module_info_t` that the driver consumes. -/
structure module_info_t where
  module_start_address : Nat
  module_end_address : Nat
  platform_id : Nat
  module_function : Nat

/-- Dereference of a `const module_info_t*`: the header fields stored at `p`. -/
def moduleInfoAt (P : Platform) (s : FlashState) (p : Nat) : module_info_t :=
  { module_start_address := readWord s (p + P.offset_module_start_address)
    module_end_address := readWord s (p + P.offset_module_end_address)
    platform_id := readHalf s (p + P.offset_platform_id)
    module_function := readByte s (p + P.offset_module_function) }

/-- The function `FLASH_ModuleInfo` (flash_mal.c, lines 594-609): the address of the header,
`none` for the `NULL` returned on a device other than Internal. -/
def FLASH_ModuleInfo (P : Platform) (s : FlashState) (flashDeviceID startAddress : Nat) :
    Option Nat :=
  if flashDeviceID = FLASH_INTERNAL then
    if Nat.land (readWord s startAddress) P.APP_START_MASK = 0x20000000 then
      some ((startAddress + 0x184) % U32)
    else some startAddress
  else none

/-- The function `FLASH_ModuleLength` (flash_mal.c, lines 623-633). -/
def FLASH_ModuleLength (P : Platform) (s : FlashState) (flashDeviceID startAddress : Nat) :
    Nat :=
  match FLASH_ModuleInfo P s flashDeviceID startAddress with
  | some p =>
    ((moduleInfoAt P s p).module_end_address + U32
      - (moduleInfoAt P s p).module_start_address) % U32
  | none => 0

/-- The byte reversal `__REV` of a 32-bit word. -/
def REV (w : Nat) : Nat :=
  wordByte w 0 * 16777216 + wordByte w 1 * 65536 + wordByte w 2 * 256 + wordByte w 3

/-- The `length` bytes that `Compute_CRC32((uint8_t*)startAddress, length)` reads. -/
def bytesAt (s : FlashState) (startAddress length : Nat) : List Nat :=
  (List.range length).map (fun i => readByte s (startAddress + i))

/-- The function `FLASH_VerifyCRC32` (flash_mal.c, lines 647-661). -/
def FLASH_VerifyCRC32 (P : Platform) (s : FlashState)
    (flashDeviceID startAddress length : Nat) : Bool :=
  if flashDeviceID = FLASH_INTERNAL ∧ length > 0 then
    let expectedCRC := REV (readWord s ((startAddress + length) % U32))
    let computedCRC := P.Compute_CRC32 (bytesAt s startAddress length) % U32
    if expectedCRC = computedCRC then true else false
  else false

/-! ## Verification block of `FLASH_CopyMemory` -/

/-- The length test of line 239: one of the length and CRC flags is set and the
caller's length is below `moduleLength + 4` (a `uint32_t` sum). -/
def lengthCheckFails (P : Platform) (length moduleLength flags : Nat) : Bool :=
  Nat.land flags (Nat.lor P.MODULE_VERIFY_LENGTH P.MODULE_VERIFY_CRC) ≠ 0 ∧
    length < (moduleLength + 4) % U32

/-- The platform test of line 245. -/
def platformCheckFails (P : Platform) (info : module_info_t) : Bool :=
  info.module_function ≠ P.MODULE_FUNCTION_RESOURCE ∧ info.platform_id ≠ P.PLATFORM_ID

/-- The destination test of line 251. -/
def destinationCheckFails (P : Platform) (info : module_info_t)
    (destinationAddress flags : Nat) : Bool :=
  Nat.land flags P.MODULE_VERIFY_DESTINATION_IS_START_ADDRESS ≠ 0 ∧
    info.module_start_address ≠ destinationAddress

/-- The function test of line 256. -/
def functionCheckFails (P : Platform) (info : module_info_t)
    (module_function flags : Nat) : Bool :=
  Nat.land flags P.MODULE_VERIFY_FUNCTION ≠ 0 ∧ info.module_function ≠ module_function

/-- The CRC test of line 261. -/
def crcCheckFails (P : Platform) (s : FlashState)
    (sourceDeviceID sourceAddress moduleLength flags : Nat) : Bool :=
  Nat.land flags P.MODULE_VERIFY_CRC ≠ 0 ∧
    FLASH_VerifyCRC32 P s sourceDeviceID sourceAddress moduleLength = false

/-- The body of the verification block of `FLASH_CopyMemory` (lines 237-264):
`some false` when one of its five tests returns `false` from the copy,
`some true` when control falls through to the erase, `none` for the dereference
of a `NULL` header (which the guard of line 235 excludes). -/
def moduleVerification (P : Platform) (s : FlashState)
    (sourceDeviceID sourceAddress destinationAddress length module_function flags : Nat) :
    Option Bool :=
  let moduleLength := FLASH_ModuleLength P s sourceDeviceID sourceAddress
  if lengthCheckFails P length moduleLength flags then some false
  else
    match FLASH_ModuleInfo P s sourceDeviceID sourceAddress with
    | none => none
    | some p =>
      let info := moduleInfoAt P s p
      if platformCheckFails P info then some false
      else if destinationCheckFails P info destinationAddress flags then some false
      else if functionCheckFails P info module_function flags then some false
      else if crcCheckFails P s sourceDeviceID sourceAddress moduleLength flags then some false
      else some true

/-! ## Copy engine and compare engine -/

/-- The `while (sourceAddress < endAddress)` loop of `FLASH_CopyMemory` (lines
288-339) in the build without `USE_SERIAL_FLASH`, with the local
`internalFlashData` carried from one iteration to the next.  The first argument
bounds the number of loop tests; `none` means the bound was reached. -/
def copyLoop (sourceDeviceID destinationDeviceID endAddress : Nat) :
    Nat → Nat → Nat → Nat → FlashState → Option (Bool × FlashState)
  | 0, _, _, _, _ => none
  | fuel + 1, sourceAddress, destinationAddress, internalFlashData, s =>
    if sourceAddress < endAddress then
      let data :=
        if sourceDeviceID = FLASH_INTERNAL then readWord s sourceAddress
        else internalFlashData
      if destinationDeviceID = FLASH_INTERNAL then
        let r := FLASH_ProgramWord s destinationAddress data
        if r.1 then
          copyLoop sourceDeviceID destinationDeviceID endAddress fuel
            ((sourceAddress + 4) % U32) ((destinationAddress + 4) % U32) data r.2
        else some (false, r.2)
      else
        copyLoop sourceDeviceID destinationDeviceID endAddress fuel
          ((sourceAddress + 4) % U32) ((destinationAddress + 4) % U32) data s
    else some (true, s)

/-- The part of `FLASH_CopyMemory` after the verification block (lines 268-347):
erase of the destination, unlock, the streaming loop, lock. -/
def copyAfterVerification (s : FlashState)
    (sourceDeviceID sourceAddress destinationDeviceID destinationAddress length : Nat) :
    Option (Bool × FlashState) :=
  let endAddress := endAddressOf sourceAddress length
  let e := FLASH_EraseMemory s destinationDeviceID destinationAddress length
  if e.1 != true then some (false, e.2)
  else
    let s1 := if destinationDeviceID = FLASH_INTERNAL then FLASH_Unlock e.2 else e.2
    match copyLoop sourceDeviceID destinationDeviceID endAddress (length + 1)
        sourceAddress destinationAddress 0 s1 with
    | none => none
    | some (false, s2) => some (false, s2)
    | some (true, s2) =>
      some (true, if destinationDeviceID = FLASH_INTERNAL then FLASH_Lock s2 else s2)

/-- The function `FLASH_CopyMemory` (flash_mal.c, lines 214-348), in the build without
`USE_SERIAL_FLASH`.  The result is `none` only if the streaming loop does not
finish within `length + 1` tests of its condition. -/
def FLASH_CopyMemory (P : Platform) (s : FlashState)
    (sourceDeviceID sourceAddress destinationDeviceID destinationAddress length
      module_function flags : Nat) : Option (Bool × FlashState) :=
  if FLASH_CheckValidAddressRange sourceDeviceID sourceAddress length != true then
    some (false, s)
  else if FLASH_CheckValidAddressRange destinationDeviceID destinationAddress length != true then
    some (false, s)
  else if sourceDeviceID = FLASH_INTERNAL ∧ Nat.land flags P.MODULE_VERIFY_MASK ≠ 0 then
    match moduleVerification P s sourceDeviceID sourceAddress destinationAddress length
        module_function flags with
    | none => none
    | some false => some (false, s)
    | some true =>
      copyAfterVerification s sourceDeviceID sourceAddress destinationDeviceID
        destinationAddress length
  else
    copyAfterVerification s sourceDeviceID sourceAddress destinationDeviceID
      destinationAddress length

/-- The `while (sourceAddress < endAddress)` loop of `FLASH_CompareMemory` (lines
380-418) in the build without `USE_SERIAL_FLASH`, with the locals
`sourceDeviceData` and `destinationDeviceData` carried from one iteration to the
next.  The first argument bounds the number of loop tests. -/
def compareLoop (s : FlashState) (sourceDeviceID destinationDeviceID endAddress : Nat) :
    Nat → Nat → Nat → Nat → Nat → Option Bool
  | 0, _, _, _, _ => none
  | fuel + 1, sourceAddress, destinationAddress, sourceDeviceData, destinationDeviceData =>
    if sourceAddress < endAddress then
      let sd :=
        if sourceDeviceID = FLASH_INTERNAL then readWord s sourceAddress
        else sourceDeviceData
      let dd :=
        if destinationDeviceID = FLASH_INTERNAL then readWord s destinationAddress
        else destinationDeviceData
      if sd ≠ dd then some false
      else
        compareLoop s sourceDeviceID destinationDeviceID endAddress fuel
          ((sourceAddress + 4) % U32) ((destinationAddress + 4) % U32) sd dd
    else some true

/-- The function `FLASH_CompareMemory` (flash_mal.c, lines 350-422), in the build without
`USE_SERIAL_FLASH`.  The result is `none` only if the loop does not finish
within `length + 1` tests of its condition. -/
def FLASH_CompareMemory (s : FlashState)
    (sourceDeviceID sourceAddress destinationDeviceID destinationAddress length : Nat) :
    Option Bool :=
  let endAddress := endAddressOf sourceAddress length
  if FLASH_CheckValidAddressRange sourceDeviceID sourceAddress length != true then some false
  else if FLASH_CheckValidAddressRange destinationDeviceID destinationAddress length != true then
    some false
  else
    compareLoop s sourceDeviceID destinationDeviceID endAddress (length + 1)
      sourceAddress destinationAddress 0 0

/-! ## A concrete build, for evaluating the code on explicit inputs -/

/-- One step of the bitwise CRC-32 (reflected polynomial `0xEDB88320`). -/
def crc32Bit (c : Nat) : Nat :=
  if c % 2 = 1 then Nat.xor (c / 2) 0xEDB88320 else c / 2

/-- CRC-32 update with one byte. -/
def crc32Byte (c b : Nat) : Nat :=
  crc32Bit (crc32Bit (crc32Bit (crc32Bit (crc32Bit (crc32Bit (crc32Bit (crc32Bit
    (Nat.xor c (b % 256)))))))))

/-- Modelled from the spec: `Compute_CRC32` (not among the sources), "CRC32(bytes)
-> u32, as a pure external function"; here the standard CRC-32. -/
def crc32 (bytes : List Nat) : Nat :=
  Nat.xor (bytes.foldl crc32Byte 0xFFFFFFFF) 0xFFFFFFFF

/-- A concrete assignment of the build constants: platform 6, resource function
tag 1, one flag bit per check, and `module_info_t` laid out with the two
addresses first, the platform identity at byte 12 and the function at byte 14. -/
def examplePlatform : Platform :=
  { PLATFORM_ID := 6
    MODULE_FUNCTION_RESOURCE := 1
    MODULE_VERIFY_MASK := 0x1E
    MODULE_VERIFY_CRC := 0x02
    MODULE_VERIFY_DESTINATION_IS_START_ADDRESS := 0x04
    MODULE_VERIFY_FUNCTION := 0x08
    MODULE_VERIFY_LENGTH := 0x10
    APP_START_MASK := 0x2FF10000
    Compute_CRC32 := crc32
    offset_module_start_address := 0
    offset_module_end_address := 4
    offset_platform_id := 12
    offset_module_function := 14 }

/-- A flash whose bytes are given by `mem`, on which every erase and every
program reports success, with the controller locked and nothing issued yet. -/
def healthyFlash (mem : Nat → Nat) : FlashState :=
  { mem := mem, locked := true, eraseOk := fun _ => true, programOk := fun _ => true, log := [] }

/-- The big-endian 32-bit value stored in the four bytes at an address. -/
def bigEndianWord (s : FlashState) (a : Nat) : Nat :=
  readByte s a * 16777216 + readByte s (a + 1) * 65536 + readByte s (a + 2) * 256
    + readByte s (a + 3)

/-- The sixteen bytes of a module staged at `0x08060000`: a header that declares
the extent `[0x08020000, 0x08020010)`, platform 6 and function 5. -/
def stagedHeader : List Nat :=
  [0x00, 0x00, 0x02, 0x08, 0x10, 0x00, 0x02, 0x08, 0, 0, 0, 0, 6, 0, 5, 0]

/-- A flash image that holds `stagedHeader` at `0x08060000`, followed by the
CRC-32 of those sixteen bytes, big-endian; every other byte is zero, so the
declared extent `[0x08020000, 0x08020010)` and the four bytes after it are zero. -/
def stagedImage : Nat → Nat := fun a =>
  if 0x08060000 ≤ a ∧ a < 0x08060010 then stagedHeader.getD (a - 0x08060000) 0
  else if 0x08060010 ≤ a ∧ a < 0x08060014 then
    wordByte (crc32 stagedHeader) (3 - (a - 0x08060010))
  else 0

/-- A flash image that holds at `0x08060000` a header declaring the extent
`[0x08020000, 0x08020010)`, platform 7 (not the platform of `examplePlatform`)
and the resource function 1; every other byte is zero. -/
def foreignResourceImage : Nat → Nat := fun a =>
  if 0x08060000 ≤ a ∧ a < 0x08060010 then
    [0x00, 0x00, 0x02, 0x08, 0x10, 0x00, 0x02, 0x08, 0, 0, 0, 0, 7, 0, 1, 0].getD
      (a - 0x08060000) 0
  else 0

/-- The number of times the body of `while (sourceAddress < endAddress)` runs
when the address advances by 4 from `sourceAddress` without wrapping. -/
def loopUnits (sourceAddress endAddress : Nat) : Nat :=
  if sourceAddress < endAddress then (endAddress - sourceAddress + 3) / 4 else 0


/-- A flash image that holds at `0x08060000` a header whose end address
`0x08020000` is 4 below its start address `0x08020004`, so that the module
length is `2^32 - 4`; platform 6, function 5; every other byte is zero. -/
def wrappedLengthImage : Nat → Nat := fun a =>
  if 0x08060000 ≤ a ∧ a < 0x08060010 then
    [0x04, 0x00, 0x02, 0x08, 0x00, 0x00, 0x02, 0x08, 0, 0, 0, 0, 6, 0, 5, 0].getD
      (a - 0x08060000) 0
  else 0


/-! ## Further module metadata readers -/

/-- The function `FLASH_ModuleAddress` (flash_mal.c, lines 611-621). -/
def FLASH_ModuleAddress (P : Platform) (s : FlashState) (flashDeviceID startAddress : Nat) :
    Nat :=
  match FLASH_ModuleInfo P s flashDeviceID startAddress with
  | some p => (moduleInfoAt P s p).module_start_address
  | none => 0

/-- The function `FLASH_isModuleInfoValid` (flash_mal.c, lines 635-645). -/
def FLASH_isModuleInfoValid (P : Platform) (s : FlashState)
    (flashDeviceID startAddress expectedAddress : Nat) : Bool :=
  match FLASH_ModuleInfo P s flashDeviceID startAddress with
  | some p =>
    (moduleInfoAt P s p).module_start_address = expectedAddress ∧
      (moduleInfoAt P s p).platform_id = P.PLATFORM_ID
  | none => false

/-- The header address the spec describes for an image at `address`: 0x184
bytes later when the first word, masked with `APP_START_MASK`, is `0x20000000`
(a vector-table entry), the address itself otherwise. -/
def headerAddress (P : Platform) (s : FlashState) (address : Nat) : Nat :=
  if Nat.land (readWord s address) P.APP_START_MASK = 0x20000000 then (address + 0x184) % U32
  else address

/-- The ordered list of upper-bound thresholds of the sectors of the internal
flash, sector 0 first. -/
def sectorThresholds : List Nat :=
  [0x08004000, 0x08008000, 0x0800C000, 0x08010000, 0x08020000, 0x08040000, 0x08060000,
   0x08080000, 0x080A0000, 0x080C0000, 0x080E0000, 0x08100000]

/-- The size of sector `k`: from its first address to the first address of the
next sector. -/
def sectorSize (k : Nat) : Nat := sectorBase (k + 1) - sectorBase k


/-! ## Update journal -/

/-- The fields of `platform_flash_modules_t`, the pending-install record, that
the driver assigns and reads. -/
structure platform_flash_modules_t where
  sourceDeviceID : Nat
  sourceAddress : Nat
  destinationDeviceID : Nat
  destinationAddress : Nat
  length : Nat
  magicNumber : Nat
  module_function : Nat
  flags : Nat
  deriving DecidableEq

/-- The constants the journal code takes from headers that are not among the
sources: the address `dct_read_app_data(DCT_FLASH_MODULES_OFFSET)` returns for
the table of records, the capacity `MAX_MODULES_SLOT`, the size of a record and
the byte offsets of its fields (the device identities, the function and the
flags are one byte each, the magic number two, the addresses and the length
four), and the compiled-in defaults of the factory reset. -/
structure JournalLayout where
  flash_modules : Nat
  MAX_MODULES_SLOT : Nat
  record_size : Nat
  offset_sourceDeviceID : Nat
  offset_sourceAddress : Nat
  offset_destinationDeviceID : Nat
  offset_destinationAddress : Nat
  offset_length : Nat
  offset_magicNumber : Nat
  offset_module_function : Nat
  offset_flags : Nat
  INTERNAL_FLASH_FAC_ADDRESS : Nat
  USER_FIRMWARE_IMAGE_LOCATION : Nat
  FIRMWARE_IMAGE_SIZE : Nat
  FACTORY_RESET_MODULE_FUNCTION : Nat

/-- The reserved slot of the factory reset record (the source: "slot 0 is
factory reset module"). -/
def FAC_RESET_SLOT : Nat := 0

/-- The first general slot (the source: "slot 0 is reserved for factory reset
module so start from flash_module_index = 1"). -/
def GEN_START_SLOT : Nat := 1

/-- The little-endian value of the `w` bytes of a byte array at address `a`. -/
def readLE (mem : Nat → Nat) : Nat → Nat → Nat
  | _, 0 => 0
  | a, w + 1 => mem a % 256 + 256 * readLE mem (a + 1) w

/-- Assignment to a field of `w` bytes at address `a`: the low `w` bytes of the
value, little-endian; the other bytes of the array are kept. -/
def storeLE (mem : Nat → Nat) (a w v : Nat) : Nat → Nat := fun x =>
  if a ≤ x ∧ x < a + w then v / 256 ^ (x - a) % 256 else mem x

/-- The fields of a record as (offset, width, value), in the order in which the
driver assigns them. -/
def recordFields (L : JournalLayout) (r : platform_flash_modules_t) : List (Nat × Nat × Nat) :=
  [(L.offset_sourceDeviceID, 1, r.sourceDeviceID),
   (L.offset_sourceAddress, 4, r.sourceAddress),
   (L.offset_destinationDeviceID, 1, r.destinationDeviceID),
   (L.offset_destinationAddress, 4, r.destinationAddress),
   (L.offset_length, 4, r.length),
   (L.offset_magicNumber, 2, r.magicNumber),
   (L.offset_module_function, 1, r.module_function),
   (L.offset_flags, 1, r.flags)]

/-- The field assignments of a record stored at `base`, one after the other. -/
def storeFields (base : Nat) : List (Nat × Nat × Nat) → (Nat → Nat) → Nat → Nat
  | [], mem => mem
  | f :: fs, mem => storeFields base fs (storeLE mem (base + f.1) f.2.1 f.2.2)

/-- The fields of the record stored at `base`. -/
def loadRecord (L : JournalLayout) (mem : Nat → Nat) (base : Nat) : platform_flash_modules_t :=
  { sourceDeviceID := readLE mem (base + L.offset_sourceDeviceID) 1
    sourceAddress := readLE mem (base + L.offset_sourceAddress) 4
    destinationDeviceID := readLE mem (base + L.offset_destinationDeviceID) 1
    destinationAddress := readLE mem (base + L.offset_destinationAddress) 4
    length := readLE mem (base + L.offset_length) 4
    magicNumber := readLE mem (base + L.offset_magicNumber) 2
    module_function := readLE mem (base + L.offset_module_function) 1
    flags := readLE mem (base + L.offset_flags) 1 }

/-- The address of `flash_modules[index]`. -/
def slotAddress (L : JournalLayout) (index : Nat) : Nat :=
  L.flash_modules + index * L.record_size

/-- The byte ranges (offset, width) of the fields of a record. -/
def fieldRanges (L : JournalLayout) : List (Nat × Nat) :=
  [(L.offset_sourceDeviceID, 1), (L.offset_sourceAddress, 4),
   (L.offset_destinationDeviceID, 1), (L.offset_destinationAddress, 4),
   (L.offset_length, 4), (L.offset_magicNumber, 2),
   (L.offset_module_function, 1), (L.offset_flags, 1)]

/-- What a C compiler and the memory map guarantee about the journal: the fields
of a record do not overlap and lie inside the record, the record is a whole
number of words, the table has at least the reserved slot and at most 255 slots
(the loop index is a `uint8_t`), and the table lies in the configuration
sectors, below the lowest address the range validator admits. -/
def JournalLayout.WellFormed (L : JournalLayout) : Prop :=
  (fieldRanges L).Pairwise (fun f g => f.1 + f.2 ≤ g.1 ∨ g.1 + g.2 ≤ f.1) ∧
  (∀ f ∈ fieldRanges L, f.1 + f.2 ≤ L.record_size) ∧
  L.record_size % 4 = 0 ∧
  1 ≤ L.MAX_MODULES_SLOT ∧ L.MAX_MODULES_SLOT ≤ 255 ∧
  L.flash_modules + L.MAX_MODULES_SLOT * L.record_size ≤ 0x08020000

/-- What the journal code does that is visible outside the flash: a write to the
configuration store, a call of the progress callback, a call of
`FLASH_CopyMemory` with its seven arguments. -/
inductive JournalEvent where
  | dctWrite (index : Nat)
  | callback (isUpdating : Bool)
  | copyMemory (sourceDeviceID sourceAddress destinationDeviceID destinationAddress
      length module_function flags : Nat)
  deriving DecidableEq

/-- Modelled from the spec: `dct_write_app_data` (not among the sources), "write
a byte range at a fixed logical offset + record index + record size": the
`size` bytes of `data` replace the stored bytes at `address`, so that a later
read of the table returns them. -/
def dct_write_app_data (s : FlashState) (data : Nat → Nat) (address size : Nat) : FlashState :=
  { s with mem := fun a => if address ≤ a ∧ a < address + size then data a % 256 else s.mem a }

/-- The test `memcmp(x, y, size) != 0` on the `size` bytes at `address`. -/
def memcmpDiffers (x y : Nat → Nat) (address size : Nat) : Bool :=
  (List.range size).any (fun k => x (address + k) % 256 ≠ y (address + k) % 256)

/-- The `for` loop of `FLASH_AddToNextAvailableModulesSlot` (lines 437-460), by
recursion on the number of indices still to visit; the table it scans is the
copy taken at line 433, the stored table. -/
def addSlotLoop (L : JournalLayout) (s : FlashState) (r : platform_flash_modules_t) :
    Nat → Nat → Bool × FlashState × List JournalEvent
  | 0, _ => (false, s, [])
  | remaining + 1, flash_module_index =>
    if (loadRecord L s.mem (slotAddress L flash_module_index)).magicNumber = 0xABCD then
      addSlotLoop L s r remaining (flash_module_index + 1)
    else
      (true,
        dct_write_app_data s
          (storeFields (slotAddress L flash_module_index) (recordFields L r) s.mem)
          (slotAddress L flash_module_index) L.record_size,
        [JournalEvent.dctWrite flash_module_index])

/-- The function `FLASH_AddToNextAvailableModulesSlot` (flash_mal.c, lines
424-463): the result, the flash afterwards and the writes issued to the
configuration store. -/
def FLASH_AddToNextAvailableModulesSlot (L : JournalLayout) (s : FlashState)
    (sourceDeviceID sourceAddress destinationDeviceID destinationAddress length
      function flags : Nat) : Bool × FlashState × List JournalEvent :=
  addSlotLoop L s
    { sourceDeviceID := sourceDeviceID, sourceAddress := sourceAddress,
      destinationDeviceID := destinationDeviceID, destinationAddress := destinationAddress,
      length := length, magicNumber := 0xABCD, module_function := function, flags := flags }
    (L.MAX_MODULES_SLOT - GEN_START_SLOT) GEN_START_SLOT

/-- The record that lines 475-482 of `FLASH_AddToFactoryResetModuleSlot` assign:
the parameters of the call with the magic number `0x0FAC`. -/
def factoryRecord (sourceDeviceID sourceAddress destinationDeviceID destinationAddress
    length function flags : Nat) : platform_flash_modules_t :=
  { sourceDeviceID := sourceDeviceID, sourceAddress := sourceAddress,
    destinationDeviceID := destinationDeviceID, destinationAddress := destinationAddress,
    length := length, magicNumber := 0x0FAC, module_function := function, flags := flags }

/-- The function `FLASH_AddToFactoryResetModuleSlot` (flash_mal.c, lines
465-493): the result, the flash afterwards and the writes issued to the
configuration store. -/
def FLASH_AddToFactoryResetModuleSlot (L : JournalLayout) (s : FlashState)
    (sourceDeviceID sourceAddress destinationDeviceID destinationAddress length
      function flags : Nat) : Bool × FlashState × List JournalEvent :=
  let flash_modules := storeFields (slotAddress L FAC_RESET_SLOT)
    (recordFields L
      (factoryRecord sourceDeviceID sourceAddress destinationDeviceID destinationAddress
        length function flags)) s.mem
  if memcmpDiffers flash_modules s.mem (slotAddress L FAC_RESET_SLOT) L.record_size then
    (true,
      dct_write_app_data s flash_modules (slotAddress L FAC_RESET_SLOT) L.record_size,
      [JournalEvent.dctWrite FAC_RESET_SLOT])
  else (true, s, [])

/-- The loop `while(length--) { FLASH_ProgramWord(address, 0); address += 4; }`
(lines 506-510 and 577-581); the status of each program is not looked at. -/
def zeroWords : Nat → Nat → FlashState → FlashState
  | 0, _, s => s
  | length + 1, address, s =>
    zeroWords length ((address + 4) % U32) (FLASH_ProgramWord s address 0).2

/-- The function `FLASH_ClearFactoryResetModuleSlot` (flash_mal.c, lines 495-515). -/
def FLASH_ClearFactoryResetModuleSlot (L : JournalLayout) (s : FlashState) :
    Bool × FlashState :=
  (true, FLASH_Lock
    (zeroWords (L.record_size / 4) (slotAddress L FAC_RESET_SLOT) (FLASH_Unlock s)))

/-- The function `FLASH_RestoreFromFactoryResetModuleSlot` (flash_mal.c, lines
517-542). -/
def FLASH_RestoreFromFactoryResetModuleSlot (P : Platform) (L : JournalLayout)
    (s : FlashState) : Option (Bool × FlashState) :=
  if (loadRecord L s.mem (slotAddress L FAC_RESET_SLOT)).magicNumber = 0x0FAC then
    FLASH_CopyMemory P s
      (loadRecord L s.mem (slotAddress L FAC_RESET_SLOT)).sourceDeviceID
      (loadRecord L s.mem (slotAddress L FAC_RESET_SLOT)).sourceAddress
      (loadRecord L s.mem (slotAddress L FAC_RESET_SLOT)).destinationDeviceID
      (loadRecord L s.mem (slotAddress L FAC_RESET_SLOT)).destinationAddress
      (loadRecord L s.mem (slotAddress L FAC_RESET_SLOT)).length
      (loadRecord L s.mem (slotAddress L FAC_RESET_SLOT)).module_function
      (loadRecord L s.mem (slotAddress L FAC_RESET_SLOT)).flags
  else
    FLASH_CopyMemory P s FLASH_INTERNAL L.INTERNAL_FLASH_FAC_ADDRESS FLASH_INTERNAL
      L.USER_FIRMWARE_IMAGE_LOCATION L.FIRMWARE_IMAGE_SIZE L.FACTORY_RESET_MODULE_FUNCTION
      (Nat.lor (Nat.lor P.MODULE_VERIFY_CRC P.MODULE_VERIFY_DESTINATION_IS_START_ADDRESS)
        P.MODULE_VERIFY_FUNCTION)

/-- The calls of the progress callback around one slot: none when the callback
pointer is null. -/
def notify (callback isUpdating : Bool) : List JournalEvent :=
  if callback then [JournalEvent.callback isUpdating] else []

/-- The `for` loop of `FLASH_UpdateModules` (lines 552-591), by recursion on the
number of indices still to visit.  `callback` tells whether the callback pointer
is non-null.  Each record is read from the flash as it is when its index is
reached.  The result is `none` only if a copy does not finish. -/
def updateLoop (P : Platform) (L : JournalLayout) (callback : Bool) :
    Nat → Nat → FlashState → Option (FlashState × List JournalEvent)
  | 0, _, s => some (s, [])
  | remaining + 1, flash_module_index, s =>
    if (loadRecord L s.mem (slotAddress L flash_module_index)).magicNumber = 0xABCD then
      match FLASH_CopyMemory P s
          (loadRecord L s.mem (slotAddress L flash_module_index)).sourceDeviceID
          (loadRecord L s.mem (slotAddress L flash_module_index)).sourceAddress
          (loadRecord L s.mem (slotAddress L flash_module_index)).destinationDeviceID
          (loadRecord L s.mem (slotAddress L flash_module_index)).destinationAddress
          (loadRecord L s.mem (slotAddress L flash_module_index)).length
          (loadRecord L s.mem (slotAddress L flash_module_index)).module_function
          (loadRecord L s.mem (slotAddress L flash_module_index)).flags with
      | none => none
      | some c =>
        match updateLoop P L callback remaining (flash_module_index + 1)
            (FLASH_Lock (zeroWords (L.record_size / 4) (slotAddress L flash_module_index)
              (FLASH_Unlock c.2))) with
        | none => none
        | some u =>
          some (u.1,
            notify callback true ++
            [JournalEvent.copyMemory
              (loadRecord L s.mem (slotAddress L flash_module_index)).sourceDeviceID
              (loadRecord L s.mem (slotAddress L flash_module_index)).sourceAddress
              (loadRecord L s.mem (slotAddress L flash_module_index)).destinationDeviceID
              (loadRecord L s.mem (slotAddress L flash_module_index)).destinationAddress
              (loadRecord L s.mem (slotAddress L flash_module_index)).length
              (loadRecord L s.mem (slotAddress L flash_module_index)).module_function
              (loadRecord L s.mem (slotAddress L flash_module_index)).flags] ++
            notify callback false ++ u.2)
    else updateLoop P L callback remaining (flash_module_index + 1) s

/-- The function `FLASH_UpdateModules` (flash_mal.c, lines 545-592): the flash
afterwards and, in order, the calls of the callback and of `FLASH_CopyMemory`. -/
def FLASH_UpdateModules (P : Platform) (L : JournalLayout) (callback : Bool)
    (s : FlashState) : Option (FlashState × List JournalEvent) :=
  updateLoop P L callback (L.MAX_MODULES_SLOT - GEN_START_SLOT) GEN_START_SLOT s

/-- A concrete journal: five records of 20 bytes at `0x08004100`, the three
32-bit fields first, then the magic number, the function, the flags and the two
device identities; factory image in sector 11, user firmware in sector 5. -/
def exampleLayout : JournalLayout :=
  { flash_modules := 0x08004100
    MAX_MODULES_SLOT := 5
    record_size := 20
    offset_sourceDeviceID := 16
    offset_sourceAddress := 0
    offset_destinationDeviceID := 17
    offset_destinationAddress := 4
    offset_length := 8
    offset_magicNumber := 12
    offset_module_function := 14
    offset_flags := 15
    INTERNAL_FLASH_FAC_ADDRESS := 0x080E0000
    USER_FIRMWARE_IMAGE_LOCATION := 0x08020000
    FIRMWARE_IMAGE_SIZE := 0x20000
    FACTORY_RESET_MODULE_FUNCTION := 3 }


/-- The values of a record fit the C types of its fields. -/
def recordInRange (r : platform_flash_modules_t) : Prop :=
  r.sourceDeviceID < 256 ∧ r.sourceAddress < U32 ∧ r.destinationDeviceID < 256 ∧
  r.destinationAddress < U32 ∧ r.length < U32 ∧ r.magicNumber < 65536 ∧
  r.module_function < 256 ∧ r.flags < 256


/-- A healthy flash whose bytes are all zero: every slot of the journal is empty. -/
def emptyJournal : FlashState := healthyFlash (fun _ => 0)


/-- The general slots, out of the `n` slots from index `i` on, that are occupied
(magic number `0xABCD`) in the flash `s`, in ascending order. -/
def occupiedFrom (L : JournalLayout) (s : FlashState) (i n : Nat) : List Nat :=
  (List.range' i n).filter
    (fun j => decide ((loadRecord L s.mem (slotAddress L j)).magicNumber = 0xABCD))

/-- The call of `FLASH_CopyMemory` with the parameters stored in slot `j` of `s`. -/
def copyEventOf (L : JournalLayout) (s : FlashState) (j : Nat) : JournalEvent :=
  JournalEvent.copyMemory
    (loadRecord L s.mem (slotAddress L j)).sourceDeviceID
    (loadRecord L s.mem (slotAddress L j)).sourceAddress
    (loadRecord L s.mem (slotAddress L j)).destinationDeviceID
    (loadRecord L s.mem (slotAddress L j)).destinationAddress
    (loadRecord L s.mem (slotAddress L j)).length
    (loadRecord L s.mem (slotAddress L j)).module_function
    (loadRecord L s.mem (slotAddress L j)).flags

/-- The calls made for one occupied slot: the callback with true, the copy, the
callback with false (the callback calls only when the pointer is non-null). -/
def slotEvents (L : JournalLayout) (callback : Bool) (s : FlashState) (j : Nat) :
    List JournalEvent :=
  notify callback true ++ [copyEventOf L s j] ++ notify callback false

/-- The arguments of the calls of the progress callback, in order. -/
def callbacksOf (events : List JournalEvent) : List Bool :=
  events.filterMap (fun e =>
    match e with
    | JournalEvent.callback b => some b
    | _ => none)


/-- The journal after three pending installs have been added to the empty
journal of `exampleLayout`: slots 1, 2 and 3 are occupied. -/
def threeInstalls : FlashState :=
  (FLASH_AddToNextAvailableModulesSlot exampleLayout
    (FLASH_AddToNextAvailableModulesSlot exampleLayout
      (FLASH_AddToNextAvailableModulesSlot exampleLayout emptyJournal
        0 0x08060000 0 0x08020000 8 5 0).2.1
      0 0x08080000 0 0x08040000 8 5 0).2.1
    0 0x080A0000 0 0x080C0000 8 5 0).2.1


/-- The journal after a factory reset record has been set on the empty journal of
`exampleLayout`. -/
def factorySet : FlashState :=
  (FLASH_AddToFactoryResetModuleSlot exampleLayout emptyJournal
    0 0x080E0000 0 0x08020000 16 3 0x0E).2.1


/-! ## Sequences of issued operations -/

/-- The sector erases of `n` consecutive iterations of the loop of
`FLASH_EraseMemory` from the sector identifier `flashSector`: the identifiers
`flashSector`, `flashSector + 8`, ... in ascending order. -/
def eraseOps (flashSector n : Nat) : List FlashOp :=
  (List.range n).map (fun j => FlashOp.eraseSector (flashSector + 8 * j))


/-! ## Flashes that report a failure -/

/-- A flash, all bytes zero and the controller locked, on which the erase of
sector 5 reports failure; every other erase and every program reports success. -/
def eraseFailureFlash : FlashState :=
  { healthyFlash (fun _ => 0) with eraseOk := fun sector => decide (sector ≠ FLASH_Sector 5) }

/-- A flash, all bytes zero and the controller locked, on which the program of
the word at `0x08020004` reports failure; every other program and every erase
reports success. -/
def programFailureFlash : FlashState :=
  { healthyFlash (fun _ => 0) with programOk := fun address => decide (address ≠ 0x08020004) }


/-- The addresses of the word programs in a log of issued operations, in the
order in which they were issued. -/
def programAddresses (log : List FlashOp) : List Nat :=
  log.filterMap (fun op =>
    match op with
    | FlashOp.programWord address _ => some address
    | _ => none)

/-- A flash image whose eight bytes at `0x08060000` are `0x11`; every other byte
is zero. -/
def eightBytesImage : Nat → Nat := fun a =>
  if 0x08060000 ≤ a ∧ a < 0x08060008 then 0x11 else 0


/-- The calls of `FLASH_CopyMemory` among the events of a run, in order. -/
def copiesOf (events : List JournalEvent) : List JournalEvent :=
  events.filter (fun e =>
    match e with
    | JournalEvent.copyMemory _ _ _ _ _ _ _ => true
    | _ => false)


/-! ## Over-the-air update of the internal flash -/

/-- The variables that `FLASH_Begin` and `FLASH_Update` work on in the build
without `USE_SERIAL_FLASH`: the internal flash, the static variables of lines
42-44, and the field `OTA_FLASHED_Status_SysFlag` of `system_flags` together
with the value of it that was last saved. -/
structure UpdateState where
  flash : FlashState
  Internal_Flash_Start_Address : Nat
  Internal_Flash_Address : Nat
  Internal_Flash_Update_Index : Nat
  OTA_FLASHED_Status_SysFlag : Nat
  saved_OTA_FLASHED_Status_SysFlag : Nat

/-- Modelled from the spec: `Save_SystemFlags` (not among the sources), part of
the "system-flags/boot-reporting" collaborator: it stores the system flags. -/
def Save_SystemFlags (u : UpdateState) : UpdateState :=
  { u with saved_OTA_FLASHED_Status_SysFlag := u.OTA_FLASHED_Status_SysFlag }

/-- The function `FLASH_Begin` (flash_mal.c, lines 789-807), in the build without
`USE_SERIAL_FLASH`; the result of the erase is not looked at. -/
def FLASH_Begin (u : UpdateState) (FLASH_Address imageSize : Nat) : UpdateState :=
  let u1 := Save_SystemFlags { u with OTA_FLASHED_Status_SysFlag := 0x0000 }
  { u1 with
      Internal_Flash_Update_Index := 0,
      Internal_Flash_Start_Address := FLASH_Address,
      Internal_Flash_Address := FLASH_Address,
      flash := (FLASH_EraseMemory u1.flash FLASH_INTERNAL FLASH_Address imageSize).2 }

/-- The loop `for (index = bufferSize; index < ((bufferSize & 0xFFFC) + 4);
index++) pBuffer[index] = 0xFF;` of `FLASH_Update` (lines 824-827), by recursion
on the number of iterations still to run; the buffer maps an index to the byte
`pBuffer[index]`. -/
def padLoop : Nat → Nat → (Nat → Nat) → (Nat → Nat)
  | 0, _, pBuffer => pBuffer
  | remaining + 1, index, pBuffer =>
    padLoop remaining ((index + 1) % U32) (fun i => if i = index then 0xFF else pBuffer i)

/-- The loop `for (index = 0; index < bufferSize; index += 4)` of `FLASH_Update`
(lines 836-840): one `FLASH_ProgramWord` of the word `*(uint32_t *)(pBuffer +
index)` per iteration, whose status is not looked at, the write address 4
higher each time.  The first argument bounds the number of loop tests; `none`
means the bound was reached.  The result is the write address and the flash
after the loop. -/
def updateWords (pBuffer : Nat → Nat) (bufferSize : Nat) :
    Nat → Nat → Nat → FlashState → Option (Nat × FlashState)
  | 0, _, _, _ => none
  | fuel + 1, index, address, s =>
    if index < bufferSize then
      updateWords pBuffer bufferSize fuel ((index + 4) % U32) ((address + 4) % U32)
        (FLASH_ProgramWord s address (readLE pBuffer index 4)).2
    else some (address, s)

/-- The function `FLASH_Update` (flash_mal.c, lines 809-849), in the build without
`USE_SERIAL_FLASH`: the returned index, the variables afterwards and the
caller's buffer afterwards (the padding is written into it).  The result is
`none` only if the program loop does not finish within `bufferSize / 4 + 2`
tests of its condition. -/
def FLASH_Update (u : UpdateState) (pBuffer : Nat → Nat) (bufferSize : Nat) :
    Option (Nat × UpdateState × (Nat → Nat)) :=
  let padded :=
    if Nat.land bufferSize 0x3 ≠ 0 then
      padLoop ((Nat.land bufferSize 0xFFFC + 4) % U32 - bufferSize) bufferSize pBuffer
    else pBuffer
  match updateWords padded bufferSize (bufferSize / 4 + 2) 0 u.Internal_Flash_Address
      (FLASH_ClearFlags (FLASH_Unlock u.flash)) with
  | none => none
  | some r =>
    some ((u.Internal_Flash_Update_Index + 1) % 65536,
      { u with
          flash := FLASH_Lock r.2,
          Internal_Flash_Address := r.1,
          Internal_Flash_Update_Index := (u.Internal_Flash_Update_Index + 1) % 65536 },
      padded)

/-- The word programs of `n` consecutive iterations of the program loop of
`FLASH_Update` from the write address `address`: word `i` of the buffer goes to
`address + 4 * i`. -/
def updatePrograms (pBuffer : Nat → Nat) (address n : Nat) : List FlashOp :=
  (List.range n).map
    (fun i => FlashOp.programWord ((address + 4 * i) % U32) (readLE pBuffer (4 * i) 4))

/-- The variables after `FLASH_Begin(0x08020000, 0x20000)` on a healthy flash
whose bytes are all zero. -/
def otaBegun : UpdateState :=
  FLASH_Begin
    { flash := healthyFlash (fun _ => 0), Internal_Flash_Start_Address := 0,
      Internal_Flash_Address := 0, Internal_Flash_Update_Index := 7,
      OTA_FLASHED_Status_SysFlag := 1, saved_OTA_FLASHED_Status_SysFlag := 1 }
    0x08020000 0x20000

/-- A buffer of `0x10001` bytes `0xAA`; the bytes after it are zero. -/
def largeBuffer : Nat → Nat := fun i => if i < 0x10001 then 0xAA else 0

/-! ## Journals on a flash that refuses the zero programs -/

/-- A journal whose reserved slot holds the factory reset record of a copy of 8
bytes from `0x08060000` to `0x08040000` with flags 0, on a flash on which every
program below `0x08020000` reports failure. -/
def stuckFactory : FlashState :=
  { (FLASH_AddToFactoryResetModuleSlot exampleLayout emptyJournal
      0 0x08060000 0 0x08040000 8 3 0).2.1 with
    programOk := fun address => decide (0x08020000 ≤ address) }

/-! # Theorems -/

/-! ## Range validator -/

/-- Unfolding of the validator on the internal device. -/
theorem checkValid_internal (start length : Nat) :
    FLASH_CheckValidAddressRange FLASH_INTERNAL start length = true ↔
      0x08020000 ≤ start ∧ endAddressOf start length < 0x08100000 := by
  simp only [FLASH_CheckValidAddressRange]
  split_ifs <;> simp <;> omega

/-- A device identity other than `FLASH_INTERNAL` is always rejected. -/
theorem checkValid_not_internal (dev start length : Nat) (h : dev ≠ FLASH_INTERNAL) :
    FLASH_CheckValidAddressRange dev start length = false := by
  unfold FLASH_CheckValidAddressRange
  simp [h]

/-- A valid range is on the internal device. -/
theorem checkValid_dev (dev start length : Nat)
    (h : FLASH_CheckValidAddressRange dev start length = true) : dev = FLASH_INTERNAL := by
  by_contra hne
  rw [checkValid_not_internal dev start length hne] at h
  exact Bool.noConfusion h

/-- The wrapped end address, as an integer remainder. -/
theorem endAddressOf_int (start length : Nat) :
    ((endAddressOf start length : Nat) : Int) = ((start : Int) + length - 1) % 4294967296 := by
  unfold endAddressOf U32
  omega

/-- C2. In the build without a Serial device, for every device id, start and
length, `FLASH_CheckValidAddressRange` returns true exactly when the device is
Internal, `start >= 0x08020000` and `(start + length - 1) mod 2^32 < 0x08100000`;
every non-wrapping range that meets the reserved base sector
`[0x08000000, 0x08004000)` is rejected, and every device other than Internal is
rejected. -/
theorem C2_checkValidAddressRange_iff (dev start length : Nat) :
    (FLASH_CheckValidAddressRange dev start length = true ↔
      (dev = FLASH_INTERNAL ∧ 0x08020000 ≤ start ∧
        ((start : Int) + length - 1) % 4294967296 < 0x08100000)) ∧
    ((start + length ≤ U32 ∧ ∃ a, start ≤ a ∧ a < start + length ∧
        0x08000000 ≤ a ∧ a < 0x08004000) →
      FLASH_CheckValidAddressRange dev start length = false) ∧
    (dev ≠ FLASH_INTERNAL → FLASH_CheckValidAddressRange dev start length = false) := by
  have hiff : FLASH_CheckValidAddressRange dev start length = true ↔
      (dev = FLASH_INTERNAL ∧ 0x08020000 ≤ start ∧
        ((start : Int) + length - 1) % 4294967296 < 0x08100000) := by
    constructor
    · intro h
      have hd := checkValid_dev dev start length h
      subst hd
      have h2 := (checkValid_internal start length).1 h
      have h3 := endAddressOf_int start length
      refine ⟨rfl, h2.1, ?_⟩
      rw [← h3]
      exact_mod_cast h2.2
    · rintro ⟨hd, h1, h2⟩
      subst hd
      rw [checkValid_internal]
      refine ⟨h1, ?_⟩
      rw [← endAddressOf_int] at h2
      exact_mod_cast h2
  refine ⟨hiff, ?_, checkValid_not_internal dev start length⟩
  rintro ⟨_, a, ha1, ha2, ha3, ha4⟩
  cases hv : FLASH_CheckValidAddressRange dev start length
  · rfl
  · have := hiff.1 hv
    omega

/-- C3 (the code at the failing input). The range that starts at `0x08020000`
and has length `0xFFFFFFFF` ends, as an unbounded integer, far beyond the top of
the window, yet the 32-bit sum wraps to `0x0801FFFE` and the validator accepts
the range. -/
theorem C3_wrapping_range_accepted :
    0x08100000 ≤ (0x08020000 : Int) + 0xFFFFFFFF - 1 ∧
    FLASH_CheckValidAddressRange FLASH_INTERNAL 0x08020000 0xFFFFFFFF = true := by
  decide

/-- C4 (counterexample). A range that starts exactly at the upper edge of the
reserved base sector, `0x08004000`, and ends below the top of the window is
rejected. -/
theorem C4_counterexample :
    endAddressOf 0x08004000 0x1000 < 0x08100000 ∧
    FLASH_CheckValidAddressRange FLASH_INTERNAL 0x08004000 0x1000 = false := by
  decide

/-- C4 (amended). On the Internal device the accepted ranges begin at the lowest
installable address: a range that starts exactly at `0x08020000` and whose
inclusive end is below the top of the window is accepted, and the same length
starting one byte lower, at `0x0801FFFF`, is rejected. -/
theorem C4_boundary_amended (length : Nat)
    (hend : endAddressOf 0x08020000 length < 0x08100000) :
    FLASH_CheckValidAddressRange FLASH_INTERNAL 0x08020000 length = true ∧
    FLASH_CheckValidAddressRange FLASH_INTERNAL 0x0801FFFF length = false := by
  constructor
  · rw [checkValid_internal]
    exact ⟨by decide, hend⟩
  · cases hv : FLASH_CheckValidAddressRange FLASH_INTERNAL 0x0801FFFF length
    · rfl
    · have := (checkValid_internal 0x0801FFFF length).1 hv
      omega

/-- Witness for the amended C4 with a 4 KB range. -/
theorem C4_boundary_amended_witness :
    endAddressOf 0x08020000 0x1000 < 0x08100000 ∧
    FLASH_CheckValidAddressRange FLASH_INTERNAL 0x08020000 0x1000 = true ∧
    FLASH_CheckValidAddressRange FLASH_INTERNAL 0x0801FFFF 0x1000 = false :=
  ⟨by decide, C4_boundary_amended 0x1000 (by decide)⟩

/-! ## Erase engine -/

theorem eraseSector_eraseOk (s : FlashState) (sector : Nat) :
    (FLASH_EraseSector s sector).2.eraseOk = s.eraseOk := by
  unfold FLASH_EraseSector
  split_ifs <;> rfl

theorem eraseSector_programOk (s : FlashState) (sector : Nat) :
    (FLASH_EraseSector s sector).2.programOk = s.programOk := by
  unfold FLASH_EraseSector
  split_ifs <;> rfl

theorem eraseSector_locked (s : FlashState) (sector : Nat) :
    (FLASH_EraseSector s sector).2.locked = s.locked := by
  unfold FLASH_EraseSector
  split_ifs <;> rfl

theorem eraseSector_log (s : FlashState) (sector : Nat) :
    (FLASH_EraseSector s sector).2.log = s.log ++ [FlashOp.eraseSector sector] := by
  unfold FLASH_EraseSector
  split_ifs <;> rfl

theorem eraseSector_fst (s : FlashState) (sector : Nat) :
    (FLASH_EraseSector s sector).1 = s.eraseOk sector := by
  unfold FLASH_EraseSector
  split_ifs with h <;> simp [h]

theorem eraseSector_mem (s : FlashState) (sector a : Nat) :
    (FLASH_EraseSector s sector).2.mem a =
      if s.eraseOk sector = true ∧ inSector sector a = true then ERASED else s.mem a := by
  unfold FLASH_EraseSector
  split_ifs <;> simp_all

/-- The erase loop leaves the status oracles and the lock bit alone. -/
theorem eraseLoop_fields (fs : Nat) : ∀ (n c : Nat) (s : FlashState),
    (eraseLoop fs n c s).2.eraseOk = s.eraseOk ∧
    (eraseLoop fs n c s).2.programOk = s.programOk ∧
    (eraseLoop fs n c s).2.locked = s.locked := by
  intro n
  induction n with
  | zero => intro c s; exact ⟨rfl, rfl, rfl⟩
  | succ n ih =>
    intro c s
    simp only [eraseLoop]
    split_ifs with h
    · obtain ⟨h1, h2, h3⟩ := ih (c + 1) (FLASH_EraseSector s ((fs + 8 * c) % U32)).2
      rw [h1, h2, h3]
      exact ⟨eraseSector_eraseOk _ _, eraseSector_programOk _ _, eraseSector_locked _ _⟩
    · exact ⟨eraseSector_eraseOk _ _, eraseSector_programOk _ _, eraseSector_locked _ _⟩

/-- The erase loop appends to the log only sector erases, each for the
identifier `flashSector + 8 * i` of an iteration `i` of the loop. -/
theorem eraseLoop_log (fs : Nat) : ∀ (n c : Nat) (s : FlashState),
    ∃ issued, (eraseLoop fs n c s).2.log = s.log ++ issued ∧
      ∀ op ∈ issued, ∃ i, c ≤ i ∧ i < c + n ∧ op = FlashOp.eraseSector ((fs + 8 * i) % U32) := by
  intro n
  induction n with
  | zero => intro c s; exact ⟨[], by simp [eraseLoop], by simp⟩
  | succ n ih =>
    intro c s
    simp only [eraseLoop]
    split_ifs with h
    · obtain ⟨issued, h1, h2⟩ := ih (c + 1) (FLASH_EraseSector s ((fs + 8 * c) % U32)).2
      refine ⟨FlashOp.eraseSector ((fs + 8 * c) % U32) :: issued, ?_, ?_⟩
      · rw [h1, eraseSector_log]; simp
      · intro op hop
        rcases List.mem_cons.1 hop with rfl | hop
        · exact ⟨c, le_refl _, by omega, rfl⟩
        · obtain ⟨i, hi1, hi2, hi3⟩ := h2 op hop
          exact ⟨i, by omega, by omega, hi3⟩
    · refine ⟨[FlashOp.eraseSector ((fs + 8 * c) % U32)], eraseSector_log _ _, ?_⟩
      intro op hop
      rw [List.mem_singleton] at hop
      exact ⟨c, le_refl _, by omega, hop⟩

/-- A byte outside every sector the loop visits keeps its value. -/
theorem eraseLoop_mem_outside (fs a : Nat) : ∀ (n c : Nat) (s : FlashState),
    (∀ i, c ≤ i → i < c + n → inSector ((fs + 8 * i) % U32) a = false) →
    (eraseLoop fs n c s).2.mem a = s.mem a := by
  intro n
  induction n with
  | zero => intro c s _; rfl
  | succ n ih =>
    intro c s hout
    have hc : inSector ((fs + 8 * c) % U32) a = false := hout c (le_refl _) (by omega)
    simp only [eraseLoop]
    split_ifs with h
    · rw [ih (c + 1) _ (fun i hi1 hi2 => hout i (by omega) (by omega)), eraseSector_mem]
      simp [hc]
    · rw [eraseSector_mem]
      simp [hc]

/-- A byte that holds the erased pattern keeps it through the loop. -/
theorem eraseLoop_mem_erased (fs a : Nat) : ∀ (n c : Nat) (s : FlashState),
    s.mem a = ERASED → (eraseLoop fs n c s).2.mem a = ERASED := by
  intro n
  induction n with
  | zero => intro c s h; exact h
  | succ n ih =>
    intro c s hs
    have h1 : (FLASH_EraseSector s ((fs + 8 * c) % U32)).2.mem a = ERASED := by
      rw [eraseSector_mem]
      split_ifs
      · rfl
      · exact hs
    simp only [eraseLoop]
    split_ifs with h
    · exact ih (c + 1) _ h1
    · exact h1

/-- When the loop reports success, every byte of every sector it visited holds
the erased pattern. -/
theorem eraseLoop_mem_inside (fs a : Nat) : ∀ (n c : Nat) (s : FlashState),
    (eraseLoop fs n c s).1 = true →
    (∃ i, c ≤ i ∧ i < c + n ∧ inSector ((fs + 8 * i) % U32) a = true) →
    (eraseLoop fs n c s).2.mem a = ERASED := by
  intro n
  induction n with
  | zero => intro c s _ ⟨i, h1, h2, _⟩; omega
  | succ n ih =>
    intro c s hok ⟨i, hi1, hi2, hi3⟩
    simp only [eraseLoop] at hok ⊢
    split_ifs at hok ⊢ with h
    · rcases Nat.eq_or_lt_of_le hi1 with heq | hlt
      · subst heq
        apply eraseLoop_mem_erased
        rw [eraseSector_mem]
        rw [eraseSector_fst] at h
        simp [h, hi3]
      · exact ih (c + 1) _ hok ⟨i, by omega, by omega, hi3⟩

/-- On a device whose erases all report success the loop reports success. -/
theorem eraseLoop_healthy (fs : Nat) : ∀ (n c : Nat) (s : FlashState),
    (∀ x, s.eraseOk x = true) → (eraseLoop fs n c s).1 = true := by
  intro n
  induction n with
  | zero => intro c s _; rfl
  | succ n ih =>
    intro c s hs
    simp only [eraseLoop]
    rw [eraseSector_fst, hs, if_pos rfl]
    apply ih
    rw [eraseSector_eraseOk]
    exact hs

/-- The sector of an address at or above the lowest installable address. -/
theorem sectorToErase_installable (start : Nat) (h : 0x08020000 ≤ start) :
    (0x08100000 ≤ start ∧ FLASH_SectorToErase FLASH_INTERNAL start = INVALID_SECTOR) ∨
    (start < 0x08100000 ∧
      FLASH_SectorToErase FLASH_INTERNAL start =
        FLASH_Sector (5 + (start - 0x08020000) / 0x20000)) := by
  unfold FLASH_SectorToErase FLASH_Sector INVALID_SECTOR
  rw [if_neg (not_not.2 rfl), if_neg (by omega), if_neg (by omega), if_neg (by omega),
    if_neg (by omega), if_neg (by omega)]
  by_cases h5 : start < 0x08040000
  · rw [if_pos h5]; right; exact ⟨by omega, by omega⟩
  rw [if_neg h5]
  by_cases h6 : start < 0x08060000
  · rw [if_pos h6]; right; exact ⟨by omega, by omega⟩
  rw [if_neg h6]
  by_cases h7 : start < 0x08080000
  · rw [if_pos h7]; right; exact ⟨by omega, by omega⟩
  rw [if_neg h7]
  by_cases h8 : start < 0x080A0000
  · rw [if_pos h8]; right; exact ⟨by omega, by omega⟩
  rw [if_neg h8]
  by_cases h9 : start < 0x080C0000
  · rw [if_pos h9]; right; exact ⟨by omega, by omega⟩
  rw [if_neg h9]
  by_cases h10 : start < 0x080E0000
  · rw [if_pos h10]; right; exact ⟨by omega, by omega⟩
  rw [if_neg h10]
  by_cases h11 : start < 0x08100000
  · rw [if_pos h11]; right; exact ⟨by omega, by omega⟩
  rw [if_neg h11]
  left
  exact ⟨by omega, rfl⟩

/-- The page count for the 128 KB page size. -/
theorem pagesMask_internal (length : Nat) (hl : length < U32) :
    FLASH_PagesMask length INTERNAL_FLASH_PAGE_SIZE = (length + 0x1FFFF) / 0x20000 := by
  unfold FLASH_PagesMask INTERNAL_FLASH_PAGE_SIZE
  unfold U32 at *
  split_ifs <;> omega

/-- The two ways `FLASH_EraseMemory` can run: it returns `false` at once without
touching the flash, or it unlocks, clears the flags and runs the erase loop from
the sector of `startAddress`, one of sectors 5 to 11. -/
theorem eraseMemory_cases (s : FlashState) (dev start length : Nat) :
    FLASH_EraseMemory s dev start length = (false, s) ∨
    (FLASH_CheckValidAddressRange dev start length = true ∧ dev = FLASH_INTERNAL ∧
      start < 0x08100000 ∧
      FLASH_EraseMemory s dev start length =
        if (eraseLoop (FLASH_Sector (5 + (start - 0x08020000) / 0x20000))
              (FLASH_PagesMask length INTERNAL_FLASH_PAGE_SIZE) 0
              (FLASH_ClearFlags (FLASH_Unlock s))).1 = true
        then (true, FLASH_Lock (eraseLoop (FLASH_Sector (5 + (start - 0x08020000) / 0x20000))
              (FLASH_PagesMask length INTERNAL_FLASH_PAGE_SIZE) 0
              (FLASH_ClearFlags (FLASH_Unlock s))).2)
        else (false, (eraseLoop (FLASH_Sector (5 + (start - 0x08020000) / 0x20000))
              (FLASH_PagesMask length INTERNAL_FLASH_PAGE_SIZE) 0
              (FLASH_ClearFlags (FLASH_Unlock s))).2)) := by
  by_cases hv : FLASH_CheckValidAddressRange dev start length = true
  · have hd := checkValid_dev dev start length hv
    subst hd
    have hs := ((checkValid_internal start length).1 hv).1
    rcases sectorToErase_installable start hs with ⟨h1, h2⟩ | ⟨h1, h2⟩
    · left
      unfold FLASH_EraseMemory
      simp [hv, h2, INVALID_SECTOR, FLASH_Sector]
    · right
      refine ⟨hv, rfl, h1, ?_⟩
      unfold FLASH_EraseMemory
      have h3 : ¬ FLASH_Sector (5 + (start - 0x08020000) / 0x20000) > FLASH_Sector 11 := by
        unfold FLASH_Sector; omega
      simp only [hv, h2, bne_self_eq_false, if_true, if_false, h3, Bool.false_eq_true]
  · left
    unfold FLASH_EraseMemory
    simp [hv]

/-- No sector from index 5 upwards, and no identifier that names no sector,
contains an address below the lowest installable address. -/
theorem inSector_low (k a : Nat) (hk : 5 ≤ k) (ha : a < 0x08020000) :
    inSector (FLASH_Sector k) a = false := by
  unfold inSector FLASH_Sector sectorBase
  have h1 : 8 * k / 8 = k := by omega
  rw [h1]
  simp only [decide_eq_false_iff_not, not_and, not_lt]
  intro _ _ h
  split_ifs at h <;> omega

/-- C5. With a 32-bit length, every sector erase that `FLASH_EraseMemory` issues
names a sector of index at least 5 (identifier `8 * index`), so no byte below
`0x08020000`, sector 0 included, is changed; and when the range is valid,
`length >= 1` and `start + length - 1` does not wrap, every sector erased has
index at most 11. -/
theorem C5_erase_targets (s : FlashState) (dev start length : Nat) (hl : length < U32) :
    ∃ issued, (FLASH_EraseMemory s dev start length).2.log = s.log ++ issued ∧
      (∀ id, FlashOp.eraseSector id ∈ issued → ∃ k, 5 ≤ k ∧ id = FLASH_Sector k) ∧
      (∀ a, a < 0x08020000 → (FLASH_EraseMemory s dev start length).2.mem a = s.mem a) ∧
      (FLASH_CheckValidAddressRange dev start length = true → 1 ≤ length →
        start + length ≤ U32 →
        ∀ id, FlashOp.eraseSector id ∈ issued → ∃ k, 5 ≤ k ∧ k ≤ 11 ∧ id = FLASH_Sector k) := by
  rcases eraseMemory_cases s dev start length with h | ⟨hv, hd, hlt, h⟩
  · refine ⟨[], by rw [h]; simp, by simp, fun a _ => by rw [h], fun _ _ _ => by simp⟩
  · subst hd
    have hs := (checkValid_internal start length).1 hv
    have hp := pagesMask_internal length hl
    obtain ⟨issued, hlog, hops⟩ :=
      eraseLoop_log (FLASH_Sector (5 + (start - 0x08020000) / 0x20000))
        (FLASH_PagesMask length INTERNAL_FLASH_PAGE_SIZE) 0 (FLASH_ClearFlags (FLASH_Unlock s))
    have hid : ∀ i, i < FLASH_PagesMask length INTERNAL_FLASH_PAGE_SIZE →
        (FLASH_Sector (5 + (start - 0x08020000) / 0x20000) + 8 * i) % U32 =
          FLASH_Sector (5 + (start - 0x08020000) / 0x20000 + i) := by
      intro i hi
      unfold FLASH_Sector
      unfold U32 at *
      omega
    have hmem : ∀ a, a < 0x08020000 →
        (eraseLoop (FLASH_Sector (5 + (start - 0x08020000) / 0x20000))
          (FLASH_PagesMask length INTERNAL_FLASH_PAGE_SIZE) 0
          (FLASH_ClearFlags (FLASH_Unlock s))).2.mem a = s.mem a := by
      intro a ha
      rw [eraseLoop_mem_outside]
      · rfl
      · intro i _ hi
        rw [hid i (by omega)]
        exact inSector_low _ a (by omega) ha
    have hin : ∀ id, FlashOp.eraseSector id ∈ issued →
        ∃ i, i < FLASH_PagesMask length INTERNAL_FLASH_PAGE_SIZE ∧
          id = FLASH_Sector (5 + (start - 0x08020000) / 0x20000 + i) := by
      intro id hmem
      obtain ⟨i, _, hi2, hi3⟩ := hops _ hmem
      refine ⟨i, by omega, ?_⟩
      rw [← hid i (by omega)]
      exact FlashOp.eraseSector.inj hi3
    by_cases hok : (eraseLoop (FLASH_Sector (5 + (start - 0x08020000) / 0x20000))
        (FLASH_PagesMask length INTERNAL_FLASH_PAGE_SIZE) 0
        (FLASH_ClearFlags (FLASH_Unlock s))).1 = true
    · rw [if_pos hok] at h
      refine ⟨[FlashOp.unlock, FlashOp.clearFlags] ++ issued ++ [FlashOp.lock], ?_, ?_, ?_, ?_⟩
      · rw [h]
        show _ ++ [FlashOp.lock] = _
        rw [hlog]
        simp [FLASH_ClearFlags, FLASH_Unlock]
      · intro id hmem
        have hmem2 : FlashOp.eraseSector id ∈ issued := by simpa using hmem
        obtain ⟨i, _, hi⟩ := hin id hmem2
        exact ⟨_, by omega, hi⟩
      · intro a ha
        rw [h]
        exact hmem a ha
      · intro _ hlen hnw id hmem
        have hmem2 : FlashOp.eraseSector id ∈ issued := by simpa using hmem
        obtain ⟨i, hi1, hi⟩ := hin id hmem2
        refine ⟨_, by omega, ?_, hi⟩
        have he : endAddressOf start length = start + length - 1 := by
          unfold endAddressOf U32; unfold U32 at hnw; omega
        have := hs.2
        rw [he] at this
        omega
    · rw [if_neg hok] at h
      refine ⟨[FlashOp.unlock, FlashOp.clearFlags] ++ issued, ?_, ?_, ?_, ?_⟩
      · rw [h, hlog]
        simp [FLASH_ClearFlags, FLASH_Unlock]
      · intro id hmem
        have hmem2 : FlashOp.eraseSector id ∈ issued := by simpa using hmem
        obtain ⟨i, _, hi⟩ := hin id hmem2
        exact ⟨_, by omega, hi⟩
      · intro a ha
        rw [h]
        exact hmem a ha
      · intro _ hlen hnw id hmem
        have hmem2 : FlashOp.eraseSector id ∈ issued := by simpa using hmem
        obtain ⟨i, hi1, hi⟩ := hin id hmem2
        refine ⟨_, by omega, ?_, hi⟩
        have he : endAddressOf start length = start + length - 1 := by
          unfold endAddressOf U32; unfold U32 at hnw; omega
        have := hs.2
        rw [he] at this
        omega

/-- Witness for C5: an erase of 8 bytes at the start of sector 5. -/
theorem C5_erase_targets_witness :
    (8 : Nat) < U32 ∧
    ∃ issued, (FLASH_EraseMemory (healthyFlash (fun _ => 0)) FLASH_INTERNAL 0x08020000 8).2.log
        = (healthyFlash (fun _ => 0)).log ++ issued ∧
      (∀ id, FlashOp.eraseSector id ∈ issued → ∃ k, 5 ≤ k ∧ id = FLASH_Sector k) ∧
      (∀ a, a < 0x08020000 →
        (FLASH_EraseMemory (healthyFlash (fun _ => 0)) FLASH_INTERNAL 0x08020000 8).2.mem a
          = (healthyFlash (fun _ => 0)).mem a) ∧
      (FLASH_CheckValidAddressRange FLASH_INTERNAL 0x08020000 8 = true → 1 ≤ 8 →
        0x08020000 + 8 ≤ U32 →
        ∀ id, FlashOp.eraseSector id ∈ issued → ∃ k, 5 ≤ k ∧ k ≤ 11 ∧ id = FLASH_Sector k) :=
  ⟨by decide, C5_erase_targets (healthyFlash (fun _ => 0)) FLASH_INTERNAL 0x08020000 8
    (by decide)⟩

/-- C6 (the code at the failing input). On a healthy flash whose bytes are all
zero, `FLASH_EraseMemory` on the valid range of 8 bytes at `0x0803FFFC` returns
true having erased sector 5 only; the byte at `0x08040000`, inside the range but
in sector 6, still reads zero instead of the erased pattern. -/
theorem C6_unaligned_start_not_erased :
    FLASH_CheckValidAddressRange FLASH_INTERNAL 0x0803FFFC 8 = true ∧
    (FLASH_EraseMemory (healthyFlash (fun _ => 0)) FLASH_INTERNAL 0x0803FFFC 8).1 = true ∧
    (FLASH_EraseMemory (healthyFlash (fun _ => 0)) FLASH_INTERNAL 0x0803FFFC 8).2.log =
      [FlashOp.unlock, FlashOp.clearFlags, FlashOp.eraseSector (FLASH_Sector 5), FlashOp.lock] ∧
    (0x0803FFFC ≤ 0x08040000 ∧ 0x08040000 < 0x0803FFFC + 8) ∧
    readByte (FLASH_EraseMemory (healthyFlash (fun _ => 0)) FLASH_INTERNAL 0x0803FFFC 8).2
      0x08040000 = 0 ∧
    readByte (FLASH_EraseMemory (healthyFlash (fun _ => 0)) FLASH_INTERNAL 0x0803FFFC 8).2
      0x0803FFFC = ERASED := by
  decide

/-! ## Verification block -/

/-- On the internal device `FLASH_ModuleInfo` returns a header address. -/
theorem moduleInfo_internal (P : Platform) (s : FlashState) (start : Nat) :
    ∃ p, FLASH_ModuleInfo P s FLASH_INTERNAL start = some p := by
  unfold FLASH_ModuleInfo
  rw [if_pos rfl]
  split_ifs
  · exact ⟨_, rfl⟩
  · exact ⟨_, rfl⟩

/-- The module length is the difference of the two header addresses, modulo `2^32`. -/
theorem moduleLength_eq (P : Platform) (s : FlashState) (dev start p : Nat)
    (hp : FLASH_ModuleInfo P s dev start = some p) :
    FLASH_ModuleLength P s dev start =
      ((moduleInfoAt P s p).module_end_address + U32
        - (moduleInfoAt P s p).module_start_address) % U32 := by
  unfold FLASH_ModuleLength
  rw [hp]

/-- The verification block passes exactly when none of its five tests fails. -/
theorem moduleVerification_eq (P : Platform) (s : FlashState)
    (sdev src dst length fn flags p : Nat)
    (hp : FLASH_ModuleInfo P s sdev src = some p) :
    moduleVerification P s sdev src dst length fn flags =
      some (!(lengthCheckFails P length (FLASH_ModuleLength P s sdev src) flags ||
        platformCheckFails P (moduleInfoAt P s p) ||
        destinationCheckFails P (moduleInfoAt P s p) dst flags ||
        functionCheckFails P (moduleInfoAt P s p) fn flags ||
        crcCheckFails P s sdev src (FLASH_ModuleLength P s sdev src) flags)) := by
  unfold moduleVerification
  rw [hp]
  simp only []
  split_ifs <;> simp_all

/-- The result of `FLASH_CopyMemory` from an internal source with a verify flag set, on valid
ranges: `false` with the state untouched when a test of the verification block
fails, the erase and the streaming loop otherwise. -/
theorem copyMemory_verified (P : Platform) (s : FlashState)
    (src ddev dst length fn flags p : Nat)
    (hp : FLASH_ModuleInfo P s FLASH_INTERNAL src = some p)
    (hvs : FLASH_CheckValidAddressRange FLASH_INTERNAL src length = true)
    (hvd : FLASH_CheckValidAddressRange ddev dst length = true)
    (hmask : Nat.land flags P.MODULE_VERIFY_MASK ≠ 0) :
    FLASH_CopyMemory P s FLASH_INTERNAL src ddev dst length fn flags =
      if (lengthCheckFails P length (FLASH_ModuleLength P s FLASH_INTERNAL src) flags ||
        platformCheckFails P (moduleInfoAt P s p) ||
        destinationCheckFails P (moduleInfoAt P s p) dst flags ||
        functionCheckFails P (moduleInfoAt P s p) fn flags ||
        crcCheckFails P s FLASH_INTERNAL src (FLASH_ModuleLength P s FLASH_INTERNAL src) flags)
          = true
      then some (false, s)
      else copyAfterVerification s FLASH_INTERNAL src ddev dst length := by
  have hg : (FLASH_INTERNAL = FLASH_INTERNAL ∧ Nat.land flags P.MODULE_VERIFY_MASK ≠ 0) :=
    ⟨rfl, hmask⟩
  unfold FLASH_CopyMemory
  rw [hvs, hvd, moduleVerification_eq P s FLASH_INTERNAL src dst length fn flags p hp]
  rw [if_neg (by simp), if_neg (by simp), if_pos hg]
  generalize (lengthCheckFails P length (FLASH_ModuleLength P s FLASH_INTERNAL src) flags ||
        platformCheckFails P (moduleInfoAt P s p) ||
        destinationCheckFails P (moduleInfoAt P s p) dst flags ||
        functionCheckFails P (moduleInfoAt P s p) fn flags ||
        crcCheckFails P s FLASH_INTERNAL src (FLASH_ModuleLength P s FLASH_INTERNAL src) flags)
    = b
  cases b <;> simp

/-- A copy from an internal source with a verify flag set is rejected, with no
effect, whenever the platform test of the verification block fails. -/
theorem copyMemory_platform_rejected (P : Platform) (s : FlashState)
    (src ddev dst length fn flags p : Nat)
    (hp : FLASH_ModuleInfo P s FLASH_INTERNAL src = some p)
    (hmask : Nat.land flags P.MODULE_VERIFY_MASK ≠ 0)
    (h : platformCheckFails P (moduleInfoAt P s p) = true) :
    FLASH_CopyMemory P s FLASH_INTERNAL src ddev dst length fn flags = some (false, s) := by
  by_cases hvs : FLASH_CheckValidAddressRange FLASH_INTERNAL src length = true
  · by_cases hvd : FLASH_CheckValidAddressRange ddev dst length = true
    · rw [copyMemory_verified P s src ddev dst length fn flags p hp hvs hvd hmask, if_pos]
      simp [h]
    · unfold FLASH_CopyMemory
      simp [hvs, hvd]
  · unfold FLASH_CopyMemory
    simp [hvs]

/-- C1. A call of `FLASH_CopyMemory` with an Internal source for which the source
range or the destination range is invalid, or for which (a verify flag being
set) the length, platform, destination, function or CRC test of the
verification block fails, returns false and leaves the whole flash state as it
was: the contents (the journal is stored in them), the lock bit and the log of
issued operations, to which no erase and no program has been added. -/
theorem C1_rejected_copy_has_no_effect (P : Platform) (s : FlashState)
    (src ddev dst length fn flags p : Nat)
    (hp : FLASH_ModuleInfo P s FLASH_INTERNAL src = some p)
    (h : FLASH_CheckValidAddressRange FLASH_INTERNAL src length = false ∨
      FLASH_CheckValidAddressRange ddev dst length = false ∨
      (Nat.land flags P.MODULE_VERIFY_MASK ≠ 0 ∧
        (lengthCheckFails P length (FLASH_ModuleLength P s FLASH_INTERNAL src) flags = true ∨
         platformCheckFails P (moduleInfoAt P s p) = true ∨
         destinationCheckFails P (moduleInfoAt P s p) dst flags = true ∨
         functionCheckFails P (moduleInfoAt P s p) fn flags = true ∨
         crcCheckFails P s FLASH_INTERNAL src
           (FLASH_ModuleLength P s FLASH_INTERNAL src) flags = true))) :
    FLASH_CopyMemory P s FLASH_INTERNAL src ddev dst length fn flags = some (false, s) := by
  by_cases hvs : FLASH_CheckValidAddressRange FLASH_INTERNAL src length = true
  · by_cases hvd : FLASH_CheckValidAddressRange ddev dst length = true
    · rcases h with h | h | ⟨hmask, h⟩
      · rw [hvs] at h; exact absurd h (by simp)
      · rw [hvd] at h; exact absurd h (by simp)
      · rw [copyMemory_verified P s src ddev dst length fn flags p hp hvs hvd hmask, if_pos]
        rcases h with h | h | h | h | h <;> simp [h]
    · unfold FLASH_CopyMemory
      simp [hvs, hvd]
  · unfold FLASH_CopyMemory
    simp [hvs]

/-- Witness for C1: on `stagedImage` with the function flag set and a function
argument that differs from the header's, the copy is rejected. -/
theorem C1_rejected_copy_has_no_effect_witness :
    FLASH_CopyMemory examplePlatform (healthyFlash stagedImage) FLASH_INTERNAL 0x08060000
      FLASH_INTERNAL 0x08020000 20 4 0x08 = some (false, healthyFlash stagedImage) :=
  C1_rejected_copy_has_no_effect examplePlatform (healthyFlash stagedImage)
    0x08060000 FLASH_INTERNAL 0x08020000 20 4 0x08 0x08060000 (by decide)
    (Or.inr (Or.inr ⟨by decide, Or.inr (Or.inr (Or.inr (Or.inl (by decide))))⟩))

/-- A byte read is below 256. -/
theorem readByte_lt (s : FlashState) (a : Nat) : readByte s a < 256 :=
  Nat.mod_lt _ (by decide)

/-- The bytes of a word read from memory are the bytes stored there. -/
theorem wordByte_readWord (s : FlashState) (a : Nat) :
    wordByte (readWord s a) 0 = readByte s a ∧
    wordByte (readWord s a) 1 = readByte s (a + 1) ∧
    wordByte (readWord s a) 2 = readByte s (a + 2) ∧
    wordByte (readWord s a) 3 = readByte s (a + 3) := by
  have h0 := readByte_lt s a
  have h1 := readByte_lt s (a + 1)
  have h2 := readByte_lt s (a + 2)
  have h3 := readByte_lt s (a + 3)
  unfold wordByte readWord
  norm_num
  refine ⟨?_, ?_, ?_, ?_⟩ <;> omega

/-- Reversing the bytes of the little-endian word at an address gives the
big-endian value of the four bytes stored there. -/
theorem REV_readWord (s : FlashState) (a : Nat) :
    REV (readWord s a) = bigEndianWord s a := by
  obtain ⟨h0, h1, h2, h3⟩ := wordByte_readWord s a
  unfold REV bigEndianWord
  rw [h0, h1, h2, h3]

/-- C9 (counterexample). On `stagedImage` the module is staged at `0x08060000`
and its header declares the extent `[0x08020000, 0x08020010)`.  The CRC-32 of
the bytes in the declared extent differs from the big-endian value stored after
its end, yet the copy with the CRC flag set passes the check and returns true:
the code checks the staged bytes at the source address. -/
theorem C9_counterexample :
    FLASH_ModuleInfo examplePlatform (healthyFlash stagedImage) FLASH_INTERNAL 0x08060000
      = some 0x08060000 ∧
    (moduleInfoAt examplePlatform (healthyFlash stagedImage) 0x08060000).module_start_address
      = 0x08020000 ∧
    (moduleInfoAt examplePlatform (healthyFlash stagedImage) 0x08060000).module_end_address
      = 0x08020010 ∧
    examplePlatform.Compute_CRC32 (bytesAt (healthyFlash stagedImage) 0x08020000 0x10)
      ≠ bigEndianWord (healthyFlash stagedImage) 0x08020010 ∧
    Nat.land 0x02 examplePlatform.MODULE_VERIFY_CRC ≠ 0 ∧
    (FLASH_CopyMemory examplePlatform (healthyFlash stagedImage) FLASH_INTERNAL 0x08060000
      FLASH_INTERNAL 0x08020000 20 5 0x02).map Prod.fst = some true := by
  decide

/-- C9 (amended). When the CRC flag is set on a copy from an Internal source
between valid ranges and the earlier tests pass, the CRC test passes exactly
when the module length `header.module_end_address - header.module_start_address`
(modulo `2^32`) is not zero and the CRC32 of that many bytes starting at the
source address equals the big-endian 32-bit value stored in the 4 bytes that
follow them; the copy returns false, with no effect, otherwise, and goes on to
the erase when the test passes. -/
theorem C9_crc_check_amended (P : Platform) (s : FlashState)
    (src ddev dst length fn flags p : Nat)
    (hp : FLASH_ModuleInfo P s FLASH_INTERNAL src = some p)
    (hvs : FLASH_CheckValidAddressRange FLASH_INTERNAL src length = true)
    (hvd : FLASH_CheckValidAddressRange ddev dst length = true)
    (hmask : Nat.land flags P.MODULE_VERIFY_MASK ≠ 0)
    (hcrc : Nat.land flags P.MODULE_VERIFY_CRC ≠ 0)
    (h1 : lengthCheckFails P length (FLASH_ModuleLength P s FLASH_INTERNAL src) flags = false)
    (h2 : platformCheckFails P (moduleInfoAt P s p) = false)
    (h3 : destinationCheckFails P (moduleInfoAt P s p) dst flags = false)
    (h4 : functionCheckFails P (moduleInfoAt P s p) fn flags = false) :
    FLASH_ModuleLength P s FLASH_INTERNAL src =
      ((moduleInfoAt P s p).module_end_address + U32
        - (moduleInfoAt P s p).module_start_address) % U32 ∧
    (crcCheckFails P s FLASH_INTERNAL src (FLASH_ModuleLength P s FLASH_INTERNAL src) flags
        = false ↔
      (0 < FLASH_ModuleLength P s FLASH_INTERNAL src ∧
        P.Compute_CRC32 (bytesAt s src (FLASH_ModuleLength P s FLASH_INTERNAL src)) % U32 =
          bigEndianWord s ((src + FLASH_ModuleLength P s FLASH_INTERNAL src) % U32))) ∧
    (crcCheckFails P s FLASH_INTERNAL src (FLASH_ModuleLength P s FLASH_INTERNAL src) flags
        = true →
      FLASH_CopyMemory P s FLASH_INTERNAL src ddev dst length fn flags = some (false, s)) ∧
    (crcCheckFails P s FLASH_INTERNAL src (FLASH_ModuleLength P s FLASH_INTERNAL src) flags
        = false →
      FLASH_CopyMemory P s FLASH_INTERNAL src ddev dst length fn flags =
        copyAfterVerification s FLASH_INTERNAL src ddev dst length) := by
  refine ⟨moduleLength_eq P s FLASH_INTERNAL src p hp, ?_, ?_, ?_⟩
  · generalize FLASH_ModuleLength P s FLASH_INTERNAL src = ml
    unfold crcCheckFails FLASH_VerifyCRC32
    rw [REV_readWord]
    by_cases hl : 0 < ml
    · by_cases he : bigEndianWord s ((src + ml) % U32) = P.Compute_CRC32 (bytesAt s src ml) % U32
      · simp [hcrc, hl, he]
      · have he2 : ¬ P.Compute_CRC32 (bytesAt s src ml) % U32 =
            bigEndianWord s ((src + ml) % U32) := fun h => he h.symm
        simp [hcrc, hl, he, he2]
    · simp [hcrc, hl]
  · intro h5
    rw [copyMemory_verified P s src ddev dst length fn flags p hp hvs hvd hmask, if_pos]
    simp [h5]
  · intro h5
    rw [copyMemory_verified P s src ddev dst length fn flags p hp hvs hvd hmask, if_neg]
    simp [h1, h2, h3, h4, h5]

/-- Witness for the amended C9, on `stagedImage` with the CRC flag alone. -/
theorem C9_crc_check_amended_witness :
    FLASH_ModuleLength examplePlatform (healthyFlash stagedImage) FLASH_INTERNAL 0x08060000 =
      ((moduleInfoAt examplePlatform (healthyFlash stagedImage) 0x08060000).module_end_address
        + U32
        - (moduleInfoAt examplePlatform (healthyFlash stagedImage)
            0x08060000).module_start_address) % U32 ∧
    (crcCheckFails examplePlatform (healthyFlash stagedImage) FLASH_INTERNAL 0x08060000
        (FLASH_ModuleLength examplePlatform (healthyFlash stagedImage) FLASH_INTERNAL
          0x08060000) 0x02 = false ↔
      (0 < FLASH_ModuleLength examplePlatform (healthyFlash stagedImage) FLASH_INTERNAL
          0x08060000 ∧
        examplePlatform.Compute_CRC32 (bytesAt (healthyFlash stagedImage) 0x08060000
          (FLASH_ModuleLength examplePlatform (healthyFlash stagedImage) FLASH_INTERNAL
            0x08060000)) % U32 =
          bigEndianWord (healthyFlash stagedImage)
            ((0x08060000 + FLASH_ModuleLength examplePlatform (healthyFlash stagedImage)
              FLASH_INTERNAL 0x08060000) % U32))) ∧
    (crcCheckFails examplePlatform (healthyFlash stagedImage) FLASH_INTERNAL 0x08060000
        (FLASH_ModuleLength examplePlatform (healthyFlash stagedImage) FLASH_INTERNAL
          0x08060000) 0x02 = true →
      FLASH_CopyMemory examplePlatform (healthyFlash stagedImage) FLASH_INTERNAL 0x08060000
        FLASH_INTERNAL 0x08020000 20 5 0x02 = some (false, healthyFlash stagedImage)) ∧
    (crcCheckFails examplePlatform (healthyFlash stagedImage) FLASH_INTERNAL 0x08060000
        (FLASH_ModuleLength examplePlatform (healthyFlash stagedImage) FLASH_INTERNAL
          0x08060000) 0x02 = false →
      FLASH_CopyMemory examplePlatform (healthyFlash stagedImage) FLASH_INTERNAL 0x08060000
        FLASH_INTERNAL 0x08020000 20 5 0x02 =
        copyAfterVerification (healthyFlash stagedImage) FLASH_INTERNAL 0x08060000
          FLASH_INTERNAL 0x08020000 20) :=
  C9_crc_check_amended examplePlatform (healthyFlash stagedImage) 0x08060000 FLASH_INTERNAL
    0x08020000 20 5 0x02 0x08060000 (by decide) (by decide) (by decide) (by decide)
    (by decide) (by decide) (by decide) (by decide) (by decide)

/-- C10 (counterexample). On `foreignResourceImage` the header names platform 7
and the resource function.  A copy whose function argument is 5, not the
resource function, with the destination flag set, is not rejected although the
header's platform differs from this build's: it returns true. -/
theorem C10_counterexample :
    (5 : Nat) ≠ examplePlatform.MODULE_FUNCTION_RESOURCE ∧
    (moduleInfoAt examplePlatform (healthyFlash foreignResourceImage) 0x08060000).platform_id
      ≠ examplePlatform.PLATFORM_ID ∧
    FLASH_ModuleInfo examplePlatform (healthyFlash foreignResourceImage) FLASH_INTERNAL
      0x08060000 = some 0x08060000 ∧
    Nat.land 0x04 examplePlatform.MODULE_VERIFY_MASK ≠ 0 ∧
    (FLASH_CopyMemory examplePlatform (healthyFlash foreignResourceImage) FLASH_INTERNAL
      0x08060000 FLASH_INTERNAL 0x08020000 16 5 0x04).map Prod.fst = some true := by
  decide

/-- C10 (amended). For every copy from an Internal source with at least one
verify flag set: if the function recorded in the module header (not the
caller's function argument) is not the resource function and the header's
platform_id differs from this firmware's PLATFORM_ID, `FLASH_CopyMemory` returns
false, whichever verify flag bits are set, and changes nothing. -/
theorem C10_platform_check_amended (P : Platform) (s : FlashState)
    (src ddev dst length fn flags p : Nat)
    (hp : FLASH_ModuleInfo P s FLASH_INTERNAL src = some p)
    (hmask : Nat.land flags P.MODULE_VERIFY_MASK ≠ 0)
    (hfn : (moduleInfoAt P s p).module_function ≠ P.MODULE_FUNCTION_RESOURCE)
    (hpid : (moduleInfoAt P s p).platform_id ≠ P.PLATFORM_ID) :
    FLASH_CopyMemory P s FLASH_INTERNAL src ddev dst length fn flags = some (false, s) := by
  apply copyMemory_platform_rejected P s src ddev dst length fn flags p hp hmask
  unfold platformCheckFails
  simp [hfn, hpid]

/-- Witness for the amended C10: on `stagedImage` (function 5) in a build whose
platform is not 6, the copy is rejected. -/
theorem C10_platform_check_amended_witness :
    FLASH_CopyMemory { examplePlatform with PLATFORM_ID := 8 } (healthyFlash stagedImage)
      FLASH_INTERNAL 0x08060000 FLASH_INTERNAL 0x08020000 20 5 0x04
      = some (false, healthyFlash stagedImage) :=
  C10_platform_check_amended { examplePlatform with PLATFORM_ID := 8 }
    (healthyFlash stagedImage) 0x08060000 FLASH_INTERNAL 0x08020000 20 5 0x04 0x08060000
    (by decide) (by decide) (by decide) (by decide)

/-! ## Compare engine -/

theorem loopUnits_step (src endA : Nat) (h : src < endA) :
    loopUnits src endA = loopUnits (src + 4) endA + 1 := by
  unfold loopUnits
  rw [if_pos h]
  split_ifs <;> omega

theorem loopUnits_exit (src endA : Nat) (h : ¬ src < endA) : loopUnits src endA = 0 := by
  unfold loopUnits
  rw [if_neg h]

/-- Two words read from memory are equal exactly when their four bytes are. -/
theorem readWord_eq_iff (s : FlashState) (a b : Nat) :
    readWord s a = readWord s b ↔
      (readByte s a = readByte s b ∧ readByte s (a + 1) = readByte s (b + 1) ∧
        readByte s (a + 2) = readByte s (b + 2) ∧ readByte s (a + 3) = readByte s (b + 3)) := by
  have h0 := readByte_lt s a
  have h1 := readByte_lt s (a + 1)
  have h2 := readByte_lt s (a + 2)
  have h3 := readByte_lt s (a + 3)
  have k0 := readByte_lt s b
  have k1 := readByte_lt s (b + 1)
  have k2 := readByte_lt s (b + 2)
  have k3 := readByte_lt s (b + 3)
  unfold readWord
  constructor
  · intro h
    refine ⟨?_, ?_, ?_, ?_⟩ <;> omega
  · rintro ⟨e0, e1, e2, e3⟩
    rw [e0, e1, e2, e3]

/-- Agreement on the first `n` words is agreement on the first `4 * n` bytes. -/
theorem words_agree_iff (s : FlashState) (a b n : Nat) :
    (∀ k, k < n → readWord s (a + 4 * k) = readWord s (b + 4 * k)) ↔
      (∀ j, j < 4 * n → readByte s (a + j) = readByte s (b + j)) := by
  constructor
  · intro h j hj
    have hk := (readWord_eq_iff s (a + 4 * (j / 4)) (b + 4 * (j / 4))).1 (h (j / 4) (by omega))
    obtain ⟨e0, e1, e2, e3⟩ := hk
    have hcases : j % 4 = 0 ∨ j % 4 = 1 ∨ j % 4 = 2 ∨ j % 4 = 3 := by omega
    rcases hcases with c | c | c | c
    · have ha : a + j = a + 4 * (j / 4) := by omega
      have hb : b + j = b + 4 * (j / 4) := by omega
      rw [ha, hb]; exact e0
    · have ha : a + j = a + 4 * (j / 4) + 1 := by omega
      have hb : b + j = b + 4 * (j / 4) + 1 := by omega
      rw [ha, hb]; exact e1
    · have ha : a + j = a + 4 * (j / 4) + 2 := by omega
      have hb : b + j = b + 4 * (j / 4) + 2 := by omega
      rw [ha, hb]; exact e2
    · have ha : a + j = a + 4 * (j / 4) + 3 := by omega
      have hb : b + j = b + 4 * (j / 4) + 3 := by omega
      rw [ha, hb]; exact e3
  · intro h k hk
    rw [readWord_eq_iff]
    refine ⟨?_, ?_, ?_, ?_⟩
    · exact h (4 * k) (by omega)
    · have := h (4 * k + 1) (by omega)
      rw [← Nat.add_assoc, ← Nat.add_assoc] at this; exact this
    · have := h (4 * k + 2) (by omega)
      rw [← Nat.add_assoc, ← Nat.add_assoc] at this; exact this
    · have := h (4 * k + 3) (by omega)
      rw [← Nat.add_assoc, ← Nat.add_assoc] at this; exact this

/-- The compare loop on the internal device, with enough fuel and no wrap of the
addresses: it finishes, and reports equality exactly when the two ranges agree
word by word. -/
theorem compareLoop_spec (s : FlashState) (endA : Nat) (hend : endA + 4 ≤ U32) :
    ∀ (fuel src dst sd dd : Nat), loopUnits src endA < fuel →
      dst + 4 * loopUnits src endA < U32 →
      ∃ b, compareLoop s FLASH_INTERNAL FLASH_INTERNAL endA fuel src dst sd dd = some b ∧
        (b = true ↔
          ∀ k, k < loopUnits src endA → readWord s (src + 4 * k) = readWord s (dst + 4 * k)) := by
  intro fuel
  induction fuel with
  | zero => intro src dst sd dd h; omega
  | succ fuel ih =>
    intro src dst sd dd hfuel hdst
    unfold compareLoop
    by_cases hlt : src < endA
    · have hu := loopUnits_step src endA hlt
      rw [if_pos hlt, if_pos rfl, if_pos rfl]
      by_cases hw : readWord s src = readWord s dst
      · rw [if_neg (not_not.2 hw)]
        have hs4 : (src + 4) % U32 = src + 4 := Nat.mod_eq_of_lt (by omega)
        have hd4 : (dst + 4) % U32 = dst + 4 := Nat.mod_eq_of_lt (by omega)
        rw [hs4, hd4]
        obtain ⟨b, hb1, hb2⟩ := ih (src + 4) (dst + 4) (readWord s src) (readWord s dst)
          (by omega) (by omega)
        refine ⟨b, hb1, ?_⟩
        rw [hb2]
        constructor
        · intro h k hk
          rcases Nat.eq_zero_or_pos k with rfl | hpos
          · simpa using hw
          · have := h (k - 1) (by omega)
            have e1 : src + 4 + 4 * (k - 1) = src + 4 * k := by omega
            have e2 : dst + 4 + 4 * (k - 1) = dst + 4 * k := by omega
            rw [e1, e2] at this
            exact this
        · intro h k hk
          have := h (k + 1) (by omega)
          have e1 : src + 4 * (k + 1) = src + 4 + 4 * k := by omega
          have e2 : dst + 4 * (k + 1) = dst + 4 + 4 * k := by omega
          rw [e1, e2] at this
          exact this
      · rw [if_pos hw]
        refine ⟨false, rfl, ?_⟩
        constructor
        · intro h; exact absurd h (by simp)
        · intro h
          exact absurd (by simpa using h 0 (by omega)) hw
    · rw [if_neg hlt]
      refine ⟨true, rfl, ?_⟩
      rw [loopUnits_exit src endA hlt]
      simp

/-- The loop of a 32-bit range runs at most `length` times and covers at most
`length + 2` bytes. -/
theorem loopUnits_bound (src length : Nat) (h0 : 0 < src) (hs : src < U32)
    (hl : length < U32) :
    loopUnits src (endAddressOf src length) ≤ length ∧
    4 * loopUnits src (endAddressOf src length) ≤ length + 2 := by
  unfold loopUnits endAddressOf
  unfold U32 at *
  split_ifs <;> omega

/-- For a length that is a multiple of 4 and a range that does not wrap, the loop
covers exactly the range. -/
theorem loopUnits_exact (src length : Nat) (h0 : 0 < src) (h4 : length % 4 = 0)
    (hnw : src + length ≤ U32) :
    4 * loopUnits src (endAddressOf src length) = length := by
  unfold loopUnits endAddressOf
  unfold U32 at *
  split_ifs <;> omega

/-- On valid ranges `FLASH_CompareMemory` finishes, and returns true exactly when
the two ranges agree on the bytes that its loop covers. -/
theorem compareMemory_units (s : FlashState) (sdev src ddev dst length : Nat)
    (hvs : FLASH_CheckValidAddressRange sdev src length = true)
    (hvd : FLASH_CheckValidAddressRange ddev dst length = true)
    (hs : src < U32) (hl : length < U32)
    (hd : dst + 4 * loopUnits src (endAddressOf src length) < U32) :
    ∃ b, FLASH_CompareMemory s sdev src ddev dst length = some b ∧
      (b = true ↔ ∀ j, j < 4 * loopUnits src (endAddressOf src length) →
        readByte s (src + j) = readByte s (dst + j)) := by
  have hsd := checkValid_dev sdev src length hvs
  have hdd := checkValid_dev ddev dst length hvd
  subst hsd
  subst hdd
  have hend := ((checkValid_internal src length).1 hvs).2
  have hstart := ((checkValid_internal src length).1 hvs).1
  have hb := loopUnits_bound src length (by omega) hs hl
  obtain ⟨b, h1, h2⟩ := compareLoop_spec s (endAddressOf src length)
    (by unfold U32; omega) (length + 1) src dst 0 0 (by omega) hd
  refine ⟨b, ?_, ?_⟩
  · unfold FLASH_CompareMemory
    rw [hvs, hvd]
    simp only [bne_self_eq_false, Bool.false_eq_true, if_false]
    exact h1
  · rw [h2, words_agree_iff]

/-- C8 (counterexample). With length 1 the compare returns true although the
single byte of the range differs; with length 6 it returns false although the
two ranges agree on all six bytes (they differ at offset 6, outside the range);
with a length whose end wraps around `2^32` it returns true without reading. -/
theorem C8_counterexample :
    (readByte (healthyFlash (fun a => if a = 0x08020000 then 1 else 0)) 0x08020000 ≠
        readByte (healthyFlash (fun a => if a = 0x08020000 then 1 else 0)) 0x08040000 ∧
      FLASH_CompareMemory (healthyFlash (fun a => if a = 0x08020000 then 1 else 0))
        FLASH_INTERNAL 0x08020000 FLASH_INTERNAL 0x08040000 1 = some true) ∧
    ((∀ i, i < 6 →
        readByte (healthyFlash (fun a => if a = 0x08020006 then 1 else 0)) (0x08020000 + i) =
        readByte (healthyFlash (fun a => if a = 0x08020006 then 1 else 0)) (0x08040000 + i)) ∧
      FLASH_CheckValidAddressRange FLASH_INTERNAL 0x08020000 6 = true ∧
      FLASH_CheckValidAddressRange FLASH_INTERNAL 0x08040000 6 = true ∧
      FLASH_CompareMemory (healthyFlash (fun a => if a = 0x08020006 then 1 else 0))
        FLASH_INTERNAL 0x08020000 FLASH_INTERNAL 0x08040000 6 = some false) ∧
    (FLASH_CheckValidAddressRange FLASH_INTERNAL 0x08020000 0xFFFFFFFC = true ∧
      FLASH_CheckValidAddressRange FLASH_INTERNAL 0x08040000 0xFFFFFFFC = true ∧
      FLASH_CompareMemory (healthyFlash (fun a => if a = 0x08020000 then 1 else 0))
        FLASH_INTERNAL 0x08020000 FLASH_INTERNAL 0x08040000 0xFFFFFFFC = some true) := by
  decide

/-- C8 (amended). For every pair of valid ranges that do not wrap around `2^32`
and every length that is a multiple of 4, `FLASH_CompareMemory` returns, and it
returns true if and only if the source and the destination agree on every byte
offset `i` with `0 <= i < length`; hence after an equal comparison, changing a
single byte of the destination range that is not also a byte of the source
range makes the next compare return false. -/
theorem C8_compare_amended (s : FlashState) (sdev src ddev dst length : Nat)
    (hvs : FLASH_CheckValidAddressRange sdev src length = true)
    (hvd : FLASH_CheckValidAddressRange ddev dst length = true)
    (h4 : length % 4 = 0)
    (hns : src + length ≤ U32) (hnd : dst + length ≤ U32) :
    (∃ b, FLASH_CompareMemory s sdev src ddev dst length = some b) ∧
    (FLASH_CompareMemory s sdev src ddev dst length = some true ↔
      ∀ i, i < length → readByte s (src + i) = readByte s (dst + i)) ∧
    (∀ (t : FlashState) (j : Nat), j < length →
      (dst + j < src ∨ src + length ≤ dst + j) →
      (∀ a, a ≠ dst + j → readByte t a = readByte s a) →
      readByte t (dst + j) ≠ readByte s (dst + j) →
      FLASH_CompareMemory s sdev src ddev dst length = some true →
      FLASH_CompareMemory t sdev src ddev dst length = some false) := by
  have hsd := checkValid_dev sdev src length hvs
  have hdd := checkValid_dev ddev dst length hvd
  have hs0 := ((checkValid_internal src length).1 (hsd ▸ hvs))
  have hd0 := ((checkValid_internal dst length).1 (hdd ▸ hvd))
  have hu := loopUnits_exact src length (by omega) h4 hns
  have hdst : dst + 4 * loopUnits src (endAddressOf src length) < U32 := by
    rw [hu]
    have := hd0.2
    unfold endAddressOf at this
    unfold U32 at *
    omega
  have hlen : length < U32 := by unfold U32 at *; omega
  have hsrc : src < U32 := by
    have := hs0.2
    unfold endAddressOf at this
    unfold U32 at *
    omega
  have core : ∀ u : FlashState, ∃ b, FLASH_CompareMemory u sdev src ddev dst length = some b ∧
      (b = true ↔ ∀ i, i < length → readByte u (src + i) = readByte u (dst + i)) := by
    intro u
    obtain ⟨b, h1, h2⟩ := compareMemory_units u sdev src ddev dst length hvs hvd hsrc hlen hdst
    rw [hu] at h2
    exact ⟨b, h1, h2⟩
  have iff_true : ∀ u : FlashState, FLASH_CompareMemory u sdev src ddev dst length = some true ↔
      ∀ i, i < length → readByte u (src + i) = readByte u (dst + i) := by
    intro u
    obtain ⟨b, h1, h2⟩ := core u
    rw [h1, ← h2]
    simp
  refine ⟨?_, iff_true s, ?_⟩
  · obtain ⟨b, h1, _⟩ := core s
    exact ⟨b, h1⟩
  · intro t j hj hout hsame hdiff heq
    obtain ⟨b, h1, h2⟩ := core t
    have hagree := (iff_true s).1 heq j hj
    have hb : b = false := by
      cases b
      · rfl
      · exfalso
        have ht := h2.1 rfl j hj
        have hsj : readByte t (src + j) = readByte s (src + j) := hsame (src + j) (by omega)
        rw [hsj, hagree] at ht
        exact hdiff ht.symm
    rw [h1, hb]

/-- Witness for the amended C8: two ranges of 8 zero bytes. -/
theorem C8_compare_amended_witness :
    (∃ b, FLASH_CompareMemory (healthyFlash (fun _ => 0)) FLASH_INTERNAL 0x08020000
      FLASH_INTERNAL 0x08040000 8 = some b) ∧
    (FLASH_CompareMemory (healthyFlash (fun _ => 0)) FLASH_INTERNAL 0x08020000
        FLASH_INTERNAL 0x08040000 8 = some true ↔
      ∀ i, i < 8 → readByte (healthyFlash (fun _ => 0)) (0x08020000 + i) =
        readByte (healthyFlash (fun _ => 0)) (0x08040000 + i)) ∧
    (∀ (t : FlashState) (j : Nat), j < 8 →
      (0x08040000 + j < 0x08020000 ∨ 0x08020000 + 8 ≤ 0x08040000 + j) →
      (∀ a, a ≠ 0x08040000 + j → readByte t a = readByte (healthyFlash (fun _ => 0)) a) →
      readByte t (0x08040000 + j) ≠ readByte (healthyFlash (fun _ => 0)) (0x08040000 + j) →
      FLASH_CompareMemory (healthyFlash (fun _ => 0)) FLASH_INTERNAL 0x08020000
        FLASH_INTERNAL 0x08040000 8 = some true →
      FLASH_CompareMemory t FLASH_INTERNAL 0x08020000 FLASH_INTERNAL 0x08040000 8
        = some false) :=
  C8_compare_amended (healthyFlash (fun _ => 0)) FLASH_INTERNAL 0x08020000 FLASH_INTERNAL
    0x08040000 8 (by decide) (by decide) (by decide) (by decide) (by decide)

/-! ## Copy engine -/

theorem programWord_fst (s : FlashState) (address data : Nat) :
    (FLASH_ProgramWord s address data).1 = s.programOk address := by
  unfold FLASH_ProgramWord
  split_ifs with h <;> simp [h]

theorem programWord_programOk (s : FlashState) (address data : Nat) :
    (FLASH_ProgramWord s address data).2.programOk = s.programOk := by
  unfold FLASH_ProgramWord
  split_ifs <;> rfl

theorem programWord_mem (s : FlashState) (address data a : Nat) :
    (FLASH_ProgramWord s address data).2.mem a =
      if s.programOk address = true ∧ address ≤ a ∧ a < address + 4 then
        Nat.land (s.mem a % 256) (wordByte data (a - address))
      else s.mem a := by
  unfold FLASH_ProgramWord
  split_ifs <;> simp_all

/-- A byte of one of the 128 KB sectors 5 to 11 lies in that sector. -/
theorem inSector_high (m a : Nat) (h5 : 5 ≤ m) (h11 : m ≤ 11)
    (h1 : 0x08020000 + (m - 5) * 0x20000 ≤ a) (h2 : a < 0x08020000 + (m - 4) * 0x20000) :
    inSector (FLASH_Sector m) a = true := by
  unfold inSector FLASH_Sector sectorBase
  have e1 : 8 * m / 8 = m := by omega
  have e2 : 8 * m % 8 = 0 := by omega
  rw [e1, e2, if_neg (by omega), if_neg (by omega), if_neg (by omega), if_neg (by omega)]
  simp only [decide_eq_true_eq]
  refine ⟨trivial, h11, h1, ?_⟩
  have e3 : m + 1 - 5 = m - 4 := by omega
  rw [e3]
  exact h2

/-- The program status oracle is left alone by `FLASH_EraseMemory`. -/
theorem eraseMemory_programOk (s : FlashState) (dev start length : Nat) :
    (FLASH_EraseMemory s dev start length).2.programOk = s.programOk := by
  rcases eraseMemory_cases s dev start length with h | ⟨_, _, _, h⟩
  · rw [h]
  · rw [h]
    split_ifs
    · exact (eraseLoop_fields _ _ _ _).2.1
    · exact (eraseLoop_fields _ _ _ _).2.1

/-- When a range starts on a 128 KB boundary, does not wrap and is valid, a
successful `FLASH_EraseMemory` leaves every byte of the range erased. -/
theorem eraseMemory_aligned (s : FlashState) (dev start length : Nat)
    (hal : start % 0x20000 = 0) (hnw : start + length ≤ 0x08100000)
    (hok : (FLASH_EraseMemory s dev start length).1 = true) :
    ∀ a, start ≤ a → a < start + length →
      (FLASH_EraseMemory s dev start length).2.mem a = ERASED := by
  intro a ha1 ha2
  rcases eraseMemory_cases s dev start length with h | ⟨hv, hd, hlt, h⟩
  · rw [h] at hok
    exact absurd hok (by simp)
  · subst hd
    have hs := ((checkValid_internal start length).1 hv).1
    have hp := pagesMask_internal length (by unfold U32; omega)
    rw [h] at hok ⊢
    split_ifs at hok ⊢ with hr
    show (eraseLoop _ _ 0 _).2.mem a = ERASED
    apply eraseLoop_mem_inside _ _ _ _ _ hr
    refine ⟨(a - start) / 0x20000, Nat.zero_le _, by omega, ?_⟩
    have hid : (FLASH_Sector (5 + (start - 0x08020000) / 0x20000)
        + 8 * ((a - start) / 0x20000)) % U32 =
          FLASH_Sector (5 + (start - 0x08020000) / 0x20000 + (a - start) / 0x20000) := by
      unfold FLASH_Sector U32
      omega
    rw [hid]
    apply inSector_high <;> omega

/-- C11 (the code at the failing input). On `wrappedLengthImage` the module length
is `2^32 - 4`; with the length flag set the caller's length 16 is far below
`module_length + 4` taken as an integer, yet the 32-bit sum wraps to 0, the
length test does not fire and the copy returns true. -/
theorem C11_wrapping_module_length_accepted :
    FLASH_ModuleLength examplePlatform (healthyFlash wrappedLengthImage) FLASH_INTERNAL
      0x08060000 = 4294967292 ∧
    (16 : Int) < 4294967292 + 4 ∧
    Nat.land 0x10 (Nat.lor examplePlatform.MODULE_VERIFY_LENGTH
      examplePlatform.MODULE_VERIFY_CRC) ≠ 0 ∧
    lengthCheckFails examplePlatform 16 4294967292 0x10 = false ∧
    (FLASH_CopyMemory examplePlatform (healthyFlash wrappedLengthImage) FLASH_INTERNAL
      0x08060000 FLASH_INTERNAL 0x08020000 16 5 0x10).map Prod.fst = some true := by
  decide

/-- A copy from an internal source with a verify flag set is rejected, with no
effect, whenever one of the five tests of the verification block fails. -/
theorem copyMemory_check_rejected (P : Platform) (s : FlashState)
    (src ddev dst length fn flags p : Nat)
    (hp : FLASH_ModuleInfo P s FLASH_INTERNAL src = some p)
    (hmask : Nat.land flags P.MODULE_VERIFY_MASK ≠ 0)
    (h : (lengthCheckFails P length (FLASH_ModuleLength P s FLASH_INTERNAL src) flags ||
        platformCheckFails P (moduleInfoAt P s p) ||
        destinationCheckFails P (moduleInfoAt P s p) dst flags ||
        functionCheckFails P (moduleInfoAt P s p) fn flags ||
        crcCheckFails P s FLASH_INTERNAL src (FLASH_ModuleLength P s FLASH_INTERNAL src) flags)
          = true) :
    FLASH_CopyMemory P s FLASH_INTERNAL src ddev dst length fn flags = some (false, s) := by
  by_cases hvs : FLASH_CheckValidAddressRange FLASH_INTERNAL src length = true
  · by_cases hvd : FLASH_CheckValidAddressRange ddev dst length = true
    · rw [copyMemory_verified P s src ddev dst length fn flags p hp hvs hvd hmask, if_pos h]
    · unfold FLASH_CopyMemory
      simp [hvs, hvd]
  · unfold FLASH_CopyMemory
    simp [hvs]

/-- C12. In a copy from an Internal source that enters the verification block
(some verify flag set): with the destination flag set and
`header.module_start_address != destinationAddress` the copy returns false; with
the function flag set and `header.module_function` different from the function
argument the copy returns false; and when the destination flag (respectively
the function flag) is clear and the other four tests pass on valid ranges, the
verification passes and the copy goes on to the erase, whatever the header's
start address (respectively function) is. -/
theorem C12_destination_and_function_flags (P : Platform) (s : FlashState)
    (src ddev dst length fn flags p : Nat)
    (hp : FLASH_ModuleInfo P s FLASH_INTERNAL src = some p)
    (hmask : Nat.land flags P.MODULE_VERIFY_MASK ≠ 0) :
    (Nat.land flags P.MODULE_VERIFY_DESTINATION_IS_START_ADDRESS ≠ 0 →
      (moduleInfoAt P s p).module_start_address ≠ dst →
      FLASH_CopyMemory P s FLASH_INTERNAL src ddev dst length fn flags = some (false, s)) ∧
    (Nat.land flags P.MODULE_VERIFY_FUNCTION ≠ 0 →
      (moduleInfoAt P s p).module_function ≠ fn →
      FLASH_CopyMemory P s FLASH_INTERNAL src ddev dst length fn flags = some (false, s)) ∧
    (Nat.land flags P.MODULE_VERIFY_DESTINATION_IS_START_ADDRESS = 0 →
      FLASH_CheckValidAddressRange FLASH_INTERNAL src length = true →
      FLASH_CheckValidAddressRange ddev dst length = true →
      lengthCheckFails P length (FLASH_ModuleLength P s FLASH_INTERNAL src) flags = false →
      platformCheckFails P (moduleInfoAt P s p) = false →
      functionCheckFails P (moduleInfoAt P s p) fn flags = false →
      crcCheckFails P s FLASH_INTERNAL src (FLASH_ModuleLength P s FLASH_INTERNAL src) flags
        = false →
      moduleVerification P s FLASH_INTERNAL src dst length fn flags = some true ∧
      FLASH_CopyMemory P s FLASH_INTERNAL src ddev dst length fn flags =
        copyAfterVerification s FLASH_INTERNAL src ddev dst length) ∧
    (Nat.land flags P.MODULE_VERIFY_FUNCTION = 0 →
      FLASH_CheckValidAddressRange FLASH_INTERNAL src length = true →
      FLASH_CheckValidAddressRange ddev dst length = true →
      lengthCheckFails P length (FLASH_ModuleLength P s FLASH_INTERNAL src) flags = false →
      platformCheckFails P (moduleInfoAt P s p) = false →
      destinationCheckFails P (moduleInfoAt P s p) dst flags = false →
      crcCheckFails P s FLASH_INTERNAL src (FLASH_ModuleLength P s FLASH_INTERNAL src) flags
        = false →
      moduleVerification P s FLASH_INTERNAL src dst length fn flags = some true ∧
      FLASH_CopyMemory P s FLASH_INTERNAL src ddev dst length fn flags =
        copyAfterVerification s FLASH_INTERNAL src ddev dst length) := by
  refine ⟨?_, ?_, ?_, ?_⟩
  · intro hflag hne
    apply copyMemory_check_rejected P s src ddev dst length fn flags p hp hmask
    have : destinationCheckFails P (moduleInfoAt P s p) dst flags = true := by
      unfold destinationCheckFails
      simp [hflag, hne]
    simp [this]
  · intro hflag hne
    apply copyMemory_check_rejected P s src ddev dst length fn flags p hp hmask
    have : functionCheckFails P (moduleInfoAt P s p) fn flags = true := by
      unfold functionCheckFails
      simp [hflag, hne]
    simp [this]
  · intro hflag hvs hvd h1 h2 h4 h5
    have h3 : destinationCheckFails P (moduleInfoAt P s p) dst flags = false := by
      unfold destinationCheckFails
      simp [hflag]
    constructor
    · rw [moduleVerification_eq P s FLASH_INTERNAL src dst length fn flags p hp]
      simp [h1, h2, h3, h4, h5]
    · rw [copyMemory_verified P s src ddev dst length fn flags p hp hvs hvd hmask, if_neg]
      simp [h1, h2, h3, h4, h5]
  · intro hflag hvs hvd h1 h2 h3 h5
    have h4 : functionCheckFails P (moduleInfoAt P s p) fn flags = false := by
      unfold functionCheckFails
      simp [hflag]
    constructor
    · rw [moduleVerification_eq P s FLASH_INTERNAL src dst length fn flags p hp]
      simp [h1, h2, h3, h4, h5]
    · rw [copyMemory_verified P s src ddev dst length fn flags p hp hvs hvd hmask, if_neg]
      simp [h1, h2, h3, h4, h5]


/-- Witness for C12 on `stagedImage` (header start `0x08020000`, function 5):
the destination flag rejects the destination `0x08040000` and the function flag
rejects the function argument 4, while with the CRC flag alone the same
destination and the same function argument pass the verification. -/
theorem C12_destination_and_function_flags_witness :
    FLASH_CopyMemory examplePlatform (healthyFlash stagedImage) FLASH_INTERNAL 0x08060000
      FLASH_INTERNAL 0x08040000 20 5 0x04 = some (false, healthyFlash stagedImage) ∧
    FLASH_CopyMemory examplePlatform (healthyFlash stagedImage) FLASH_INTERNAL 0x08060000
      FLASH_INTERNAL 0x08020000 20 4 0x08 = some (false, healthyFlash stagedImage) ∧
    (moduleVerification examplePlatform (healthyFlash stagedImage) FLASH_INTERNAL 0x08060000
        0x08040000 20 5 0x02 = some true ∧
      FLASH_CopyMemory examplePlatform (healthyFlash stagedImage) FLASH_INTERNAL 0x08060000
        FLASH_INTERNAL 0x08040000 20 5 0x02 =
        copyAfterVerification (healthyFlash stagedImage) FLASH_INTERNAL 0x08060000
          FLASH_INTERNAL 0x08040000 20) ∧
    (moduleVerification examplePlatform (healthyFlash stagedImage) FLASH_INTERNAL 0x08060000
        0x08020000 20 4 0x02 = some true ∧
      FLASH_CopyMemory examplePlatform (healthyFlash stagedImage) FLASH_INTERNAL 0x08060000
        FLASH_INTERNAL 0x08020000 20 4 0x02 =
        copyAfterVerification (healthyFlash stagedImage) FLASH_INTERNAL 0x08060000
          FLASH_INTERNAL 0x08020000 20) :=
  ⟨(C12_destination_and_function_flags examplePlatform (healthyFlash stagedImage) 0x08060000
      FLASH_INTERNAL 0x08040000 20 5 0x04 0x08060000 (by decide) (by decide)).1
      (by decide) (by decide),
   (C12_destination_and_function_flags examplePlatform (healthyFlash stagedImage) 0x08060000
      FLASH_INTERNAL 0x08020000 20 4 0x08 0x08060000 (by decide) (by decide)).2.1
      (by decide) (by decide),
   (C12_destination_and_function_flags examplePlatform (healthyFlash stagedImage) 0x08060000
      FLASH_INTERNAL 0x08040000 20 5 0x02 0x08060000 (by decide) (by decide)).2.2.1
      (by decide) (by decide) (by decide) (by decide) (by decide) (by decide) (by decide),
   (C12_destination_and_function_flags examplePlatform (healthyFlash stagedImage) 0x08060000
      FLASH_INTERNAL 0x08020000 20 4 0x02 0x08060000 (by decide) (by decide)).2.2.2
      (by decide) (by decide) (by decide) (by decide) (by decide) (by decide) (by decide)⟩


/-! ## Sector geometry -/

/-- Below the top of the window, the sector of an address is the index of the
first threshold of `FLASH_SectorToErase` that exceeds the address. -/
theorem sectorToErase_first_threshold (a : Nat) (h : a < 0x08100000) :
    ∃ k, k ≤ 11 ∧ FLASH_SectorToErase FLASH_INTERNAL a = FLASH_Sector k ∧
      a < sectorThresholds.getD k 0 ∧ ∀ j, j < k → sectorThresholds.getD j 0 ≤ a := by
  unfold FLASH_SectorToErase
  rw [if_neg (not_not.2 rfl)]
  by_cases h0 : a < 0x8004000
  · rw [if_pos h0]
    refine ⟨0, by decide, rfl, h0, ?_⟩
    intro j hj
    omega
  rw [if_neg h0]
  by_cases h1 : a < 0x8008000
  · rw [if_pos h1]
    refine ⟨1, by decide, rfl, h1, ?_⟩
    intro j hj
    interval_cases j
    simp only [sectorThresholds, List.getD_cons_zero]
    omega
  rw [if_neg h1]
  by_cases h2 : a < 0x800c000
  · rw [if_pos h2]
    refine ⟨2, by decide, rfl, h2, ?_⟩
    intro j hj
    interval_cases j <;>
      simp only [sectorThresholds, List.getD_cons_zero, List.getD_cons_succ] <;> omega
  rw [if_neg h2]
  by_cases h3 : a < 0x8010000
  · rw [if_pos h3]
    refine ⟨3, by decide, rfl, h3, ?_⟩
    intro j hj
    interval_cases j <;>
      simp only [sectorThresholds, List.getD_cons_zero, List.getD_cons_succ] <;> omega
  rw [if_neg h3]
  by_cases h4 : a < 0x8020000
  · rw [if_pos h4]
    refine ⟨4, by decide, rfl, h4, ?_⟩
    intro j hj
    interval_cases j <;>
      simp only [sectorThresholds, List.getD_cons_zero, List.getD_cons_succ] <;> omega
  rw [if_neg h4]
  by_cases h5 : a < 0x8040000
  · rw [if_pos h5]
    refine ⟨5, by decide, rfl, h5, ?_⟩
    intro j hj
    interval_cases j <;>
      simp only [sectorThresholds, List.getD_cons_zero, List.getD_cons_succ] <;> omega
  rw [if_neg h5]
  by_cases h6 : a < 0x8060000
  · rw [if_pos h6]
    refine ⟨6, by decide, rfl, h6, ?_⟩
    intro j hj
    interval_cases j <;>
      simp only [sectorThresholds, List.getD_cons_zero, List.getD_cons_succ] <;> omega
  rw [if_neg h6]
  by_cases h7 : a < 0x8080000
  · rw [if_pos h7]
    refine ⟨7, by decide, rfl, h7, ?_⟩
    intro j hj
    interval_cases j <;>
      simp only [sectorThresholds, List.getD_cons_zero, List.getD_cons_succ] <;> omega
  rw [if_neg h7]
  by_cases h8 : a < 0x80a0000
  · rw [if_pos h8]
    refine ⟨8, by decide, rfl, h8, ?_⟩
    intro j hj
    interval_cases j <;>
      simp only [sectorThresholds, List.getD_cons_zero, List.getD_cons_succ] <;> omega
  rw [if_neg h8]
  by_cases h9 : a < 0x80c0000
  · rw [if_pos h9]
    refine ⟨9, by decide, rfl, h9, ?_⟩
    intro j hj
    interval_cases j <;>
      simp only [sectorThresholds, List.getD_cons_zero, List.getD_cons_succ] <;> omega
  rw [if_neg h9]
  by_cases h10 : a < 0x80e0000
  · rw [if_pos h10]
    refine ⟨10, by decide, rfl, h10, ?_⟩
    intro j hj
    interval_cases j <;>
      simp only [sectorThresholds, List.getD_cons_zero, List.getD_cons_succ] <;> omega
  rw [if_neg h10]
  by_cases h11 : a < 0x8100000
  · rw [if_pos h11]
    refine ⟨11, by decide, rfl, h11, ?_⟩
    intro j hj
    interval_cases j <;>
      simp only [sectorThresholds, List.getD_cons_zero, List.getD_cons_succ] <;> omega
  rw [if_neg h11]
  omega

/-- At or above the top of the window the sector is the invalid value. -/
theorem sectorToErase_above (a : Nat) (h : 0x08100000 ≤ a) :
    FLASH_SectorToErase FLASH_INTERNAL a = INVALID_SECTOR := by
  rcases sectorToErase_installable a (by omega) with ⟨_, h2⟩ | ⟨h1, _⟩
  · exact h2
  · omega

/-- C19. `FLASH_SectorToErase` on the Internal device sends every address below
`0x08100000` to exactly one sector index 0..11, the index of the first threshold
in the ordered list `0x08004000, ..., 0x08100000` that exceeds the address; it is
monotone; the thresholds are the sector boundaries and the sector sizes are
non-decreasing (16K four times, 64K, 128K seven times); an address at or above
`0x08100000` and every device other than Internal give the invalid value
`0xFFFF`. -/
theorem C19_sectorToErase_total_monotone :
    (∀ a, a < 0x08100000 →
      ∃ k, k ≤ 11 ∧ FLASH_SectorToErase FLASH_INTERNAL a = FLASH_Sector k ∧
        a < sectorThresholds.getD k 0 ∧ (∀ j, j < k → sectorThresholds.getD j 0 ≤ a) ∧
        ∀ m, FLASH_SectorToErase FLASH_INTERNAL a = FLASH_Sector m → m = k) ∧
    (∀ a b, a ≤ b →
      FLASH_SectorToErase FLASH_INTERNAL a ≤ FLASH_SectorToErase FLASH_INTERNAL b) ∧
    (∀ k, k < 12 → sectorThresholds.getD k 0 = sectorBase (k + 1)) ∧
    (∀ k, k < 11 → sectorSize k ≤ sectorSize (k + 1)) ∧
    (List.range 12).map sectorSize =
      [0x4000, 0x4000, 0x4000, 0x4000, 0x10000, 0x20000, 0x20000, 0x20000, 0x20000,
       0x20000, 0x20000, 0x20000] ∧
    (∀ a, 0x08100000 ≤ a → FLASH_SectorToErase FLASH_INTERNAL a = 0xFFFF) ∧
    (∀ dev a, dev ≠ FLASH_INTERNAL → FLASH_SectorToErase dev a = 0xFFFF) := by
  refine ⟨?_, ?_, by decide, by decide, by decide, ?_, ?_⟩
  · intro a ha
    obtain ⟨k, hk, h1, h2, h3⟩ := sectorToErase_first_threshold a ha
    refine ⟨k, hk, h1, h2, h3, ?_⟩
    intro m hm
    rw [h1] at hm
    unfold FLASH_Sector at hm
    omega
  · intro a b hab
    by_cases hb : b < 0x08100000
    · obtain ⟨ka, hka, ha1, _, ha3⟩ := sectorToErase_first_threshold a (by omega)
      obtain ⟨kb, hkb, hb1, hb2, _⟩ := sectorToErase_first_threshold b hb
      rw [ha1, hb1]
      unfold FLASH_Sector
      by_contra hlt
      have := ha3 kb (by omega)
      omega
    · rw [sectorToErase_above b (by omega)]
      by_cases ha : a < 0x08100000
      · obtain ⟨ka, hka, ha1, _, _⟩ := sectorToErase_first_threshold a ha
        rw [ha1]
        unfold FLASH_Sector INVALID_SECTOR
        omega
      · rw [sectorToErase_above a (by omega)]
  · intro a ha
    exact sectorToErase_above a ha
  · intro dev a hdev
    unfold FLASH_SectorToErase
    rw [if_pos hdev]
    rfl

/-! ## Module metadata readers -/

/-- The header address that `FLASH_ModuleInfo` returns on the internal device. -/
theorem moduleInfo_headerAddress (P : Platform) (s : FlashState) (address : Nat) :
    FLASH_ModuleInfo P s FLASH_INTERNAL address = some (headerAddress P s address) := by
  unfold FLASH_ModuleInfo headerAddress
  rw [if_pos rfl]
  split_ifs <;> rfl

/-- C20. `FLASH_isModuleInfoValid` returns true exactly when the device is
Internal and the header read at the address (at address + 0x184, as a 32-bit
sum, when the first word masked with `APP_START_MASK` is `0x20000000`) has
`module_start_address` equal to the expected address and `platform_id` equal to
`PLATFORM_ID`; for a device other than Internal it returns false and
`FLASH_ModuleLength` and `FLASH_ModuleAddress` return 0; for Internal
`FLASH_ModuleLength` is `module_end_address - module_start_address` modulo
`2^32` and `FLASH_ModuleAddress` is `module_start_address`, of that same header. -/
theorem C20_module_info_readers (P : Platform) (s : FlashState)
    (dev address expected : Nat) :
    (FLASH_isModuleInfoValid P s dev address expected = true ↔
      (dev = FLASH_INTERNAL ∧
        (moduleInfoAt P s (headerAddress P s address)).module_start_address = expected ∧
        (moduleInfoAt P s (headerAddress P s address)).platform_id = P.PLATFORM_ID)) ∧
    (dev ≠ FLASH_INTERNAL →
      FLASH_isModuleInfoValid P s dev address expected = false ∧
      FLASH_ModuleLength P s dev address = 0 ∧
      FLASH_ModuleAddress P s dev address = 0) ∧
    (dev = FLASH_INTERNAL →
      ((FLASH_ModuleLength P s dev address : Nat) : Int) =
        (((moduleInfoAt P s (headerAddress P s address)).module_end_address : Int)
          - (moduleInfoAt P s (headerAddress P s address)).module_start_address)
          % 4294967296 ∧
      FLASH_ModuleAddress P s dev address =
        (moduleInfoAt P s (headerAddress P s address)).module_start_address) := by
  have hnone : dev ≠ FLASH_INTERNAL → FLASH_ModuleInfo P s dev address = none := by
    intro h
    unfold FLASH_ModuleInfo
    rw [if_neg h]
  refine ⟨?_, ?_, ?_⟩
  · by_cases hd : dev = FLASH_INTERNAL
    · subst hd
      unfold FLASH_isModuleInfoValid
      rw [moduleInfo_headerAddress]
      simp
    · unfold FLASH_isModuleInfoValid
      rw [hnone hd]
      simp [hd]
  · intro hd
    unfold FLASH_isModuleInfoValid FLASH_ModuleLength FLASH_ModuleAddress
    rw [hnone hd]
    exact ⟨rfl, rfl, rfl⟩
  · intro hd
    subst hd
    refine ⟨?_, by unfold FLASH_ModuleAddress; rw [moduleInfo_headerAddress]⟩
    rw [moduleLength_eq P s FLASH_INTERNAL address _ (moduleInfo_headerAddress P s address)]
    have h1 : (moduleInfoAt P s (headerAddress P s address)).module_start_address < U32 := by
      have h0 := readByte_lt s (headerAddress P s address + P.offset_module_start_address)
      have h1 := readByte_lt s (headerAddress P s address + P.offset_module_start_address + 1)
      have h2 := readByte_lt s (headerAddress P s address + P.offset_module_start_address + 2)
      have h3 := readByte_lt s (headerAddress P s address + P.offset_module_start_address + 3)
      unfold moduleInfoAt readWord U32
      simp only
      omega
    generalize (moduleInfoAt P s (headerAddress P s address)).module_start_address = a at h1 ⊢
    generalize (moduleInfoAt P s (headerAddress P s address)).module_end_address = b
    unfold U32 at *
    omega


/-! ## Records in byte arrays -/

/-- A little-endian read depends only on the bytes it covers. -/
theorem readLE_congr (m n : Nat → Nat) : ∀ (w a : Nat),
    (∀ x, a ≤ x → x < a + w → m x % 256 = n x % 256) → readLE m a w = readLE n a w := by
  intro w
  induction w with
  | zero => intro a _; rfl
  | succ w ih =>
    intro a h
    unfold readLE
    rw [h a (le_refl _) (by omega), ih (a + 1) (fun x h1 h2 => h x (by omega) (by omega))]

/-- A little-endian read of `w` bytes is below `256 ^ w`. -/
theorem readLE_lt (m : Nat → Nat) : ∀ (w a : Nat), readLE m a w < 256 ^ w := by
  intro w
  induction w with
  | zero => intro a; simp [readLE]
  | succ w ih =>
    intro a
    unfold readLE
    have h1 := ih (a + 1)
    have h2 : m a % 256 < 256 := Nat.mod_lt _ (by decide)
    rw [pow_succ]
    omega

/-- A little-endian read of zero bytes is zero. -/
theorem readLE_zero (m : Nat → Nat) : ∀ (w a : Nat),
    (∀ x, a ≤ x → x < a + w → m x % 256 = 0) → readLE m a w = 0 := by
  intro w
  induction w with
  | zero => intro a _; rfl
  | succ w ih =>
    intro a h
    unfold readLE
    rw [h a (le_refl _) (by omega), ih (a + 1) (fun x h1 h2 => h x (by omega) (by omega))]

/-- Byte `k` of a little-endian read is the byte stored at offset `k`. -/
theorem readLE_byte (m : Nat → Nat) : ∀ (w a k : Nat), k < w →
    readLE m a w / 256 ^ k % 256 = m (a + k) % 256 := by
  intro w
  induction w with
  | zero => intro a k hk; omega
  | succ w ih =>
    intro a k hk
    unfold readLE
    cases k with
    | zero =>
      simp only [pow_zero, Nat.div_one, Nat.add_zero]
      omega
    | succ k =>
      have h1 : m a % 256 < 256 := Nat.mod_lt _ (by decide)
      have h2 : (m a % 256 + 256 * readLE m (a + 1) w) / 256 ^ (k + 1) =
          readLE m (a + 1) w / 256 ^ k := by
        rw [pow_succ, Nat.mul_comm (256 ^ k) 256, ← Nat.div_div_eq_div_mul]
        congr 1
        omega
      rw [h2, ih (a + 1) k (by omega)]
      congr 2
      omega

/-- A byte outside an assigned field keeps its value. -/
theorem storeLE_out (m : Nat → Nat) (a w v x : Nat) (h : x < a ∨ a + w ≤ x) :
    storeLE m a w v x = m x := by
  unfold storeLE
  rw [if_neg (by omega)]

/-- Reading part of an assigned field gives the corresponding bytes of the value. -/
theorem readLE_storeLE_part (m : Nat → Nat) (a w v : Nat) : ∀ (j k : Nat), k + j ≤ w →
    readLE (storeLE m a w v) (a + k) j = v / 256 ^ k % 256 ^ j := by
  intro j
  induction j with
  | zero => intro k _; simp [readLE, Nat.mod_one]
  | succ j ih =>
    intro k hk
    unfold readLE
    have h1 : storeLE m a w v (a + k) = v / 256 ^ k % 256 := by
      unfold storeLE
      rw [if_pos (by omega)]
      congr 2
      congr 1
      omega
    have h2 : v / 256 ^ (k + 1) = v / 256 ^ k / 256 := by
      rw [pow_succ, ← Nat.div_div_eq_div_mul]
    rw [h1, Nat.add_assoc, ih (k + 1) (by omega), Nat.mod_mod, h2, pow_succ,
      Nat.mul_comm (256 ^ j) 256, Nat.mod_mul]

/-- Reading an assigned field gives the value, truncated to the field. -/
theorem readLE_storeLE_same (m : Nat → Nat) (a w v : Nat) :
    readLE (storeLE m a w v) a w = v % 256 ^ w := by
  have := readLE_storeLE_part m a w v w 0 (by omega)
  simpa using this

/-- Reading a field that does not overlap the assigned one gives the old value. -/
theorem readLE_storeLE_other (m : Nat → Nat) (a w v b u : Nat)
    (h : b + u ≤ a ∨ a + w ≤ b) :
    readLE (storeLE m a w v) b u = readLE m b u := by
  apply readLE_congr
  intro x h1 h2
  rw [storeLE_out m a w v x (by omega)]

/-- Assigning to a field the value it holds changes no byte. -/
theorem storeLE_same_value (m : Nat → Nat) (a w v : Nat)
    (h : readLE m a w = v % 256 ^ w) (x : Nat) :
    storeLE m a w v x % 256 = m x % 256 := by
  unfold storeLE
  split_ifs with hx
  · have h1 := readLE_byte m w a (x - a) (by omega)
    have e : a + (x - a) = x := by omega
    rw [e, h] at h1
    rw [Nat.mod_mod, ← h1]
    have h2 : 256 ^ w = 256 ^ (x - a) * 256 ^ (w - (x - a)) := by
      rw [← pow_add]
      congr 1
      omega
    rw [h2, Nat.mod_mul_right_div_self]
    have h3 : (256 : Nat) ∣ 256 ^ (w - (x - a)) := dvd_pow_self 256 (by omega)
    rw [Nat.mod_mod_of_dvd _ h3]
  · rfl


/-- A byte outside every assigned field keeps its value. -/
theorem storeFields_out (base x : Nat) : ∀ (fs : List (Nat × Nat × Nat)) (m : Nat → Nat),
    (∀ f ∈ fs, x < base + f.1 ∨ base + f.1 + f.2.1 ≤ x) → storeFields base fs m x = m x := by
  intro fs
  induction fs with
  | nil => intro m _; rfl
  | cons g gs ih =>
    intro m h
    unfold storeFields
    rw [ih _ (fun f hf => h f (List.mem_cons_of_mem _ hf)),
      storeLE_out _ _ _ _ _ (h g (List.mem_cons_self _ _))]

/-- A read that overlaps no assigned field gives the old value. -/
theorem readLE_storeFields_other (base b u : Nat) (fs : List (Nat × Nat × Nat))
    (m : Nat → Nat)
    (h : ∀ f ∈ fs, b + u ≤ base + f.1 ∨ base + f.1 + f.2.1 ≤ b) :
    readLE (storeFields base fs m) b u = readLE m b u := by
  apply readLE_congr
  intro x h1 h2
  rw [storeFields_out base x fs m]
  intro f hf
  have := h f hf
  omega

/-- After the assignments of fields that do not overlap, each field reads back as
the assigned value, truncated to the field. -/
theorem readLE_storeFields_mem (base : Nat) : ∀ (fs : List (Nat × Nat × Nat)) (m : Nat → Nat),
    fs.Pairwise (fun f g => f.1 + f.2.1 ≤ g.1 ∨ g.1 + g.2.1 ≤ f.1) →
    ∀ f ∈ fs, readLE (storeFields base fs m) (base + f.1) f.2.1 = f.2.2 % 256 ^ f.2.1 := by
  intro fs
  induction fs with
  | nil => intro m _ f hf; exact absurd hf (List.not_mem_nil f)
  | cons g gs ih =>
    intro m hpw f hf
    rw [List.pairwise_cons] at hpw
    unfold storeFields
    rcases List.mem_cons.1 hf with rfl | hmem
    · rw [readLE_storeFields_other, readLE_storeLE_same]
      intro e he
      have := hpw.1 e he
      omega
    · exact ih _ hpw.2 f hmem

/-- Assigning to every field the value it already holds changes no byte. -/
theorem storeFields_same_values (base : Nat) : ∀ (fs : List (Nat × Nat × Nat)) (m : Nat → Nat),
    (∀ f ∈ fs, readLE m (base + f.1) f.2.1 = f.2.2 % 256 ^ f.2.1) →
    ∀ x, storeFields base fs m x % 256 = m x % 256 := by
  intro fs
  induction fs with
  | nil => intro m _ x; rfl
  | cons g gs ih =>
    intro m h x
    have hg := h g (List.mem_cons_self _ _)
    unfold storeFields
    rw [ih (storeLE m (base + g.1) g.2.1 g.2.2) ?_ x, storeLE_same_value m _ _ _ hg x]
    intro f hf
    rw [← h f (List.mem_cons_of_mem _ hf)]
    apply readLE_congr
    intro y _ _
    exact storeLE_same_value m _ _ _ hg y

/-- The byte comparison finds no difference exactly when all bytes agree. -/
theorem memcmpDiffers_eq_false (x y : Nat → Nat) (address size : Nat) :
    memcmpDiffers x y address size = false ↔
      ∀ k, k < size → x (address + k) % 256 = y (address + k) % 256 := by
  unfold memcmpDiffers
  simp [List.any_eq_false]

/-- The pairwise disjointness of the fields, on the assigned values. -/
theorem recordFields_pairwise (L : JournalLayout) (hL : L.WellFormed)
    (r : platform_flash_modules_t) :
    (recordFields L r).Pairwise (fun f g => f.1 + f.2.1 ≤ g.1 ∨ g.1 + g.2.1 ≤ f.1) := by
  have h := hL.1
  have e : fieldRanges L = (recordFields L r).map (fun f => (f.1, f.2.1)) := rfl
  rw [e, List.pairwise_map] at h
  exact h

/-- Every field lies inside the record. -/
theorem recordFields_inside (L : JournalLayout) (hL : L.WellFormed)
    (r : platform_flash_modules_t) :
    ∀ f ∈ recordFields L r, f.1 + f.2.1 ≤ L.record_size := by
  intro f hf
  have e : fieldRanges L = (recordFields L r).map (fun f => (f.1, f.2.1)) := rfl
  have hm : (f.1, f.2.1) ∈ fieldRanges L := by
    rw [e]
    exact List.mem_map_of_mem _ hf
  exact hL.2.1 _ hm

/-- The record read from a byte array is what the field reads say. -/
theorem loadRecord_eq_iff (L : JournalLayout) (m : Nat → Nat) (base : Nat)
    (r : platform_flash_modules_t) (hr : recordInRange r) :
    loadRecord L m base = r ↔
      ∀ f ∈ recordFields L r, readLE m (base + f.1) f.2.1 = f.2.2 % 256 ^ f.2.1 := by
  obtain ⟨h1, h2, h3, h4, h5, h6, h7, h8⟩ := hr
  cases r with
  | mk a1 a2 a3 a4 a5 a6 a7 a8 =>
    simp only at h1 h2 h3 h4 h5 h6 h7 h8
    unfold U32 at *
    have e1 : a1 % 256 ^ 1 = a1 := Nat.mod_eq_of_lt (by omega)
    have e2 : a2 % 256 ^ 4 = a2 := Nat.mod_eq_of_lt (by omega)
    have e3 : a3 % 256 ^ 1 = a3 := Nat.mod_eq_of_lt (by omega)
    have e4 : a4 % 256 ^ 4 = a4 := Nat.mod_eq_of_lt (by omega)
    have e5 : a5 % 256 ^ 4 = a5 := Nat.mod_eq_of_lt (by omega)
    have e6 : a6 % 256 ^ 2 = a6 := Nat.mod_eq_of_lt (by omega)
    have e7 : a7 % 256 ^ 1 = a7 := Nat.mod_eq_of_lt (by omega)
    have e8 : a8 % 256 ^ 1 = a8 := Nat.mod_eq_of_lt (by omega)
    simp only [loadRecord, recordFields, platform_flash_modules_t.mk.injEq, List.mem_cons,
      List.mem_singleton, List.not_mem_nil, or_false, forall_eq_or_imp, forall_eq,
      e1, e2, e3, e4, e5, e6, e7, e8]

/-- A record stored field by field reads back as it was assigned. -/
theorem loadRecord_storeFields (L : JournalLayout) (hL : L.WellFormed) (m : Nat → Nat)
    (base : Nat) (r : platform_flash_modules_t) (hr : recordInRange r) :
    loadRecord L (storeFields base (recordFields L r) m) base = r := by
  rw [loadRecord_eq_iff L _ base r hr]
  exact readLE_storeFields_mem base _ m (recordFields_pairwise L hL r)

/-- The record read at `base` depends only on the bytes of the record. -/
theorem loadRecord_congr (L : JournalLayout) (hL : L.WellFormed) (m n : Nat → Nat)
    (base : Nat)
    (h : ∀ x, base ≤ x → x < base + L.record_size → m x % 256 = n x % 256) :
    loadRecord L m base = loadRecord L n base := by
  have hin := hL.2.1
  simp only [fieldRanges, List.mem_cons, List.mem_singleton, List.not_mem_nil, or_false,
    forall_eq_or_imp, forall_eq] at hin
  obtain ⟨i1, i2, i3, i4, i5, i6, i7, i8⟩ := hin
  unfold loadRecord
  rw [readLE_congr m n 1 _ (fun x h1 h2 => h x (by omega) (by omega)),
    readLE_congr m n 4 (base + L.offset_sourceAddress)
      (fun x h1 h2 => h x (by omega) (by omega)),
    readLE_congr m n 1 (base + L.offset_destinationDeviceID)
      (fun x h1 h2 => h x (by omega) (by omega)),
    readLE_congr m n 4 (base + L.offset_destinationAddress)
      (fun x h1 h2 => h x (by omega) (by omega)),
    readLE_congr m n 4 (base + L.offset_length) (fun x h1 h2 => h x (by omega) (by omega)),
    readLE_congr m n 2 (base + L.offset_magicNumber)
      (fun x h1 h2 => h x (by omega) (by omega)),
    readLE_congr m n 1 (base + L.offset_module_function)
      (fun x h1 h2 => h x (by omega) (by omega)),
    readLE_congr m n 1 (base + L.offset_flags) (fun x h1 h2 => h x (by omega) (by omega))]

/-- The record read from a byte array fits the C types of its fields. -/
theorem loadRecord_inRange (L : JournalLayout) (m : Nat → Nat) (base : Nat) :
    recordInRange (loadRecord L m base) := by
  unfold recordInRange loadRecord U32
  simp only
  have h1 := readLE_lt m 1
  have h2 := readLE_lt m 2
  have h4 := readLE_lt m 4
  norm_num at h1 h2 h4
  exact ⟨h1 _, h4 _, h1 _, h4 _, h4 _, h2 _, h1 _, h1 _⟩


/-! ## Update journal: adding records -/

/-- Slots of the table do not overlap. -/
theorem slotAddress_lt (L : JournalLayout) (j k : Nat) (h : j < k) :
    slotAddress L j + L.record_size ≤ slotAddress L k := by
  unfold slotAddress
  have : (j + 1) * L.record_size ≤ k * L.record_size := Nat.mul_le_mul_right _ h
  rw [Nat.add_mul, Nat.one_mul] at this
  omega

/-- A byte of one slot is outside every other slot. -/
theorem slotAddress_disjoint (L : JournalLayout) (j k x : Nat) (h : j ≠ k)
    (hx : x < L.record_size) :
    slotAddress L j + x < slotAddress L k ∨
      slotAddress L k + L.record_size ≤ slotAddress L j + x := by
  rcases Nat.lt_or_gt_of_ne h with h1 | h1
  · have := slotAddress_lt L j k h1
    omega
  · have := slotAddress_lt L k j h1
    omega

/-- After a write of a record to the configuration store, the record read at
that address is the one written and no byte outside it has changed. -/
theorem dct_write_record (L : JournalLayout) (hL : L.WellFormed) (s : FlashState)
    (base : Nat) (r : platform_flash_modules_t) (hr : recordInRange r) :
    loadRecord L (dct_write_app_data s (storeFields base (recordFields L r) s.mem) base
        L.record_size).mem base = r ∧
    ∀ a, (a < base ∨ base + L.record_size ≤ a) →
      (dct_write_app_data s (storeFields base (recordFields L r) s.mem) base
        L.record_size).mem a = s.mem a := by
  constructor
  · rw [loadRecord_congr L hL _ (storeFields base (recordFields L r) s.mem) base]
    · exact loadRecord_storeFields L hL s.mem base r hr
    · intro x h1 h2
      unfold dct_write_app_data
      simp only
      rw [if_pos ⟨h1, h2⟩, Nat.mod_mod]
  · intro a ha
    unfold dct_write_app_data
    simp only
    rw [if_neg (by omega)]

/-- The scan for a free slot: it stops at the first index whose magic number is
not `0xABCD` and writes the record there; it returns false without writing when
there is none. -/
theorem addSlotLoop_spec (L : JournalLayout) (s : FlashState) (r : platform_flash_modules_t) :
    ∀ (n i : Nat),
      ((∀ j, i ≤ j → j < i + n →
          (loadRecord L s.mem (slotAddress L j)).magicNumber = 0xABCD) →
        addSlotLoop L s r n i = (false, s, [])) ∧
      (∀ k, i ≤ k → k < i + n →
        (loadRecord L s.mem (slotAddress L k)).magicNumber ≠ 0xABCD →
        (∀ j, i ≤ j → j < k → (loadRecord L s.mem (slotAddress L j)).magicNumber = 0xABCD) →
        addSlotLoop L s r n i =
          (true,
            dct_write_app_data s (storeFields (slotAddress L k) (recordFields L r) s.mem)
              (slotAddress L k) L.record_size,
            [JournalEvent.dctWrite k])) := by
  intro n
  induction n with
  | zero =>
    intro i
    exact ⟨fun _ => rfl, fun k h1 h2 => by omega⟩
  | succ n ih =>
    intro i
    constructor
    · intro h
      unfold addSlotLoop
      rw [if_pos (h i (le_refl _) (by omega))]
      exact (ih (i + 1)).1 (fun j h1 h2 => h j (by omega) (by omega))
    · intro k h1 h2 hk hbefore
      unfold addSlotLoop
      rcases Nat.eq_or_lt_of_le h1 with heq | hlt
      · subst heq
        rw [if_neg hk]
      · rw [if_pos (hbefore i (le_refl _) hlt)]
        exact (ih (i + 1)).2 k (by omega) (by omega) hk
          (fun j h3 h4 => hbefore j (by omega) h4)

/-- C13. For every journal and every tuple of parameters that fit their C types:
if some general slot has a magic number other than `0xABCD`,
`FLASH_AddToNextAvailableModulesSlot` returns true, issues one write to the
configuration store, the lowest such slot afterwards holds exactly the given
parameters with magic `0xABCD`, and no byte outside that slot (so no other slot,
slot 0 included) has changed; if every general slot has magic `0xABCD` it
returns false, the flash is unchanged and no write is issued. -/
theorem C13_add_to_next_available (L : JournalLayout) (hL : L.WellFormed) (s : FlashState)
    (sdev src ddev dst length fn flags : Nat)
    (h1 : sdev < 256) (h2 : src < U32) (h3 : ddev < 256) (h4 : dst < U32)
    (h5 : length < U32) (h6 : fn < 256) (h7 : flags < 256) :
    ((∃ k, GEN_START_SLOT ≤ k ∧ k < L.MAX_MODULES_SLOT ∧
        (loadRecord L s.mem (slotAddress L k)).magicNumber ≠ 0xABCD) →
      ∃ k, GEN_START_SLOT ≤ k ∧ k < L.MAX_MODULES_SLOT ∧
        (loadRecord L s.mem (slotAddress L k)).magicNumber ≠ 0xABCD ∧
        (∀ j, GEN_START_SLOT ≤ j → j < k →
          (loadRecord L s.mem (slotAddress L j)).magicNumber = 0xABCD) ∧
        (FLASH_AddToNextAvailableModulesSlot L s sdev src ddev dst length fn flags).1 = true ∧
        (FLASH_AddToNextAvailableModulesSlot L s sdev src ddev dst length fn flags).2.2 =
          [JournalEvent.dctWrite k] ∧
        loadRecord L
          (FLASH_AddToNextAvailableModulesSlot L s sdev src ddev dst length fn flags).2.1.mem
          (slotAddress L k) =
          { sourceDeviceID := sdev, sourceAddress := src, destinationDeviceID := ddev,
            destinationAddress := dst, length := length, magicNumber := 0xABCD,
            module_function := fn, flags := flags } ∧
        (∀ a, (a < slotAddress L k ∨ slotAddress L k + L.record_size ≤ a) →
          (FLASH_AddToNextAvailableModulesSlot L s sdev src ddev dst length fn flags).2.1.mem a
            = s.mem a) ∧
        (∀ j x, j ≠ k → x < L.record_size →
          (FLASH_AddToNextAvailableModulesSlot L s sdev src ddev dst length fn flags).2.1.mem
            (slotAddress L j + x) = s.mem (slotAddress L j + x))) ∧
    ((∀ k, GEN_START_SLOT ≤ k → k < L.MAX_MODULES_SLOT →
        (loadRecord L s.mem (slotAddress L k)).magicNumber = 0xABCD) →
      FLASH_AddToNextAvailableModulesSlot L s sdev src ddev dst length fn flags
        = (false, s, [])) := by
  have hr : recordInRange
      { sourceDeviceID := sdev, sourceAddress := src, destinationDeviceID := ddev,
        destinationAddress := dst, length := length, magicNumber := 0xABCD,
        module_function := fn, flags := flags } :=
    ⟨h1, h2, h3, h4, h5, (by show (0xABCD : Nat) < 65536; omega), h6, h7⟩
  have hmax := hL.2.2.2.1
  constructor
  · intro hex
    classical
    have hex2 : ∃ k, GEN_START_SLOT ≤ k ∧ k < L.MAX_MODULES_SLOT ∧
        (loadRecord L s.mem (slotAddress L k)).magicNumber ≠ 0xABCD := hex
    obtain ⟨hk1, hk2, hk3⟩ := Nat.find_spec hex2
    have hmin : ∀ j, GEN_START_SLOT ≤ j → j < Nat.find hex2 →
        (loadRecord L s.mem (slotAddress L j)).magicNumber = 0xABCD := by
      intro j hj1 hj2
      by_contra hne
      exact Nat.find_min hex2 hj2 ⟨hj1, by omega, hne⟩
    have hrun := (addSlotLoop_spec L s
      { sourceDeviceID := sdev, sourceAddress := src, destinationDeviceID := ddev,
        destinationAddress := dst, length := length, magicNumber := 0xABCD,
        module_function := fn, flags := flags }
      (L.MAX_MODULES_SLOT - GEN_START_SLOT) GEN_START_SLOT).2 (Nat.find hex2) hk1
      (by unfold GEN_START_SLOT at *; omega) hk3 hmin
    have hw := dct_write_record L hL s (slotAddress L (Nat.find hex2)) _ hr
    refine ⟨Nat.find hex2, hk1, hk2, hk3, hmin, ?_, ?_, ?_, ?_, ?_⟩
    · unfold FLASH_AddToNextAvailableModulesSlot
      rw [hrun]
    · unfold FLASH_AddToNextAvailableModulesSlot
      rw [hrun]
    · unfold FLASH_AddToNextAvailableModulesSlot
      rw [hrun]
      exact hw.1
    · unfold FLASH_AddToNextAvailableModulesSlot
      rw [hrun]
      exact hw.2
    · intro j x hj hx
      unfold FLASH_AddToNextAvailableModulesSlot
      rw [hrun]
      exact hw.2 _ (slotAddress_disjoint L j _ x hj hx)
  · intro hfull
    unfold FLASH_AddToNextAvailableModulesSlot
    exact (addSlotLoop_spec L s _ (L.MAX_MODULES_SLOT - GEN_START_SLOT) GEN_START_SLOT).1
      (fun j hj1 hj2 => hfull j hj1 (by unfold GEN_START_SLOT at *; omega))


/-- The concrete journal layout is well formed. -/
theorem exampleLayout_wellFormed : exampleLayout.WellFormed := by
  unfold JournalLayout.WellFormed
  decide

/-- Witness for C13: a record added to the empty journal of `exampleLayout`. -/
theorem C13_add_to_next_available_witness :
    ((∃ k, GEN_START_SLOT ≤ k ∧ k < exampleLayout.MAX_MODULES_SLOT ∧
        (loadRecord exampleLayout emptyJournal.mem (slotAddress exampleLayout k)).magicNumber
          ≠ 0xABCD) →
      ∃ k, GEN_START_SLOT ≤ k ∧ k < exampleLayout.MAX_MODULES_SLOT ∧
        (loadRecord exampleLayout emptyJournal.mem (slotAddress exampleLayout k)).magicNumber
          ≠ 0xABCD ∧
        (∀ j, GEN_START_SLOT ≤ j → j < k →
          (loadRecord exampleLayout emptyJournal.mem
            (slotAddress exampleLayout j)).magicNumber = 0xABCD) ∧
        (FLASH_AddToNextAvailableModulesSlot exampleLayout emptyJournal 0 0x08060000 0 0x08020000 8 5 0).1 = true ∧
        (FLASH_AddToNextAvailableModulesSlot exampleLayout emptyJournal 0 0x08060000 0 0x08020000 8 5 0).2.2 =
          [JournalEvent.dctWrite k] ∧
        loadRecord exampleLayout
          (FLASH_AddToNextAvailableModulesSlot exampleLayout emptyJournal 0 0x08060000 0 0x08020000 8 5 0).2.1.mem
          (slotAddress exampleLayout k) =
          { sourceDeviceID := 0, sourceAddress := 0x08060000, destinationDeviceID := 0,
            destinationAddress := 0x08020000, length := 8, magicNumber := 0xABCD,
            module_function := 5, flags := 0 } ∧
        (∀ a, (a < slotAddress exampleLayout k ∨
            slotAddress exampleLayout k + exampleLayout.record_size ≤ a) →
          (FLASH_AddToNextAvailableModulesSlot exampleLayout emptyJournal 0 0x08060000 0 0x08020000 8 5 0).2.1.mem a
            = emptyJournal.mem a) ∧
        (∀ j x, j ≠ k → x < exampleLayout.record_size →
          (FLASH_AddToNextAvailableModulesSlot exampleLayout emptyJournal 0 0x08060000 0 0x08020000 8 5 0).2.1.mem
            (slotAddress exampleLayout j + x) = emptyJournal.mem (slotAddress exampleLayout j + x))) ∧
    ((∀ k, GEN_START_SLOT ≤ k → k < exampleLayout.MAX_MODULES_SLOT →
        (loadRecord exampleLayout emptyJournal.mem (slotAddress exampleLayout k)).magicNumber
          = 0xABCD) →
      FLASH_AddToNextAvailableModulesSlot exampleLayout emptyJournal 0 0x08060000 0 0x08020000 8 5 0
        = (false, emptyJournal, [])) :=
  C13_add_to_next_available exampleLayout exampleLayout_wellFormed emptyJournal
    0 0x08060000 0 0x08020000 8 5 0 (by decide) (by decide) (by decide) (by decide)
    (by decide) (by decide) (by decide)


/-! ## Update journal: the factory reset record -/

/-- The byte comparison of a record with its assigned copy finds no difference
exactly when the stored fields already hold the assigned values. -/
theorem memcmpDiffers_record (L : JournalLayout) (hL : L.WellFormed) (m : Nat → Nat)
    (base : Nat) (r : platform_flash_modules_t) (hr : recordInRange r) :
    memcmpDiffers (storeFields base (recordFields L r) m) m base L.record_size = false ↔
      loadRecord L m base = r := by
  rw [memcmpDiffers_eq_false]
  constructor
  · intro h
    rw [← loadRecord_storeFields L hL m base r hr]
    apply loadRecord_congr L hL
    intro x h1 h2
    have := h (x - base) (by omega)
    have e : base + (x - base) = x := by omega
    rw [e] at this
    exact this.symm
  · intro h k _
    exact storeFields_same_values base _ m ((loadRecord_eq_iff L m base r hr).1 h) _

/-- What `FLASH_AddToFactoryResetModuleSlot` does: nothing when slot 0 already
holds the record, one write of the record to slot 0 otherwise. -/
theorem addFactoryReset_cases (L : JournalLayout) (hL : L.WellFormed) (s : FlashState)
    (sdev src ddev dst length fn flags : Nat)
    (hr : recordInRange (factoryRecord sdev src ddev dst length fn flags)) :
    (loadRecord L s.mem (slotAddress L FAC_RESET_SLOT) = (factoryRecord sdev src ddev dst length fn flags) →
      FLASH_AddToFactoryResetModuleSlot L s sdev src ddev dst length fn flags = (true, s, [])) ∧
    (loadRecord L s.mem (slotAddress L FAC_RESET_SLOT) ≠ (factoryRecord sdev src ddev dst length fn flags) →
      FLASH_AddToFactoryResetModuleSlot L s sdev src ddev dst length fn flags =
        (true,
          dct_write_app_data s
            (storeFields (slotAddress L FAC_RESET_SLOT) (recordFields L (factoryRecord sdev src ddev dst length fn flags)) s.mem)
            (slotAddress L FAC_RESET_SLOT) L.record_size,
          [JournalEvent.dctWrite FAC_RESET_SLOT])) := by
  have hm := memcmpDiffers_record L hL s.mem (slotAddress L FAC_RESET_SLOT) _ hr
  constructor
  · intro h
    unfold FLASH_AddToFactoryResetModuleSlot
    simp only
    rw [hm.2 h]
    simp
  · intro h
    unfold FLASH_AddToFactoryResetModuleSlot
    simp only
    have : memcmpDiffers
        (storeFields (slotAddress L FAC_RESET_SLOT) (recordFields L (factoryRecord sdev src ddev dst length fn flags)) s.mem)
        s.mem (slotAddress L FAC_RESET_SLOT) L.record_size = true := by
      cases hc : memcmpDiffers
        (storeFields (slotAddress L FAC_RESET_SLOT) (recordFields L (factoryRecord sdev src ddev dst length fn flags)) s.mem)
        s.mem (slotAddress L FAC_RESET_SLOT) L.record_size
      · exact absurd (hm.1 hc) h
      · rfl
    rw [this]
    simp

/-- After `FLASH_AddToFactoryResetModuleSlot`, slot 0 holds the record. -/
theorem addFactoryReset_record (L : JournalLayout) (hL : L.WellFormed) (s : FlashState)
    (sdev src ddev dst length fn flags : Nat)
    (hr : recordInRange (factoryRecord sdev src ddev dst length fn flags)) :
    loadRecord L (FLASH_AddToFactoryResetModuleSlot L s sdev src ddev dst length fn flags).2.1.mem (slotAddress L FAC_RESET_SLOT) = (factoryRecord sdev src ddev dst length fn flags) := by
  obtain ⟨c1, c2⟩ := addFactoryReset_cases L hL s sdev src ddev dst length fn flags hr
  by_cases h : loadRecord L s.mem (slotAddress L FAC_RESET_SLOT) = (factoryRecord sdev src ddev dst length fn flags)
  · rw [c1 h]
    exact h
  · rw [c2 h]
    exact (dct_write_record L hL s (slotAddress L FAC_RESET_SLOT) _ hr).1

/-- C16. For every journal and every tuple `p` of parameters that fit their C
types, `FLASH_AddToFactoryResetModuleSlot` returns true; afterwards slot 0 holds
exactly `p` with magic `0x0FAC` and no byte outside slot 0 (so no slot 1..N-1)
has changed; a write to the configuration store is issued if and only if the
new record differs from the stored one, and none otherwise; a second call with
the same `p` issues no write and leaves the flash unchanged. -/
theorem C16_add_factory_reset (L : JournalLayout) (hL : L.WellFormed) (s : FlashState)
    (sdev src ddev dst length fn flags : Nat)
    (h1 : sdev < 256) (h2 : src < U32) (h3 : ddev < 256) (h4 : dst < U32)
    (h5 : length < U32) (h6 : fn < 256) (h7 : flags < 256) :
    (FLASH_AddToFactoryResetModuleSlot L s sdev src ddev dst length fn flags).1 = true ∧
    loadRecord L (FLASH_AddToFactoryResetModuleSlot L s sdev src ddev dst length fn flags).2.1.mem (slotAddress L FAC_RESET_SLOT) = (factoryRecord sdev src ddev dst length fn flags) ∧
    (∀ a, (a < slotAddress L FAC_RESET_SLOT ∨
        slotAddress L FAC_RESET_SLOT + L.record_size ≤ a) →
      (FLASH_AddToFactoryResetModuleSlot L s sdev src ddev dst length fn flags).2.1.mem a = s.mem a) ∧
    (∀ j x, j ≠ FAC_RESET_SLOT → x < L.record_size →
      (FLASH_AddToFactoryResetModuleSlot L s sdev src ddev dst length fn flags).2.1.mem (slotAddress L j + x) = s.mem (slotAddress L j + x)) ∧
    ((FLASH_AddToFactoryResetModuleSlot L s sdev src ddev dst length fn flags).2.2 = [JournalEvent.dctWrite FAC_RESET_SLOT] ↔
      loadRecord L s.mem (slotAddress L FAC_RESET_SLOT) ≠ (factoryRecord sdev src ddev dst length fn flags)) ∧
    ((FLASH_AddToFactoryResetModuleSlot L s sdev src ddev dst length fn flags).2.2 = [] ↔
      loadRecord L s.mem (slotAddress L FAC_RESET_SLOT) = (factoryRecord sdev src ddev dst length fn flags)) ∧
    FLASH_AddToFactoryResetModuleSlot L (FLASH_AddToFactoryResetModuleSlot L s sdev src ddev dst length fn flags).2.1 sdev src ddev dst length fn flags =
      (true, (FLASH_AddToFactoryResetModuleSlot L s sdev src ddev dst length fn flags).2.1, []) := by
  have hr : recordInRange (factoryRecord sdev src ddev dst length fn flags) :=
    ⟨h1, h2, h3, h4, h5, (by show (0x0FAC : Nat) < 65536; omega), h6, h7⟩
  obtain ⟨c1, c2⟩ := addFactoryReset_cases L hL s sdev src ddev dst length fn flags hr
  have hrec := addFactoryReset_record L hL s sdev src ddev dst length fn flags hr
  have hout : ∀ a, (a < slotAddress L FAC_RESET_SLOT ∨
        slotAddress L FAC_RESET_SLOT + L.record_size ≤ a) →
      (FLASH_AddToFactoryResetModuleSlot L s sdev src ddev dst length fn flags).2.1.mem a = s.mem a := by
    intro a ha
    by_cases h : loadRecord L s.mem (slotAddress L FAC_RESET_SLOT) = (factoryRecord sdev src ddev dst length fn flags)
    · rw [c1 h]
    · rw [c2 h]
      exact (dct_write_record L hL s (slotAddress L FAC_RESET_SLOT) _ hr).2 a ha
  refine ⟨?_, hrec, hout, ?_, ?_, ?_, ?_⟩
  · by_cases h : loadRecord L s.mem (slotAddress L FAC_RESET_SLOT) = (factoryRecord sdev src ddev dst length fn flags)
    · rw [c1 h]
    · rw [c2 h]
  · intro j x hj hx
    exact hout _ (slotAddress_disjoint L j _ x hj hx)
  · by_cases h : loadRecord L s.mem (slotAddress L FAC_RESET_SLOT) = (factoryRecord sdev src ddev dst length fn flags)
    · rw [c1 h]
      simp [h]
    · rw [c2 h]
      simp [h]
  · by_cases h : loadRecord L s.mem (slotAddress L FAC_RESET_SLOT) = (factoryRecord sdev src ddev dst length fn flags)
    · rw [c1 h]
      simp [h]
    · rw [c2 h]
      simp [h]
  · exact (addFactoryReset_cases L hL (FLASH_AddToFactoryResetModuleSlot L s sdev src ddev dst length fn flags).2.1 sdev src ddev dst length fn flags hr).1 hrec

/-- C17. For every tuple `p` of parameters that fit their C types: on the flash
left by `FLASH_AddToFactoryResetModuleSlot(p)`,
`FLASH_RestoreFromFactoryResetModuleSlot` is the one call of `FLASH_CopyMemory`
with exactly the parameters `p` (source device and address, destination device
and address, length, function, flags), whose result it returns. -/
theorem C17_restore_after_add (P : Platform) (L : JournalLayout) (hL : L.WellFormed)
    (s : FlashState) (sdev src ddev dst length fn flags : Nat)
    (h1 : sdev < 256) (h2 : src < U32) (h3 : ddev < 256) (h4 : dst < U32)
    (h5 : length < U32) (h6 : fn < 256) (h7 : flags < 256) :
    FLASH_RestoreFromFactoryResetModuleSlot P L (FLASH_AddToFactoryResetModuleSlot L s sdev src ddev dst length fn flags).2.1 =
      FLASH_CopyMemory P (FLASH_AddToFactoryResetModuleSlot L s sdev src ddev dst length fn flags).2.1 sdev src ddev dst length fn flags := by
  have hr : recordInRange (factoryRecord sdev src ddev dst length fn flags) :=
    ⟨h1, h2, h3, h4, h5, (by show (0x0FAC : Nat) < 65536; omega), h6, h7⟩
  have hrec := addFactoryReset_record L hL s sdev src ddev dst length fn flags hr
  unfold FLASH_RestoreFromFactoryResetModuleSlot
  rw [hrec]
  exact if_pos rfl


/-! ## Update journal: clearing a record -/

/-- Programming the word zero clears the four bytes and no other. -/
theorem programWord_zero_mem (s : FlashState) (address x : Nat) :
    (FLASH_ProgramWord s address 0).2.mem x =
      if s.programOk address = true ∧ address ≤ x ∧ x < address + 4 then 0 else s.mem x := by
  rw [programWord_mem]
  split_ifs
  · have h0 : wordByte 0 (x - address) = 0 := by
      unfold wordByte
      rw [Nat.zero_div]
    rw [h0]
    exact Nat.and_zero _
  · rfl

/-- The zeroing loop leaves the program status oracle alone. -/
theorem zeroWords_programOk : ∀ (n address : Nat) (s : FlashState),
    (zeroWords n address s).programOk = s.programOk := by
  intro n
  induction n with
  | zero => intro address s; rfl
  | succ n ih =>
    intro address s
    unfold zeroWords
    rw [ih, programWord_programOk]

/-- The zeroing loop changes no byte outside the words it programs. -/
theorem zeroWords_out : ∀ (n address : Nat) (s : FlashState) (x : Nat),
    address + 4 * n < U32 → (x < address ∨ address + 4 * n ≤ x) →
    (zeroWords n address s).mem x = s.mem x := by
  intro n
  induction n with
  | zero => intro address s x _ _; rfl
  | succ n ih =>
    intro address s x hnw hx
    unfold zeroWords
    have h4 : (address + 4) % U32 = address + 4 := Nat.mod_eq_of_lt (by omega)
    rw [h4, ih (address + 4) _ x (by omega) (by omega), programWord_zero_mem,
      if_neg (by omega)]

/-- When its programs report success, the zeroing loop leaves every byte of the
words it programs at zero. -/
theorem zeroWords_in : ∀ (n address : Nat) (s : FlashState) (x : Nat),
    address + 4 * n < U32 → (∀ k, k < n → s.programOk (address + 4 * k) = true) →
    address ≤ x → x < address + 4 * n →
    (zeroWords n address s).mem x = 0 := by
  intro n
  induction n with
  | zero => intro address s x _ _ h1 h2; omega
  | succ n ih =>
    intro address s x hnw hok h1 h2
    unfold zeroWords
    have h4 : (address + 4) % U32 = address + 4 := Nat.mod_eq_of_lt (by omega)
    rw [h4]
    by_cases hx : x < address + 4
    · rw [zeroWords_out n (address + 4) _ x (by omega) (by omega), programWord_zero_mem,
        if_pos ⟨by simpa using hok 0 (by omega), h1, hx⟩]
    · apply ih (address + 4) _ x (by omega) _ (by omega) (by omega)
      intro k hk
      rw [programWord_programOk]
      have := hok (k + 1) (by omega)
      have e : address + 4 * (k + 1) = address + 4 + 4 * k := by omega
      rw [e] at this
      exact this

/-- The magic number of a record whose bytes are all zero is zero. -/
theorem magic_of_zero (L : JournalLayout) (hL : L.WellFormed) (m : Nat → Nat) (base : Nat)
    (h : ∀ x, base ≤ x → x < base + L.record_size → m x = 0) :
    (loadRecord L m base).magicNumber = 0 := by
  have hin := hL.2.1 (L.offset_magicNumber, 2) (by simp [fieldRanges])
  simp only at hin
  unfold loadRecord
  simp only
  apply readLE_zero
  intro x h1 h2
  rw [h x (by omega) (by omega)]

/-- The slots of a well-formed journal lie below the lowest installable address. -/
theorem slot_below (L : JournalLayout) (hL : L.WellFormed) (j : Nat)
    (hj : j < L.MAX_MODULES_SLOT) :
    slotAddress L j + L.record_size ≤ 0x08020000 := by
  have h1 := hL.2.2.2.2.2
  have h2 : (j + 1) * L.record_size ≤ L.MAX_MODULES_SLOT * L.record_size :=
    Nat.mul_le_mul_right _ hj
  unfold slotAddress
  rw [Nat.add_mul, Nat.one_mul] at h2
  omega

/-- Clearing slot `j` by the unlock, zeroing loop, lock sequence: when the
programs of its words report success all its bytes are zero afterwards; in every
case no byte outside the slot changes and the program status oracle is kept. -/
theorem clearSlot_spec (L : JournalLayout) (hL : L.WellFormed) (s : FlashState) (j : Nat)
    (hj : j < L.MAX_MODULES_SLOT) :
    ((∀ k, k < L.record_size / 4 → s.programOk (slotAddress L j + 4 * k) = true) →
      ∀ x, slotAddress L j ≤ x → x < slotAddress L j + L.record_size →
        (FLASH_Lock (zeroWords (L.record_size / 4) (slotAddress L j) (FLASH_Unlock s))).mem x
          = 0) ∧
    (∀ x, (x < slotAddress L j ∨ slotAddress L j + L.record_size ≤ x) →
      (FLASH_Lock (zeroWords (L.record_size / 4) (slotAddress L j) (FLASH_Unlock s))).mem x
        = s.mem x) ∧
    (FLASH_Lock (zeroWords (L.record_size / 4) (slotAddress L j) (FLASH_Unlock s))).programOk
      = s.programOk := by
  have hb := slot_below L hL j hj
  have h4 := hL.2.2.1
  have hsz : 4 * (L.record_size / 4) = L.record_size := by omega
  refine ⟨?_, ?_, ?_⟩
  · intro hok x h1 h2
    show (zeroWords _ _ _).mem x = 0
    exact zeroWords_in _ _ _ x (by unfold U32; omega) hok h1 (by omega)
  · intro x hx
    show (zeroWords _ _ _).mem x = s.mem x
    rw [zeroWords_out _ _ _ x (by unfold U32; omega) (by omega)]
    rfl
  · show (zeroWords _ _ _).programOk = s.programOk
    rw [zeroWords_programOk]
    rfl

/-- C18 (counterexample). On `stuckFactory`, where the zero programs of slot 0
report failure, `FLASH_ClearFactoryResetModuleSlot` returns true and the magic
number of slot 0 is still `0x0FAC`; the following restore is the copy with the
stored parameters (8 bytes from `0x08060000` to `0x08040000`, flags 0), which
returns true and erases sector 6, while the copy with the compiled-in defaults
returns false on this flash. -/
theorem C18_counterexample :
    (FLASH_ClearFactoryResetModuleSlot exampleLayout stuckFactory).1 = true ∧
    (loadRecord exampleLayout (FLASH_ClearFactoryResetModuleSlot exampleLayout stuckFactory).2.mem
      (slotAddress exampleLayout FAC_RESET_SLOT)).magicNumber = 0x0FAC ∧
    (FLASH_RestoreFromFactoryResetModuleSlot examplePlatform exampleLayout
      (FLASH_ClearFactoryResetModuleSlot exampleLayout stuckFactory).2).map
        (fun r => (r.1, decide (FlashOp.eraseSector (FLASH_Sector 6) ∈ r.2.log))) =
      some (true, true) ∧
    (FLASH_CopyMemory examplePlatform
      (FLASH_ClearFactoryResetModuleSlot exampleLayout stuckFactory).2 FLASH_INTERNAL
      exampleLayout.INTERNAL_FLASH_FAC_ADDRESS FLASH_INTERNAL
      exampleLayout.USER_FIRMWARE_IMAGE_LOCATION exampleLayout.FIRMWARE_IMAGE_SIZE
      exampleLayout.FACTORY_RESET_MODULE_FUNCTION
      (Nat.lor (Nat.lor examplePlatform.MODULE_VERIFY_CRC
        examplePlatform.MODULE_VERIFY_DESTINATION_IS_START_ADDRESS)
        examplePlatform.MODULE_VERIFY_FUNCTION)).map
        (fun r => (r.1, decide (FlashOp.eraseSector (FLASH_Sector 6) ∈ r.2.log))) =
      some (false, false) := by
  decide

/-- C18 (amended). For every journal state: `FLASH_ClearFactoryResetModuleSlot`
returns true and changes no byte outside slot 0 (so no slot 1..N-1); when the
zero programs of the words of slot 0 report success, every byte of slot 0 is
zero afterwards, so its magic number is not `0x0FAC`, and a following
`FLASH_RestoreFromFactoryResetModuleSlot` is the call of `FLASH_CopyMemory` with
the compiled-in defaults (Internal factory address to Internal user-firmware
location, `FIRMWARE_IMAGE_SIZE`, the factory-reset function, flags = CRC |
destination-is-start-address | function), whose result it returns. -/
theorem C18_clear_then_restore_amended (P : Platform) (L : JournalLayout) (hL : L.WellFormed)
    (s : FlashState) :
    (FLASH_ClearFactoryResetModuleSlot L s).1 = true ∧
    (∀ x, (x < slotAddress L FAC_RESET_SLOT ∨
        slotAddress L FAC_RESET_SLOT + L.record_size ≤ x) →
      (FLASH_ClearFactoryResetModuleSlot L s).2.mem x = s.mem x) ∧
    (∀ j x, j ≠ FAC_RESET_SLOT → x < L.record_size →
      (FLASH_ClearFactoryResetModuleSlot L s).2.mem (slotAddress L j + x)
        = s.mem (slotAddress L j + x)) ∧
    ((∀ k, k < L.record_size / 4 →
        s.programOk (slotAddress L FAC_RESET_SLOT + 4 * k) = true) →
      (∀ x, slotAddress L FAC_RESET_SLOT ≤ x →
        x < slotAddress L FAC_RESET_SLOT + L.record_size →
        (FLASH_ClearFactoryResetModuleSlot L s).2.mem x = 0) ∧
      (loadRecord L (FLASH_ClearFactoryResetModuleSlot L s).2.mem
        (slotAddress L FAC_RESET_SLOT)).magicNumber ≠ 0x0FAC ∧
      FLASH_RestoreFromFactoryResetModuleSlot P L (FLASH_ClearFactoryResetModuleSlot L s).2 =
        FLASH_CopyMemory P (FLASH_ClearFactoryResetModuleSlot L s).2 FLASH_INTERNAL
          L.INTERNAL_FLASH_FAC_ADDRESS FLASH_INTERNAL L.USER_FIRMWARE_IMAGE_LOCATION
          L.FIRMWARE_IMAGE_SIZE L.FACTORY_RESET_MODULE_FUNCTION
          (Nat.lor (Nat.lor P.MODULE_VERIFY_CRC P.MODULE_VERIFY_DESTINATION_IS_START_ADDRESS)
            P.MODULE_VERIFY_FUNCTION)) := by
  have hmax : FAC_RESET_SLOT < L.MAX_MODULES_SLOT := by
    have := hL.2.2.2.1
    unfold FAC_RESET_SLOT
    omega
  obtain ⟨c1, c2, _⟩ := clearSlot_spec L hL s FAC_RESET_SLOT hmax
  refine ⟨rfl, c2, ?_, ?_⟩
  · intro j x hj hx
    exact c2 _ (slotAddress_disjoint L j _ x hj hx)
  · intro hok
    have hzero := c1 hok
    have hmagic : (loadRecord L (FLASH_ClearFactoryResetModuleSlot L s).2.mem
        (slotAddress L FAC_RESET_SLOT)).magicNumber = 0 :=
      magic_of_zero L hL _ _ hzero
    refine ⟨hzero, ?_, ?_⟩
    · rw [hmagic]
      decide
    · unfold FLASH_RestoreFromFactoryResetModuleSlot
      rw [hmagic]
      exact if_neg (by decide)


/-! ## The copy engine leaves the configuration sectors alone -/

/-- The erase engine changes no byte below the lowest installable address. -/
theorem eraseMemory_mem_low (s : FlashState) (dev start length : Nat) (hl : length < U32)
    (a : Nat) (ha : a < 0x08020000) :
    (FLASH_EraseMemory s dev start length).2.mem a = s.mem a := by
  rcases eraseMemory_cases s dev start length with h | ⟨hv, hd, hlt, h⟩
  · rw [h]
  · have hp := pagesMask_internal length hl
    have hmem : (eraseLoop (FLASH_Sector (5 + (start - 0x08020000) / 0x20000))
          (FLASH_PagesMask length INTERNAL_FLASH_PAGE_SIZE) 0
          (FLASH_ClearFlags (FLASH_Unlock s))).2.mem a = s.mem a := by
      rw [eraseLoop_mem_outside]
      · rfl
      · intro i _ hi
        have hid : (FLASH_Sector (5 + (start - 0x08020000) / 0x20000) + 8 * i) % U32 =
            FLASH_Sector (5 + (start - 0x08020000) / 0x20000 + i) := by
          unfold FLASH_Sector
          unfold U32 at *
          omega
        rw [hid]
        exact inSector_low _ a (by omega) ha
    rw [h]
    split_ifs
    · exact hmem
    · exact hmem

/-- The streaming loop finishes within its fuel, and when its destination is at
or above the lowest installable address it changes no byte below it. -/
theorem copyLoop_frame (sdev ddev endA : Nat) (hend : endA + 4 ≤ U32) :
    ∀ (fuel src dst data : Nat) (s : FlashState),
      loopUnits src endA < fuel →
      (loopUnits src endA = 0 ∨
        (0x08020000 ≤ dst ∧ dst + 4 * loopUnits src endA < U32)) →
      ∃ b t, copyLoop sdev ddev endA fuel src dst data s = some (b, t) ∧
        (∀ a, a < 0x08020000 → t.mem a = s.mem a) ∧ t.programOk = s.programOk := by
  intro fuel
  induction fuel with
  | zero => intro src dst data s h; omega
  | succ fuel ih =>
    intro src dst data s hfuel hdst
    unfold copyLoop
    by_cases hlt : src < endA
    · have hu := loopUnits_step src endA hlt
      have hd : 0x08020000 ≤ dst ∧ dst + 4 * loopUnits src endA < U32 := by
        rcases hdst with h0 | h1
        · omega
        · exact h1
      have hs4 : (src + 4) % U32 = src + 4 := Nat.mod_eq_of_lt (by omega)
      have hd4 : (dst + 4) % U32 = dst + 4 := Nat.mod_eq_of_lt (by omega)
      rw [if_pos hlt, hs4, hd4]
      dsimp only
      generalize (if sdev = FLASH_INTERNAL then readWord s src else data) = d
      by_cases hdev : ddev = FLASH_INTERNAL
      · rw [if_pos hdev]
        by_cases hr : (FLASH_ProgramWord s dst d).1 = true
        · rw [if_pos hr]
          obtain ⟨b, t, h1, h2, h3⟩ := ih (src + 4) (dst + 4) d (FLASH_ProgramWord s dst d).2
            (by omega) (Or.inr ⟨by omega, by omega⟩)
          refine ⟨b, t, h1, ?_, ?_⟩
          · intro a ha
            rw [h2 a ha, programWord_mem, if_neg (by omega)]
          · rw [h3, programWord_programOk]
        · rw [if_neg hr]
          refine ⟨false, _, rfl, ?_, programWord_programOk _ _ _⟩
          intro a ha
          rw [programWord_mem, if_neg (by omega)]
      · rw [if_neg hdev]
        exact ih (src + 4) (dst + 4) _ s (by omega) (Or.inr ⟨by omega, by omega⟩)
    · rw [if_neg hlt]
      exact ⟨true, s, rfl, fun _ _ => rfl, rfl⟩

/-- The erase and the streaming loop of a copy between valid 32-bit ranges
return, change no byte below the lowest installable address and keep the
program status oracle. -/
theorem copyAfterVerification_frame (s : FlashState) (sdev src ddev dst length : Nat)
    (hvs : FLASH_CheckValidAddressRange sdev src length = true)
    (hvd : FLASH_CheckValidAddressRange ddev dst length = true)
    (hs : src < U32) (hl : length < U32) :
    ∃ b t, copyAfterVerification s sdev src ddev dst length = some (b, t) ∧
      (∀ a, a < 0x08020000 → t.mem a = s.mem a) ∧ t.programOk = s.programOk := by
  have hsd := checkValid_dev sdev src length hvs
  have hdd := checkValid_dev ddev dst length hvd
  subst hsd
  subst hdd
  have hs0 := (checkValid_internal src length).1 hvs
  have hd0 := (checkValid_internal dst length).1 hvd
  unfold copyAfterVerification
  dsimp only
  by_cases he : (FLASH_EraseMemory s FLASH_INTERNAL dst length).1 = true
  · rw [he, if_neg (by simp), if_pos rfl]
    have hb := loopUnits_bound src length (by omega) hs hl
    have hdlt : dst < 0x08100000 := by
      rcases eraseMemory_cases s FLASH_INTERNAL dst length with h | ⟨_, _, h, _⟩
      · rw [h] at he; exact absurd he (by simp)
      · exact h
    obtain ⟨b, t, h1, h2, h3⟩ := copyLoop_frame FLASH_INTERNAL FLASH_INTERNAL
      (endAddressOf src length) (by have := hs0.2; unfold U32; omega) (length + 1) src dst 0
      (FLASH_Unlock (FLASH_EraseMemory s FLASH_INTERNAL dst length).2) (by omega)
      (by
        by_cases hz : loopUnits src (endAddressOf src length) = 0
        · exact Or.inl hz
        · right
          refine ⟨hd0.1, ?_⟩
          have hlen : length ≤ 0xE0000 := by
            have h2 := hs0.2
            have h1 := hs0.1
            unfold loopUnits at hz
            split_ifs at hz with hlt
            · unfold endAddressOf at h2 hlt
              unfold U32 at *
              omega
            · exact absurd rfl hz
          unfold U32
          omega)
    have hmem : ∀ a, a < 0x08020000 → t.mem a = s.mem a := by
      intro a ha
      rw [h2 a ha]
      show (FLASH_EraseMemory s FLASH_INTERNAL dst length).2.mem a = s.mem a
      exact eraseMemory_mem_low s FLASH_INTERNAL dst length hl a ha
    have hok : t.programOk = s.programOk := by
      rw [h3]
      show (FLASH_EraseMemory s FLASH_INTERNAL dst length).2.programOk = s.programOk
      exact eraseMemory_programOk s FLASH_INTERNAL dst length
    rw [h1]
    cases b
    · exact ⟨false, t, rfl, hmem, hok⟩
    · exact ⟨true, FLASH_Lock t, rfl, hmem, hok⟩
  · rw [if_pos (by simp [he])]
    exact ⟨false, _, rfl, fun a ha => eraseMemory_mem_low s FLASH_INTERNAL dst length hl a ha,
      eraseMemory_programOk s FLASH_INTERNAL dst length⟩

/-- Every call of `FLASH_CopyMemory` with a 32-bit source address and length
returns; it changes no byte below the lowest installable address and keeps the
program status oracle. -/
theorem copyMemory_frame (P : Platform) (s : FlashState)
    (sdev src ddev dst length fn flags : Nat) (hs : src < U32) (hl : length < U32) :
    ∃ b t, FLASH_CopyMemory P s sdev src ddev dst length fn flags = some (b, t) ∧
      (∀ a, a < 0x08020000 → t.mem a = s.mem a) ∧ t.programOk = s.programOk := by
  by_cases hvs : FLASH_CheckValidAddressRange sdev src length = true
  · by_cases hvd : FLASH_CheckValidAddressRange ddev dst length = true
    · have hframe := copyAfterVerification_frame s sdev src ddev dst length hvs hvd hs hl
      have hsd := checkValid_dev sdev src length hvs
      by_cases hmask : Nat.land flags P.MODULE_VERIFY_MASK ≠ 0
      · subst hsd
        obtain ⟨p, hp⟩ := moduleInfo_internal P s src
        rw [copyMemory_verified P s src ddev dst length fn flags p hp hvs hvd hmask]
        split_ifs
        · exact ⟨false, s, rfl, fun _ _ => rfl, rfl⟩
        · exact hframe
      · have hg : ¬ (sdev = FLASH_INTERNAL ∧ Nat.land flags P.MODULE_VERIFY_MASK ≠ 0) :=
          fun h => hmask h.2
        unfold FLASH_CopyMemory
        rw [hvs, hvd, if_neg (by simp), if_neg (by simp), if_neg hg]
        exact hframe
    · unfold FLASH_CopyMemory
      rw [hvs, if_neg (by simp), if_pos (by simp [hvd])]
      exact ⟨false, s, rfl, fun _ _ => rfl, rfl⟩
  · unfold FLASH_CopyMemory
    rw [if_pos (by simp [hvs])]
    exact ⟨false, s, rfl, fun _ _ => rfl, rfl⟩


/-! ## Update applier -/

/-- The run of the loop of `FLASH_UpdateModules` over the slots `i .. N-1`, from a
flash `s` whose records in these slots are those of `s0`: it returns; it makes,
for each occupied slot in ascending order, the calls of `slotEvents`; it changes
no byte below the lowest installable address outside the occupied slots; it
keeps the program status oracle; and every byte of an occupied slot whose word
programs report success is zero afterwards. -/
theorem updateLoop_spec (P : Platform) (L : JournalLayout) (hL : L.WellFormed)
    (callback : Bool) (s0 : FlashState) :
    ∀ (n i : Nat) (s : FlashState), i + n = L.MAX_MODULES_SLOT →
      (∀ j, i ≤ j → j < L.MAX_MODULES_SLOT →
        loadRecord L s.mem (slotAddress L j) = loadRecord L s0.mem (slotAddress L j)) →
      ∃ t, updateLoop P L callback n i s =
          some (t, (occupiedFrom L s0 i n).flatMap (slotEvents L callback s0)) ∧
        (∀ a, a < 0x08020000 →
          (∀ j, i ≤ j → j < L.MAX_MODULES_SLOT →
            (loadRecord L s0.mem (slotAddress L j)).magicNumber = 0xABCD →
            (a < slotAddress L j ∨ slotAddress L j + L.record_size ≤ a)) →
          t.mem a = s.mem a) ∧
        t.programOk = s.programOk ∧
        (∀ j, i ≤ j → j < L.MAX_MODULES_SLOT →
          (loadRecord L s0.mem (slotAddress L j)).magicNumber = 0xABCD →
          (∀ k, k < L.record_size / 4 → s.programOk (slotAddress L j + 4 * k) = true) →
          ∀ x, slotAddress L j ≤ x → x < slotAddress L j + L.record_size →
            t.mem x = 0) := by
  intro n
  induction n with
  | zero =>
    intro i s _ _
    refine ⟨s, rfl, fun _ _ _ => rfl, rfl, ?_⟩
    intro j h1 h2
    omega
  | succ n ih =>
    intro i s hn hagree
    have hi : i < L.MAX_MODULES_SLOT := by omega
    have hrec := hagree i (le_refl _) hi
    unfold updateLoop
    by_cases hocc : (loadRecord L s0.mem (slotAddress L i)).magicNumber = 0xABCD
    · -- slot `i` is occupied: copy, clear, go on
      rw [hrec, if_pos hocc]
      have hrange := loadRecord_inRange L s0.mem (slotAddress L i)
      obtain ⟨b, c, hc1, hc2, hc3⟩ := copyMemory_frame P s
        (loadRecord L s0.mem (slotAddress L i)).sourceDeviceID
        (loadRecord L s0.mem (slotAddress L i)).sourceAddress
        (loadRecord L s0.mem (slotAddress L i)).destinationDeviceID
        (loadRecord L s0.mem (slotAddress L i)).destinationAddress
        (loadRecord L s0.mem (slotAddress L i)).length
        (loadRecord L s0.mem (slotAddress L i)).module_function
        (loadRecord L s0.mem (slotAddress L i)).flags hrange.2.1 hrange.2.2.2.2.1
      rw [hc1]
      dsimp only
      obtain ⟨z1, z2, z3⟩ := clearSlot_spec L hL c i hi
      have hagree1 : ∀ j, i + 1 ≤ j → j < L.MAX_MODULES_SLOT →
          loadRecord L (FLASH_Lock (zeroWords (L.record_size / 4) (slotAddress L i)
            (FLASH_Unlock c))).mem (slotAddress L j) =
          loadRecord L s0.mem (slotAddress L j) := by
        intro j hj1 hj2
        rw [← hagree j (by omega) hj2]
        apply loadRecord_congr L hL
        intro x hx1 hx2
        have hlt := slotAddress_lt L i j (by omega)
        have hbel := slot_below L hL j hj2
        rw [z2 x (by omega), hc2 x (by omega)]
      obtain ⟨t, ht1, ht2, ht3, ht4⟩ := ih (i + 1) _ (by omega) hagree1
      rw [ht1]
      refine ⟨t, ?_, ?_, ?_, ?_⟩
      · have e : occupiedFrom L s0 i (n + 1) = i :: occupiedFrom L s0 (i + 1) n := by
          unfold occupiedFrom
          rw [List.range'_succ, List.filter_cons, if_pos (by simpa using hocc)]
        rw [e, List.flatMap_cons]
        simp only [slotEvents, copyEventOf, List.append_assoc]
      · intro a ha hout
        have hai := hout i (le_refl _) hi hocc
        rw [ht2 a ha (fun j hj1 hj2 hj3 => hout j (by omega) hj2 hj3), z2 a hai, hc2 a ha]
      · rw [ht3, z3, hc3]
      · intro j hj1 hj2 hj3 hok x hx1 hx2
        rcases Nat.eq_or_lt_of_le hj1 with heq | hlt
        · subst heq
          have hbel := slot_below L hL i hi
          rw [ht2 x (by omega) ?_]
          · exact z1 (fun k hk => by rw [hc3]; exact hok k hk) x hx1 hx2
          · intro j' hj1' hj2' _
            have := slotAddress_lt L i j' (by omega)
            omega
        · exact ht4 j (by omega) hj2 hj3 (fun k hk => by
            rw [z3, hc3]; exact hok k hk) x hx1 hx2
    · -- slot `i` is not occupied: go on
      rw [hrec, if_neg hocc]
      obtain ⟨t, ht1, ht2, ht3, ht4⟩ := ih (i + 1) s (by omega)
        (fun j hj1 hj2 => hagree j (by omega) hj2)
      refine ⟨t, ?_, ?_, ht3, ?_⟩
      · have e : occupiedFrom L s0 i (n + 1) = occupiedFrom L s0 (i + 1) n := by
          unfold occupiedFrom
          rw [List.range'_succ, List.filter_cons, if_neg (by simpa using hocc)]
        rw [e]
        exact ht1
      · intro a ha hout
        exact ht2 a ha (fun j hj1 hj2 hj3 => hout j (by omega) hj2 hj3)
      · intro j hj1 hj2 hj3 hok x hx1 hx2
        rcases Nat.eq_or_lt_of_le hj1 with heq | hlt
        · subst heq
          exact absurd hj3 hocc
        · exact ht4 j (by omega) hj2 hj3 hok x hx1 hx2


/-- The flash that the loop of `FLASH_UpdateModules` leaves does not depend on
whether the callback pointer is null. -/
theorem updateLoop_state_callback (P : Platform) (L : JournalLayout) :
    ∀ (n i : Nat) (s : FlashState),
      (updateLoop P L true n i s).map Prod.fst = (updateLoop P L false n i s).map Prod.fst := by
  intro n
  induction n with
  | zero => intro i s; rfl
  | succ n ih =>
    intro i s
    unfold updateLoop
    split_ifs
    · cases FLASH_CopyMemory P s
          (loadRecord L s.mem (slotAddress L i)).sourceDeviceID
          (loadRecord L s.mem (slotAddress L i)).sourceAddress
          (loadRecord L s.mem (slotAddress L i)).destinationDeviceID
          (loadRecord L s.mem (slotAddress L i)).destinationAddress
          (loadRecord L s.mem (slotAddress L i)).length
          (loadRecord L s.mem (slotAddress L i)).module_function
          (loadRecord L s.mem (slotAddress L i)).flags with
      | none => rfl
      | some c =>
        dsimp only
        have h := ih (i + 1) (FLASH_Lock (zeroWords (L.record_size / 4) (slotAddress L i)
          (FLASH_Unlock c.2)))
        cases h1 : updateLoop P L true n (i + 1) (FLASH_Lock (zeroWords (L.record_size / 4)
            (slotAddress L i) (FLASH_Unlock c.2))) <;>
        cases h2 : updateLoop P L false n (i + 1) (FLASH_Lock (zeroWords (L.record_size / 4)
            (slotAddress L i) (FLASH_Unlock c.2))) <;>
        rw [h1, h2] at h <;> simp_all
    · exact ih (i + 1) s

/-- C15 (counterexample). With the three occupied slots of `threeInstalls` and a
non-null callback, `FLASH_UpdateModules` calls the callback six times: true and
false around each of the three slots. -/
theorem C15_counterexample :
    occupiedFrom exampleLayout threeInstalls GEN_START_SLOT
      (exampleLayout.MAX_MODULES_SLOT - GEN_START_SLOT) = [1, 2, 3] ∧
    (FLASH_UpdateModules examplePlatform exampleLayout true threeInstalls).map
      (fun r => callbacksOf r.2) = some [true, false, true, false, true, false] := by
  decide

/-- C15 (amended). For every journal, `FLASH_UpdateModules` with a non-null
callback invokes the callback exactly twice for each occupied general slot, in
ascending slot order: with true before that slot's copy and with false after
that slot has been cleared (two calls in total exactly when one slot is
occupied); with a null callback no call is made, the copies are the same and the
flash afterwards is the same. -/
theorem C15_callbacks_amended (P : Platform) (L : JournalLayout) (hL : L.WellFormed)
    (s : FlashState) :
    ∃ t,
      FLASH_UpdateModules P L true s =
        some (t, (occupiedFrom L s GEN_START_SLOT (L.MAX_MODULES_SLOT - GEN_START_SLOT)).flatMap
          (fun j => [JournalEvent.callback true, copyEventOf L s j,
            JournalEvent.callback false])) ∧
      FLASH_UpdateModules P L false s =
        some (t, (occupiedFrom L s GEN_START_SLOT (L.MAX_MODULES_SLOT - GEN_START_SLOT)).flatMap
          (fun j => [copyEventOf L s j])) ∧
      callbacksOf
        ((occupiedFrom L s GEN_START_SLOT (L.MAX_MODULES_SLOT - GEN_START_SLOT)).flatMap
          (fun j => [JournalEvent.callback true, copyEventOf L s j,
            JournalEvent.callback false])) =
        (occupiedFrom L s GEN_START_SLOT (L.MAX_MODULES_SLOT - GEN_START_SLOT)).flatMap
          (fun _ => [true, false]) ∧
      (callbacksOf
        ((occupiedFrom L s GEN_START_SLOT (L.MAX_MODULES_SLOT - GEN_START_SLOT)).flatMap
          (fun j => [JournalEvent.callback true, copyEventOf L s j,
            JournalEvent.callback false]))).length =
        2 * (occupiedFrom L s GEN_START_SLOT (L.MAX_MODULES_SLOT - GEN_START_SLOT)).length ∧
      callbacksOf
        ((occupiedFrom L s GEN_START_SLOT (L.MAX_MODULES_SLOT - GEN_START_SLOT)).flatMap
          (fun j => [copyEventOf L s j])) = [] := by
  have hmax := hL.2.2.2.1
  obtain ⟨t, ht1, _⟩ := updateLoop_spec P L hL true s
    (L.MAX_MODULES_SLOT - GEN_START_SLOT) GEN_START_SLOT s
    (by unfold GEN_START_SLOT; omega) (fun _ _ _ => rfl)
  obtain ⟨u, hu1, _⟩ := updateLoop_spec P L hL false s
    (L.MAX_MODULES_SLOT - GEN_START_SLOT) GEN_START_SLOT s
    (by unfold GEN_START_SLOT; omega) (fun _ _ _ => rfl)
  have hsame := updateLoop_state_callback P L (L.MAX_MODULES_SLOT - GEN_START_SLOT)
    GEN_START_SLOT s
  rw [ht1, hu1] at hsame
  have htu : t = u := by simpa using hsame
  subst htu
  have hcb : ∀ l : List Nat, callbacksOf (l.flatMap
      (fun j => [JournalEvent.callback true, copyEventOf L s j, JournalEvent.callback false]))
      = l.flatMap (fun _ => [true, false]) := by
    intro l
    induction l with
    | nil => rfl
    | cons j l ih =>
      rw [List.flatMap_cons, List.flatMap_cons, ← ih]
      unfold callbacksOf
      rw [List.filterMap_append]
      rfl
  have hlen : ∀ l : List Nat, (l.flatMap (fun _ => [true, false])).length = 2 * l.length := by
    intro l
    induction l with
    | nil => rfl
    | cons j l ih =>
      rw [List.flatMap_cons, List.length_append, ih, List.length_cons]
      simp only [List.length_cons, List.length_nil]
      omega
  have hnone : ∀ l : List Nat, callbacksOf (l.flatMap (fun j => [copyEventOf L s j])) = [] := by
    intro l
    induction l with
    | nil => rfl
    | cons j l ih =>
      rw [List.flatMap_cons]
      unfold callbacksOf at ih ⊢
      rw [List.filterMap_append, ih]
      rfl
  refine ⟨t, ?_, ?_, hcb _, ?_, hnone _⟩
  · unfold FLASH_UpdateModules
    rw [ht1]
    rfl
  · unfold FLASH_UpdateModules
    rw [hu1]
    rfl
  · rw [hcb, hlen]


/-! ## Update journal and applier on a concrete journal -/

/-- Witness for the amended C15: the applier on the three occupied slots of
`threeInstalls`. -/
theorem C15_callbacks_amended_witness :
    ∃ t,
      FLASH_UpdateModules examplePlatform exampleLayout true threeInstalls =
        some (t, (occupiedFrom exampleLayout threeInstalls GEN_START_SLOT (exampleLayout.MAX_MODULES_SLOT - GEN_START_SLOT)).flatMap
          (fun j => [JournalEvent.callback true, copyEventOf exampleLayout threeInstalls j,
            JournalEvent.callback false])) ∧
      FLASH_UpdateModules examplePlatform exampleLayout false threeInstalls =
        some (t, (occupiedFrom exampleLayout threeInstalls GEN_START_SLOT (exampleLayout.MAX_MODULES_SLOT - GEN_START_SLOT)).flatMap
          (fun j => [copyEventOf exampleLayout threeInstalls j])) ∧
      callbacksOf
        ((occupiedFrom exampleLayout threeInstalls GEN_START_SLOT (exampleLayout.MAX_MODULES_SLOT - GEN_START_SLOT)).flatMap
          (fun j => [JournalEvent.callback true, copyEventOf exampleLayout threeInstalls j,
            JournalEvent.callback false])) =
        (occupiedFrom exampleLayout threeInstalls GEN_START_SLOT (exampleLayout.MAX_MODULES_SLOT - GEN_START_SLOT)).flatMap
          (fun _ => [true, false]) ∧
      (callbacksOf
        ((occupiedFrom exampleLayout threeInstalls GEN_START_SLOT (exampleLayout.MAX_MODULES_SLOT - GEN_START_SLOT)).flatMap
          (fun j => [JournalEvent.callback true, copyEventOf exampleLayout threeInstalls j,
            JournalEvent.callback false]))).length =
        2 * (occupiedFrom exampleLayout threeInstalls GEN_START_SLOT (exampleLayout.MAX_MODULES_SLOT - GEN_START_SLOT)).length ∧
      callbacksOf
        ((occupiedFrom exampleLayout threeInstalls GEN_START_SLOT (exampleLayout.MAX_MODULES_SLOT - GEN_START_SLOT)).flatMap
          (fun j => [copyEventOf exampleLayout threeInstalls j])) = [] :=
  C15_callbacks_amended examplePlatform exampleLayout exampleLayout_wellFormed threeInstalls

/-- Witness for C16: a factory reset record set on the empty journal. -/
theorem C16_add_factory_reset_witness :
    (FLASH_AddToFactoryResetModuleSlot exampleLayout emptyJournal 0 0x080E0000 0 0x08020000 16 3 0x0E).1 = true ∧
    loadRecord exampleLayout (FLASH_AddToFactoryResetModuleSlot exampleLayout emptyJournal 0 0x080E0000 0 0x08020000 16 3 0x0E).2.1.mem (slotAddress exampleLayout FAC_RESET_SLOT) = (factoryRecord 0 0x080E0000 0 0x08020000 16 3 0x0E) ∧
    (∀ a, (a < slotAddress exampleLayout FAC_RESET_SLOT ∨
        slotAddress exampleLayout FAC_RESET_SLOT + exampleLayout.record_size ≤ a) →
      (FLASH_AddToFactoryResetModuleSlot exampleLayout emptyJournal 0 0x080E0000 0 0x08020000 16 3 0x0E).2.1.mem a = emptyJournal.mem a) ∧
    (∀ j x, j ≠ FAC_RESET_SLOT → x < exampleLayout.record_size →
      (FLASH_AddToFactoryResetModuleSlot exampleLayout emptyJournal 0 0x080E0000 0 0x08020000 16 3 0x0E).2.1.mem (slotAddress exampleLayout j + x) = emptyJournal.mem (slotAddress exampleLayout j + x)) ∧
    ((FLASH_AddToFactoryResetModuleSlot exampleLayout emptyJournal 0 0x080E0000 0 0x08020000 16 3 0x0E).2.2 = [JournalEvent.dctWrite FAC_RESET_SLOT] ↔
      loadRecord exampleLayout emptyJournal.mem (slotAddress exampleLayout FAC_RESET_SLOT) ≠ (factoryRecord 0 0x080E0000 0 0x08020000 16 3 0x0E)) ∧
    ((FLASH_AddToFactoryResetModuleSlot exampleLayout emptyJournal 0 0x080E0000 0 0x08020000 16 3 0x0E).2.2 = [] ↔
      loadRecord exampleLayout emptyJournal.mem (slotAddress exampleLayout FAC_RESET_SLOT) = (factoryRecord 0 0x080E0000 0 0x08020000 16 3 0x0E)) ∧
    FLASH_AddToFactoryResetModuleSlot exampleLayout (FLASH_AddToFactoryResetModuleSlot exampleLayout emptyJournal 0 0x080E0000 0 0x08020000 16 3 0x0E).2.1 0 0x080E0000 0 0x08020000 16 3 0x0E =
      (true, (FLASH_AddToFactoryResetModuleSlot exampleLayout emptyJournal 0 0x080E0000 0 0x08020000 16 3 0x0E).2.1, []) :=
  C16_add_factory_reset exampleLayout exampleLayout_wellFormed emptyJournal
    0 0x080E0000 0 0x08020000 16 3 0x0E (by decide) (by decide) (by decide) (by decide)
    (by decide) (by decide) (by decide)

/-- Witness for C17: the restore after a factory reset record has been set on the
empty journal. -/
theorem C17_restore_after_add_witness :
    FLASH_RestoreFromFactoryResetModuleSlot examplePlatform exampleLayout (FLASH_AddToFactoryResetModuleSlot exampleLayout emptyJournal 0 0x080E0000 0 0x08020000 16 3 0x0E).2.1 =
      FLASH_CopyMemory examplePlatform (FLASH_AddToFactoryResetModuleSlot exampleLayout emptyJournal 0 0x080E0000 0 0x08020000 16 3 0x0E).2.1 0 0x080E0000 0 0x08020000 16 3 0x0E :=
  C17_restore_after_add examplePlatform exampleLayout exampleLayout_wellFormed emptyJournal
    0 0x080E0000 0 0x08020000 16 3 0x0E (by decide) (by decide) (by decide) (by decide)
    (by decide) (by decide) (by decide)

/-- Witness for the amended C18: on the healthy flash of `factorySet` the factory
reset record is cleared and the restore falls back to the defaults. -/
theorem C18_clear_then_restore_amended_witness :
    (FLASH_ClearFactoryResetModuleSlot exampleLayout factorySet).1 = true ∧
    (∀ x, (x < slotAddress exampleLayout FAC_RESET_SLOT ∨
        slotAddress exampleLayout FAC_RESET_SLOT + exampleLayout.record_size ≤ x) →
      (FLASH_ClearFactoryResetModuleSlot exampleLayout factorySet).2.mem x = factorySet.mem x) ∧
    (∀ j x, j ≠ FAC_RESET_SLOT → x < exampleLayout.record_size →
      (FLASH_ClearFactoryResetModuleSlot exampleLayout factorySet).2.mem
          (slotAddress exampleLayout j + x)
        = factorySet.mem (slotAddress exampleLayout j + x)) ∧
    (∀ x, slotAddress exampleLayout FAC_RESET_SLOT ≤ x →
      x < slotAddress exampleLayout FAC_RESET_SLOT + exampleLayout.record_size →
      (FLASH_ClearFactoryResetModuleSlot exampleLayout factorySet).2.mem x = 0) ∧
    (loadRecord exampleLayout (FLASH_ClearFactoryResetModuleSlot exampleLayout factorySet).2.mem
      (slotAddress exampleLayout FAC_RESET_SLOT)).magicNumber ≠ 0x0FAC ∧
    FLASH_RestoreFromFactoryResetModuleSlot examplePlatform exampleLayout
        (FLASH_ClearFactoryResetModuleSlot exampleLayout factorySet).2 =
      FLASH_CopyMemory examplePlatform (FLASH_ClearFactoryResetModuleSlot exampleLayout factorySet).2
        FLASH_INTERNAL exampleLayout.INTERNAL_FLASH_FAC_ADDRESS FLASH_INTERNAL
        exampleLayout.USER_FIRMWARE_IMAGE_LOCATION exampleLayout.FIRMWARE_IMAGE_SIZE
        exampleLayout.FACTORY_RESET_MODULE_FUNCTION
        (Nat.lor (Nat.lor examplePlatform.MODULE_VERIFY_CRC
          examplePlatform.MODULE_VERIFY_DESTINATION_IS_START_ADDRESS)
          examplePlatform.MODULE_VERIFY_FUNCTION) :=
  match C18_clear_then_restore_amended examplePlatform exampleLayout exampleLayout_wellFormed
      factorySet with
  | ⟨h1, h2, h3, h4⟩ =>
    ⟨h1, h2, h3, (h4 (fun _ _ => rfl)).1, (h4 (fun _ _ => rfl)).2.1,
      (h4 (fun _ _ => rfl)).2.2⟩


/-! ## The sequence of erases of the erase engine -/

/-- When every erase of the loop reports success the loop reports success, having
issued one erase per iteration, in the order of the iterations. -/
theorem eraseLoop_all_ok (fs : Nat) : ∀ (n c : Nat) (s : FlashState),
    (∀ j, j < n → s.eraseOk ((fs + 8 * (c + j)) % U32) = true) →
    (eraseLoop fs n c s).1 = true ∧
    (eraseLoop fs n c s).2.log =
      s.log ++ (List.range n).map (fun j => FlashOp.eraseSector ((fs + 8 * (c + j)) % U32)) := by
  intro n
  induction n with
  | zero => intro c s _; exact ⟨rfl, by simp [eraseLoop]⟩
  | succ n ih =>
    intro c s hok
    have h0 : s.eraseOk ((fs + 8 * c) % U32) = true := hok 0 (by omega)
    obtain ⟨h1, h2⟩ := ih (c + 1) (FLASH_EraseSector s ((fs + 8 * c) % U32)).2 (by
      intro j hj
      rw [eraseSector_eraseOk]
      have := hok (j + 1) (by omega)
      have e : c + (j + 1) = c + 1 + j := by omega
      rw [e] at this
      exact this)
    simp only [eraseLoop]
    rw [eraseSector_fst, h0, if_pos rfl]
    refine ⟨h1, ?_⟩
    rw [h2, eraseSector_log, List.range_succ_eq_map, List.map_cons, List.map_map,
      List.append_assoc]
    have e : ∀ j, c + 1 + j = c + (j + 1) := by intro j; omega
    simp [Function.comp, e]

/-- When the erase of iteration `k` is the first to report failure the loop
reports failure, having issued the erases of the iterations `0` to `k` and
nothing after them. -/
theorem eraseLoop_first_fail (fs : Nat) : ∀ (n c : Nat) (s : FlashState) (k : Nat),
    k < n →
    (∀ j, j < k → s.eraseOk ((fs + 8 * (c + j)) % U32) = true) →
    s.eraseOk ((fs + 8 * (c + k)) % U32) = false →
    (eraseLoop fs n c s).1 = false ∧
    (eraseLoop fs n c s).2.log =
      s.log ++ (List.range (k + 1)).map
        (fun j => FlashOp.eraseSector ((fs + 8 * (c + j)) % U32)) := by
  intro n
  induction n with
  | zero => intro c s k hk; omega
  | succ n ih =>
    intro c s k hk hbefore hfail
    simp only [eraseLoop]
    cases k with
    | zero =>
      rw [Nat.add_zero] at hfail
      rw [eraseSector_fst, hfail, if_neg (by simp)]
      exact ⟨rfl, by rw [eraseSector_log]; rfl⟩
    | succ k =>
      have h0 : s.eraseOk ((fs + 8 * c) % U32) = true := hbefore 0 (by omega)
      obtain ⟨h1, h2⟩ := ih (c + 1) (FLASH_EraseSector s ((fs + 8 * c) % U32)).2 k (by omega)
        (by
          intro j hj
          rw [eraseSector_eraseOk]
          have := hbefore (j + 1) (by omega)
          have e : c + (j + 1) = c + 1 + j := by omega
          rw [e] at this
          exact this)
        (by
          rw [eraseSector_eraseOk]
          have e : c + (k + 1) = c + 1 + k := by omega
          rw [e] at hfail
          exact hfail)
      rw [eraseSector_fst, h0, if_pos rfl]
      refine ⟨h1, ?_⟩
      rw [h2, eraseSector_log, List.range_succ_eq_map (k + 1), List.map_cons, List.map_map,
        List.append_assoc]
      have e : ∀ j, c + 1 + j = c + (j + 1) := by intro j; omega
      simp [Function.comp, e]

/-- The result of `FLASH_PagesMask` is the ceiling of the quotient, computed
without wrap-around: the least `n` with `n * pageSize >= imageSize`. -/
theorem pagesMask_ceil (imageSize pageSize : Nat) (hi : imageSize < U32)
    (hp : 0 < pageSize) :
    FLASH_PagesMask imageSize pageSize < U32 ∧
    imageSize ≤ FLASH_PagesMask imageSize pageSize * pageSize ∧
    ∀ n, imageSize ≤ n * pageSize → FLASH_PagesMask imageSize pageSize ≤ n := by
  have hdm := Nat.div_add_mod imageSize pageSize
  have hmod := Nat.mod_lt imageSize hp
  have hdiv : imageSize / pageSize ≤ imageSize := Nat.div_le_self _ _
  unfold FLASH_PagesMask
  by_cases hr : imageSize % pageSize ≠ 0
  · rw [if_pos hr]
    have hp2 : 2 ≤ pageSize := by
      by_contra h
      have : pageSize = 1 := by omega
      subst this
      exact hr (Nat.mod_one _)
    have hlt : imageSize / pageSize + 1 < U32 := by
      have : imageSize / pageSize * 2 ≤ imageSize := by
        calc imageSize / pageSize * 2 ≤ imageSize / pageSize * pageSize :=
              Nat.mul_le_mul_left _ hp2
          _ ≤ imageSize := Nat.div_mul_le_self _ _
      unfold U32 at *
      omega
    rw [Nat.mod_eq_of_lt hlt]
    refine ⟨hlt, ?_, ?_⟩
    · rw [Nat.add_mul, Nat.one_mul, Nat.mul_comm]
      omega
    · intro n hn
      by_contra hcon
      have hle : n ≤ imageSize / pageSize := by omega
      have : n * pageSize ≤ imageSize / pageSize * pageSize := Nat.mul_le_mul_right _ hle
      rw [Nat.mul_comm (imageSize / pageSize)] at this
      omega
  · rw [if_neg hr]
    have hr0 : imageSize % pageSize = 0 := by omega
    refine ⟨by unfold U32 at *; omega, ?_, ?_⟩
    · rw [Nat.mul_comm]
      omega
    · intro n hn
      by_contra hcon
      have hle : n + 1 ≤ imageSize / pageSize := by omega
      have : (n + 1) * pageSize ≤ imageSize / pageSize * pageSize :=
        Nat.mul_le_mul_right _ hle
      rw [Nat.mul_comm (imageSize / pageSize), Nat.add_mul] at this
      omega

/-- On a range that the validator accepts and whose start is below the top of
the window, `FLASH_EraseMemory` unlocks, clears the flags and runs the erase
loop from the sector of the start, one of the sectors 5 to 11. -/
theorem eraseMemory_run (s : FlashState) (start length : Nat)
    (hv : FLASH_CheckValidAddressRange FLASH_INTERNAL start length = true)
    (hs : start < 0x08100000) :
    (∃ k, 5 ≤ k ∧ k ≤ 11 ∧ FLASH_SectorToErase FLASH_INTERNAL start = FLASH_Sector k ∧
      inSector (FLASH_Sector k) start = true) ∧
    FLASH_EraseMemory s FLASH_INTERNAL start length =
      if (eraseLoop (FLASH_SectorToErase FLASH_INTERNAL start)
            (FLASH_PagesMask length INTERNAL_FLASH_PAGE_SIZE) 0
            (FLASH_ClearFlags (FLASH_Unlock s))).1 = true
      then (true, FLASH_Lock (eraseLoop (FLASH_SectorToErase FLASH_INTERNAL start)
            (FLASH_PagesMask length INTERNAL_FLASH_PAGE_SIZE) 0
            (FLASH_ClearFlags (FLASH_Unlock s))).2)
      else (false, (eraseLoop (FLASH_SectorToErase FLASH_INTERNAL start)
            (FLASH_PagesMask length INTERNAL_FLASH_PAGE_SIZE) 0
            (FLASH_ClearFlags (FLASH_Unlock s))).2) := by
  have hlow := ((checkValid_internal start length).1 hv).1
  rcases sectorToErase_installable start hlow with ⟨h1, _⟩ | ⟨_, h2⟩
  · omega
  · constructor
    · refine ⟨5 + (start - 0x08020000) / 0x20000, by omega, by omega, h2, ?_⟩
      apply inSector_high _ _ (by omega) (by omega) <;> omega
    · have h3 : ¬ FLASH_Sector (5 + (start - 0x08020000) / 0x20000) > FLASH_Sector 11 := by
        unfold FLASH_Sector; omega
      unfold FLASH_EraseMemory
      simp only [hv, h2, bne_self_eq_false, if_true, if_false, h3, Bool.false_eq_true]


/-- The erases of the loop of `FLASH_EraseMemory` on a valid range: the loop run
from a sector identifier `8 * k` with `k <= 11` over at most `2^15` pages uses
the identifiers `8 * k + 8 * j` themselves. -/
theorem eraseLoop_from_sector (s : FlashState) (k pages : Nat) (hk : k ≤ 11)
    (hp : pages ≤ 32768) :
    ((eraseLoop (FLASH_Sector k) pages 0 s).1 = true ↔
      ∀ j, j < pages → s.eraseOk (FLASH_Sector k + 8 * j) = true) ∧
    ((∀ j, j < pages → s.eraseOk (FLASH_Sector k + 8 * j) = true) →
      (eraseLoop (FLASH_Sector k) pages 0 s).2.log = s.log ++ eraseOps (FLASH_Sector k) pages) ∧
    (∀ i, i < pages → (∀ j, j < i → s.eraseOk (FLASH_Sector k + 8 * j) = true) →
      s.eraseOk (FLASH_Sector k + 8 * i) = false →
      (eraseLoop (FLASH_Sector k) pages 0 s).1 = false ∧
      (eraseLoop (FLASH_Sector k) pages 0 s).2.log =
        s.log ++ eraseOps (FLASH_Sector k) (i + 1)) := by
  have hid : ∀ j, j < pages → (FLASH_Sector k + 8 * (0 + j)) % U32 = FLASH_Sector k + 8 * j := by
    intro j hj
    unfold FLASH_Sector U32
    omega
  have hops : ∀ n, n ≤ pages →
      (List.range n).map (fun j => FlashOp.eraseSector ((FLASH_Sector k + 8 * (0 + j)) % U32))
        = eraseOps (FLASH_Sector k) n := by
    intro n hn
    unfold eraseOps
    apply List.map_congr_left
    intro j hj
    rw [hid j (by have := List.mem_range.1 hj; omega)]
  have hall : (∀ j, j < pages → s.eraseOk (FLASH_Sector k + 8 * j) = true) →
      (eraseLoop (FLASH_Sector k) pages 0 s).1 = true ∧
      (eraseLoop (FLASH_Sector k) pages 0 s).2.log =
        s.log ++ eraseOps (FLASH_Sector k) pages := by
    intro h
    have := eraseLoop_all_ok (FLASH_Sector k) pages 0 s (by
      intro j hj
      rw [hid j hj]
      exact h j hj)
    rw [hops pages (le_refl _)] at this
    exact this
  have hfirst : ∀ i, i < pages → (∀ j, j < i → s.eraseOk (FLASH_Sector k + 8 * j) = true) →
      s.eraseOk (FLASH_Sector k + 8 * i) = false →
      (eraseLoop (FLASH_Sector k) pages 0 s).1 = false ∧
      (eraseLoop (FLASH_Sector k) pages 0 s).2.log =
        s.log ++ eraseOps (FLASH_Sector k) (i + 1) := by
    intro i hi hbefore hfail
    have := eraseLoop_first_fail (FLASH_Sector k) pages 0 s i hi
      (by
        intro j hj
        rw [hid j (by omega)]
        exact hbefore j hj)
      (by
        rw [hid i hi]
        exact hfail)
    rw [hops (i + 1) (by omega)] at this
    exact this
  refine ⟨⟨?_, fun h => (hall h).1⟩, fun h => (hall h).2, hfirst⟩
  intro htrue
  by_contra hcon
  have hex : ∃ i, i < pages ∧ s.eraseOk (FLASH_Sector k + 8 * i) = false := by
    by_contra hno
    apply hcon
    intro j hj
    by_contra hj2
    exact hno ⟨j, hj, by simpa using hj2⟩
  have hmin : ∀ m, m < Nat.find hex →
      ¬ (m < pages ∧ s.eraseOk (FLASH_Sector k + 8 * m) = false) :=
    fun m hm => Nat.find_min hex hm
  obtain ⟨hi1, hi2⟩ := Nat.find_spec hex
  have hf := hfirst (Nat.find hex) hi1 (by
    intro j hj
    by_contra hj2
    exact hmin j hj ⟨by omega, by simpa using hj2⟩) hi2
  rw [htrue] at hf
  exact Bool.noConfusion hf.1

/-- C21 (counterexample). The validator accepts the empty range at the top of
the window, `(0x08100000, 0)`, and the wrapping range `(0xFFFFFFFF, 0x08020002)`;
on a healthy flash, on which every erase would report success, `FLASH_EraseMemory`
returns false for both without issuing any operation, because the start has no
sector. -/
theorem C21_counterexample :
    (FLASH_CheckValidAddressRange FLASH_INTERNAL 0x08100000 0 = true ∧
      (∀ j, j < FLASH_PagesMask 0 INTERNAL_FLASH_PAGE_SIZE →
        (healthyFlash (fun _ => 0)).eraseOk
          (FLASH_SectorToErase FLASH_INTERNAL 0x08100000 + 8 * j) = true) ∧
      (FLASH_EraseMemory (healthyFlash (fun _ => 0)) FLASH_INTERNAL 0x08100000 0).1 = false ∧
      (FLASH_EraseMemory (healthyFlash (fun _ => 0)) FLASH_INTERNAL 0x08100000 0).2.log = []) ∧
    (FLASH_CheckValidAddressRange FLASH_INTERNAL 0xFFFFFFFF 0x08020002 = true ∧
      FLASH_PagesMask 0x08020002 INTERNAL_FLASH_PAGE_SIZE = 1026 ∧
      (∀ j, j < FLASH_PagesMask 0x08020002 INTERNAL_FLASH_PAGE_SIZE →
        (healthyFlash (fun _ => 0)).eraseOk
          (FLASH_SectorToErase FLASH_INTERNAL 0xFFFFFFFF + 8 * j) = true) ∧
      (FLASH_EraseMemory (healthyFlash (fun _ => 0)) FLASH_INTERNAL 0xFFFFFFFF
        0x08020002).1 = false ∧
      (FLASH_EraseMemory (healthyFlash (fun _ => 0)) FLASH_INTERNAL 0xFFFFFFFF
        0x08020002).2.log = []) :=
  ⟨⟨by decide, fun _ _ => rfl, by decide, by decide⟩,
    ⟨by decide, by decide, fun _ _ => rfl, by decide, by decide⟩⟩

/-- C21 (amended). For every range that the validator accepts on the internal
device and whose start is below the top of the window `0x08100000`:
`FLASH_SectorToErase` gives the identifier of the sector `k` (5 to 11) that
contains the start; the page count is the ceiling of `length / page size`;
`FLASH_EraseMemory` returns true exactly when the erases of the identifiers of
the sectors `k`, `k + 1`, ... (`pages` of them) all report success, and it has
then issued unlock, clear flags, these erases in ascending order, lock; when the
erase of index `i` is the first to report failure it returns false having issued
unlock, clear flags and the erases of indices `0` to `i`, nothing else.  The page
count `FLASH_PagesMask` computes is, for every 32-bit image size and every page
size above zero, the least `n` with `n * pageSize >= imageSize`, below `2^32`. -/
theorem C21_erase_sequence_amended (s : FlashState) (start length : Nat)
    (hv : FLASH_CheckValidAddressRange FLASH_INTERNAL start length = true)
    (hs : start < 0x08100000) (hl : length < U32) :
    (∃ k, 5 ≤ k ∧ k ≤ 11 ∧ FLASH_SectorToErase FLASH_INTERNAL start = FLASH_Sector k ∧
      inSector (FLASH_Sector k) start = true) ∧
    (length ≤ FLASH_PagesMask length INTERNAL_FLASH_PAGE_SIZE * INTERNAL_FLASH_PAGE_SIZE ∧
      ∀ n, length ≤ n * INTERNAL_FLASH_PAGE_SIZE →
        FLASH_PagesMask length INTERNAL_FLASH_PAGE_SIZE ≤ n) ∧
    ((FLASH_EraseMemory s FLASH_INTERNAL start length).1 = true ↔
      ∀ j, j < FLASH_PagesMask length INTERNAL_FLASH_PAGE_SIZE →
        s.eraseOk (FLASH_SectorToErase FLASH_INTERNAL start + 8 * j) = true) ∧
    ((∀ j, j < FLASH_PagesMask length INTERNAL_FLASH_PAGE_SIZE →
        s.eraseOk (FLASH_SectorToErase FLASH_INTERNAL start + 8 * j) = true) →
      (FLASH_EraseMemory s FLASH_INTERNAL start length).2.log =
        s.log ++ [FlashOp.unlock, FlashOp.clearFlags] ++
          eraseOps (FLASH_SectorToErase FLASH_INTERNAL start)
            (FLASH_PagesMask length INTERNAL_FLASH_PAGE_SIZE) ++ [FlashOp.lock]) ∧
    (∀ i, i < FLASH_PagesMask length INTERNAL_FLASH_PAGE_SIZE →
      (∀ j, j < i → s.eraseOk (FLASH_SectorToErase FLASH_INTERNAL start + 8 * j) = true) →
      s.eraseOk (FLASH_SectorToErase FLASH_INTERNAL start + 8 * i) = false →
      (FLASH_EraseMemory s FLASH_INTERNAL start length).1 = false ∧
      (FLASH_EraseMemory s FLASH_INTERNAL start length).2.log =
        s.log ++ [FlashOp.unlock, FlashOp.clearFlags] ++
          eraseOps (FLASH_SectorToErase FLASH_INTERNAL start) (i + 1)) ∧
    (∀ imageSize pageSize, imageSize < U32 → 0 < pageSize →
      FLASH_PagesMask imageSize pageSize < U32 ∧
      imageSize ≤ FLASH_PagesMask imageSize pageSize * pageSize ∧
      ∀ n, imageSize ≤ n * pageSize → FLASH_PagesMask imageSize pageSize ≤ n) := by
  obtain ⟨⟨k, hk5, hk11, hfs, hin⟩, hrun⟩ := eraseMemory_run s start length hv hs
  have hp := pagesMask_internal length hl
  have hpages : FLASH_PagesMask length INTERNAL_FLASH_PAGE_SIZE ≤ 32768 := by
    rw [hp]
    unfold U32 at hl
    omega
  obtain ⟨hiff, hlogok, hfail⟩ := eraseLoop_from_sector (FLASH_ClearFlags (FLASH_Unlock s)) k
    (FLASH_PagesMask length INTERNAL_FLASH_PAGE_SIZE) hk11 hpages
  have hceil := pagesMask_ceil length INTERNAL_FLASH_PAGE_SIZE hl (by decide)
  rw [hfs] at hrun ⊢
  have hstart : (FLASH_ClearFlags (FLASH_Unlock s)).log =
      s.log ++ [FlashOp.unlock, FlashOp.clearFlags] := by
    simp [FLASH_ClearFlags, FLASH_Unlock]
  have horacle : (FLASH_ClearFlags (FLASH_Unlock s)).eraseOk = s.eraseOk := rfl
  rw [horacle] at hiff hlogok hfail
  rw [hstart] at hlogok hfail
  refine ⟨⟨k, hk5, hk11, rfl, hin⟩, ⟨hceil.2.1, hceil.2.2⟩, ?_, ?_, ?_,
    fun imageSize pageSize hi hps => pagesMask_ceil imageSize pageSize hi hps⟩
  · rw [← hiff, hrun]
    split_ifs with h
    · simp [h]
    · simp [h]
  · intro hall
    rw [hrun, if_pos (hiff.2 hall)]
    show _ ++ [FlashOp.lock] = _
    rw [hlogok hall]
  · intro i hi hbefore hbad
    obtain ⟨h1, h2⟩ := hfail i hi hbefore hbad
    rw [hrun, if_neg (by rw [h1]; simp)]
    exact ⟨rfl, h2⟩


/-- Witness for the amended C21: an erase of 128 KB and one byte from the start
of sector 5 on a healthy flash (two pages). -/
theorem C21_erase_sequence_amended_witness :
    (∃ k, 5 ≤ k ∧ k ≤ 11 ∧ FLASH_SectorToErase FLASH_INTERNAL 0x08020000 = FLASH_Sector k ∧
      inSector (FLASH_Sector k) 0x08020000 = true) ∧
    (0x20001 ≤ FLASH_PagesMask 0x20001 INTERNAL_FLASH_PAGE_SIZE * INTERNAL_FLASH_PAGE_SIZE ∧
      ∀ n, 0x20001 ≤ n * INTERNAL_FLASH_PAGE_SIZE →
        FLASH_PagesMask 0x20001 INTERNAL_FLASH_PAGE_SIZE ≤ n) ∧
    ((FLASH_EraseMemory (healthyFlash (fun _ => 0)) FLASH_INTERNAL 0x08020000 0x20001).1 = true ↔
      ∀ j, j < FLASH_PagesMask 0x20001 INTERNAL_FLASH_PAGE_SIZE →
        (healthyFlash (fun _ => 0)).eraseOk (FLASH_SectorToErase FLASH_INTERNAL 0x08020000 + 8 * j) = true) ∧
    ((∀ j, j < FLASH_PagesMask 0x20001 INTERNAL_FLASH_PAGE_SIZE →
        (healthyFlash (fun _ => 0)).eraseOk (FLASH_SectorToErase FLASH_INTERNAL 0x08020000 + 8 * j) = true) →
      (FLASH_EraseMemory (healthyFlash (fun _ => 0)) FLASH_INTERNAL 0x08020000 0x20001).2.log =
        (healthyFlash (fun _ => 0)).log ++ [FlashOp.unlock, FlashOp.clearFlags] ++
          eraseOps (FLASH_SectorToErase FLASH_INTERNAL 0x08020000)
            (FLASH_PagesMask 0x20001 INTERNAL_FLASH_PAGE_SIZE) ++ [FlashOp.lock]) ∧
    (∀ i, i < FLASH_PagesMask 0x20001 INTERNAL_FLASH_PAGE_SIZE →
      (∀ j, j < i → (healthyFlash (fun _ => 0)).eraseOk (FLASH_SectorToErase FLASH_INTERNAL 0x08020000 + 8 * j) = true) →
      (healthyFlash (fun _ => 0)).eraseOk (FLASH_SectorToErase FLASH_INTERNAL 0x08020000 + 8 * i) = false →
      (FLASH_EraseMemory (healthyFlash (fun _ => 0)) FLASH_INTERNAL 0x08020000 0x20001).1 = false ∧
      (FLASH_EraseMemory (healthyFlash (fun _ => 0)) FLASH_INTERNAL 0x08020000 0x20001).2.log =
        (healthyFlash (fun _ => 0)).log ++ [FlashOp.unlock, FlashOp.clearFlags] ++
          eraseOps (FLASH_SectorToErase FLASH_INTERNAL 0x08020000) (i + 1)) ∧
    (∀ imageSize pageSize, imageSize < U32 → 0 < pageSize →
      FLASH_PagesMask imageSize pageSize < U32 ∧
      imageSize ≤ FLASH_PagesMask imageSize pageSize * pageSize ∧
      ∀ n, imageSize ≤ n * pageSize → FLASH_PagesMask imageSize pageSize ≤ n) :=
  C21_erase_sequence_amended (healthyFlash (fun _ => 0)) 0x08020000 0x20001
    (by decide) (by decide) (by decide)


/-! ## The lock bit on the failure paths -/

/-- C25 (the code at the failing inputs). From a locked controller:
`FLASH_EraseMemory` on the 8 bytes at `0x08020000`, when the erase of sector 5
reports failure, returns false with the controller unlocked, the last operation
issued being the failed erase (the same call on a healthy flash ends with lock);
`FLASH_CopyMemory` of 8 bytes from `0x08060000` to `0x08020000` with that erase
failure returns false with the controller unlocked; and the same copy, when the
program of the second word reports failure, returns false with the controller
unlocked, the last operation issued being the failed program. -/
theorem C25_failure_paths_leave_unlocked :
    eraseFailureFlash.locked = true ∧ programFailureFlash.locked = true ∧
    (FLASH_EraseMemory eraseFailureFlash FLASH_INTERNAL 0x08020000 8).1 = false ∧
    (FLASH_EraseMemory eraseFailureFlash FLASH_INTERNAL 0x08020000 8).2.locked = false ∧
    (FLASH_EraseMemory eraseFailureFlash FLASH_INTERNAL 0x08020000 8).2.log =
      [FlashOp.unlock, FlashOp.clearFlags, FlashOp.eraseSector (FLASH_Sector 5)] ∧
    (FLASH_EraseMemory (healthyFlash (fun _ => 0)) FLASH_INTERNAL 0x08020000 8).2.locked = true ∧
    (FLASH_EraseMemory (healthyFlash (fun _ => 0)) FLASH_INTERNAL 0x08020000 8).2.log =
      [FlashOp.unlock, FlashOp.clearFlags, FlashOp.eraseSector (FLASH_Sector 5), FlashOp.lock] ∧
    (FLASH_CopyMemory examplePlatform eraseFailureFlash FLASH_INTERNAL 0x08060000 FLASH_INTERNAL
        0x08020000 8 0 0).map (fun r => (r.1, r.2.locked, r.2.log)) =
      some (false, false,
        [FlashOp.unlock, FlashOp.clearFlags, FlashOp.eraseSector (FLASH_Sector 5)]) ∧
    (FLASH_CopyMemory examplePlatform programFailureFlash FLASH_INTERNAL 0x08060000
        FLASH_INTERNAL 0x08020000 8 0 0).map (fun r => (r.1, r.2.locked, r.2.log)) =
      some (false, false,
        [FlashOp.unlock, FlashOp.clearFlags, FlashOp.eraseSector (FLASH_Sector 5), FlashOp.lock,
          FlashOp.unlock, FlashOp.programWord 0x08020000 0,
          FlashOp.programWord 0x08020004 0]) := by
  decide


/-! ## The units of the streaming loop -/

theorem programAddresses_append (l m : List FlashOp) :
    programAddresses (l ++ m) = programAddresses l ++ programAddresses m := by
  unfold programAddresses
  exact List.filterMap_append _ _ _

/-- The erase engine issues no word program. -/
theorem eraseMemory_programAddresses (s : FlashState) (dev start length : Nat) :
    programAddresses (FLASH_EraseMemory s dev start length).2.log = programAddresses s.log := by
  have hnone : ∀ (fs n c : Nat) (issued : List FlashOp),
      (∀ op ∈ issued, ∃ i, c ≤ i ∧ i < c + n ∧ op = FlashOp.eraseSector ((fs + 8 * i) % U32)) →
      programAddresses issued = [] := by
    intro fs n c issued
    induction issued with
    | nil => intro _; rfl
    | cons op rest ih =>
      intro h
      obtain ⟨i, _, _, hop⟩ := h op (List.mem_cons_self _ _)
      have hrest := ih (fun o ho => h o (List.mem_cons_of_mem _ ho))
      unfold programAddresses at hrest ⊢
      rw [hop, List.filterMap_cons]
      exact hrest
  rcases eraseMemory_cases s dev start length with h | ⟨_, _, _, h⟩
  · rw [h]
  · obtain ⟨issued, hlog, hops⟩ :=
      eraseLoop_log (FLASH_Sector (5 + (start - 0x08020000) / 0x20000))
        (FLASH_PagesMask length INTERNAL_FLASH_PAGE_SIZE) 0 (FLASH_ClearFlags (FLASH_Unlock s))
    have hi := hnone _ _ _ issued hops
    have hstart : (FLASH_ClearFlags (FLASH_Unlock s)).log =
        s.log ++ [FlashOp.unlock, FlashOp.clearFlags] := by
      simp [FLASH_ClearFlags, FLASH_Unlock]
    rw [hstart] at hlog
    rw [h]
    split_ifs
    · show programAddresses (_ ++ [FlashOp.lock]) = _
      rw [hlog, programAddresses_append, programAddresses_append, programAddresses_append, hi]
      simp [programAddresses]
    · show programAddresses (eraseLoop _ _ _ _).2.log = _
      rw [hlog, programAddresses_append, programAddresses_append, hi]
      simp [programAddresses]

/-- The number of units of the loop of a range that does not wrap. -/
theorem loopUnits_length (src length : Nat) (h0 : 0 < src) (hnw : src + length ≤ U32) :
    loopUnits src (endAddressOf src length) = (length + 2) / 4 := by
  unfold loopUnits endAddressOf
  unfold U32 at *
  split_ifs <;> omega

/-- The streaming loop on the internal device when every program succeeds: it
finishes with `true` having programmed one word per unit, at the destination
address and then 4 higher each time, and no byte outside these words has
changed. -/
theorem copyLoop_programs (endA : Nat) (hend : endA + 4 ≤ U32) :
    ∀ (fuel src dst data : Nat) (s : FlashState),
      (∀ x, s.programOk x = true) →
      loopUnits src endA < fuel →
      dst + 4 * loopUnits src endA < U32 →
      ∃ t, copyLoop FLASH_INTERNAL FLASH_INTERNAL endA fuel src dst data s = some (true, t) ∧
        programAddresses t.log = programAddresses s.log ++
          (List.range (loopUnits src endA)).map (fun i => dst + 4 * i) ∧
        (∀ a, (a < dst ∨ dst + 4 * loopUnits src endA ≤ a) → t.mem a = s.mem a) := by
  intro fuel
  induction fuel with
  | zero => intro src dst data s _ h; omega
  | succ fuel ih =>
    intro src dst data s hok hfuel hdst
    unfold copyLoop
    by_cases hlt : src < endA
    · have hu := loopUnits_step src endA hlt
      rw [if_pos hlt, if_pos rfl, if_pos rfl]
      dsimp only
      rw [programWord_fst, hok, if_pos rfl]
      have hs4 : (src + 4) % U32 = src + 4 := Nat.mod_eq_of_lt (by omega)
      have hd4 : (dst + 4) % U32 = dst + 4 := Nat.mod_eq_of_lt (by omega)
      rw [hs4, hd4]
      have hok1 : ∀ x, (FLASH_ProgramWord s dst (readWord s src)).2.programOk x = true := by
        intro x
        rw [programWord_programOk]
        exact hok x
      have hlog1 : (FLASH_ProgramWord s dst (readWord s src)).2.log =
          s.log ++ [FlashOp.programWord dst (readWord s src)] := by
        unfold FLASH_ProgramWord
        split_ifs <;> rfl
      obtain ⟨t, ht1, ht2, ht3⟩ := ih (src + 4) (dst + 4) (readWord s src)
        (FLASH_ProgramWord s dst (readWord s src)).2 hok1 (by omega) (by omega)
      refine ⟨t, ht1, ?_, ?_⟩
      · rw [ht2, hlog1, programAddresses_append, hu, List.range_succ_eq_map, List.map_cons,
          List.map_map, List.append_assoc]
        have e : ∀ i, dst + 4 + 4 * i = dst + 4 * (i + 1) := by intro i; omega
        simp [programAddresses, Function.comp, e]
      · intro a ha
        rw [ht3 a (by omega), programWord_mem, if_neg (by omega)]
    · rw [if_neg hlt]
      refine ⟨s, rfl, ?_, fun _ _ => rfl⟩
      rw [loopUnits_exit src endA hlt]
      simp

/-- A copy whose two ranges are valid and whose verification block, when it is
entered, lets the copy go on, is the erase followed by the streaming loop. -/
theorem copyMemory_passes (P : Platform) (s : FlashState)
    (sdev src ddev dst length fn flags : Nat)
    (hvs : FLASH_CheckValidAddressRange sdev src length = true)
    (hvd : FLASH_CheckValidAddressRange ddev dst length = true)
    (hver : sdev = FLASH_INTERNAL ∧ Nat.land flags P.MODULE_VERIFY_MASK ≠ 0 →
      moduleVerification P s sdev src dst length fn flags = some true) :
    FLASH_CopyMemory P s sdev src ddev dst length fn flags =
      copyAfterVerification s sdev src ddev dst length := by
  unfold FLASH_CopyMemory
  rw [hvs, hvd, if_neg (by simp), if_neg (by simp)]
  by_cases hg : sdev = FLASH_INTERNAL ∧ Nat.land flags P.MODULE_VERIFY_MASK ≠ 0
  · rw [if_pos hg, hver hg]
  · rw [if_neg hg]


/-- C22 (counterexample). On a healthy flash, the copy of 6 bytes from
`0x08060000` to `0x08020000` with flags 0 returns true having programmed two
words, not `6 / 4 = 1`: the second word covers the bytes at `0x08020006` and
`0x08020007`, at and beyond destination + length, which hold the source bytes
`0x11` afterwards instead of the erased pattern. -/
theorem C22_counterexample :
    FLASH_CheckValidAddressRange FLASH_INTERNAL 0x08060000 6 = true ∧
    FLASH_CheckValidAddressRange FLASH_INTERNAL 0x08020000 6 = true ∧
    6 / 4 = 1 ∧
    (FLASH_CopyMemory examplePlatform (healthyFlash eightBytesImage) FLASH_INTERNAL 0x08060000
        FLASH_INTERNAL 0x08020000 6 0 0).map
      (fun r => (r.1, programAddresses r.2.log, readByte r.2 (0x08020000 + 6),
        readByte r.2 (0x08020000 + 7), readByte r.2 (0x08020000 + 8))) =
      some (true, [0x08020000, 0x08020004], 0x11, 0x11, ERASED) := by
  decide

/-- C22 (amended). For every pair of ranges that the validator accepts, with a
source range that does not wrap around `2^32` and a destination start below the
top of the window, on a healthy flash and with a verification block that lets
the copy go on: `FLASH_CopyMemory` returns true and its streaming loop programs
exactly `(length + 2) / 4` words, at the destination address and then 4 higher
each time; no byte below the destination address and no byte at or beyond
destination + `4 * ((length + 2) / 4)` is programmed.  The number of words is
`length / 4` when `length mod 4` is 0 or 1 (with remainder 1 the last byte is
not copied and nothing at or beyond destination + length is programmed), and
`length / 4 + 1` when `length mod 4` is 2 or 3 (a whole word is programmed, up
to destination + length + 2). -/
theorem C22_streaming_units_amended (P : Platform) (s : FlashState)
    (sdev src ddev dst length fn flags : Nat)
    (hvs : FLASH_CheckValidAddressRange sdev src length = true)
    (hvd : FLASH_CheckValidAddressRange ddev dst length = true)
    (hnw : src + length ≤ U32) (hd : dst < 0x08100000)
    (hE : ∀ x, s.eraseOk x = true) (hP : ∀ x, s.programOk x = true)
    (hver : sdev = FLASH_INTERNAL ∧ Nat.land flags P.MODULE_VERIFY_MASK ≠ 0 →
      moduleVerification P s sdev src dst length fn flags = some true) :
    ∃ t, FLASH_CopyMemory P s sdev src ddev dst length fn flags = some (true, t) ∧
      programAddresses t.log = programAddresses s.log ++
        (List.range ((length + 2) / 4)).map (fun i => dst + 4 * i) ∧
      (∀ a, (a < dst ∨ dst + 4 * ((length + 2) / 4) ≤ a) →
        t.mem a = (FLASH_EraseMemory s ddev dst length).2.mem a) ∧
      (length % 4 = 0 ∨ length % 4 = 1 →
        (length + 2) / 4 = length / 4 ∧ dst + 4 * ((length + 2) / 4) ≤ dst + length) ∧
      (length % 4 = 2 ∨ length % 4 = 3 →
        (length + 2) / 4 = length / 4 + 1 ∧ dst + length < dst + 4 * ((length + 2) / 4) ∧
        dst + 4 * ((length + 2) / 4) ≤ dst + length + 2) := by
  rw [copyMemory_passes P s sdev src ddev dst length fn flags hvs hvd hver]
  have hsd := checkValid_dev sdev src length hvs
  have hdd := checkValid_dev ddev dst length hvd
  subst hsd
  subst hdd
  have hs0 := (checkValid_internal src length).1 hvs
  have hd0 := (checkValid_internal dst length).1 hvd
  have hN := loopUnits_length src length (by omega) hnw
  have hlen : length ≤ 0xE0000 := by
    have h2 := hs0.2
    have h1 := hs0.1
    unfold endAddressOf at h2
    unfold U32 at *
    omega
  obtain ⟨_, hrun⟩ := eraseMemory_run s dst length hvd hd
  have hhealthy := eraseLoop_healthy (FLASH_SectorToErase FLASH_INTERNAL dst)
    (FLASH_PagesMask length INTERNAL_FLASH_PAGE_SIZE) 0 (FLASH_ClearFlags (FLASH_Unlock s)) hE
  have he : (FLASH_EraseMemory s FLASH_INTERNAL dst length).1 = true := by
    rw [hrun, if_pos hhealthy]
  have hpok : ∀ x, (FLASH_Unlock (FLASH_EraseMemory s FLASH_INTERNAL dst length).2).programOk x
      = true := by
    intro x
    show (FLASH_EraseMemory s FLASH_INTERNAL dst length).2.programOk x = true
    rw [eraseMemory_programOk]
    exact hP x
  obtain ⟨t, ht1, ht2, ht3⟩ := copyLoop_programs (endAddressOf src length)
    (by have := hs0.2; unfold U32; omega) (length + 1) src dst 0
    (FLASH_Unlock (FLASH_EraseMemory s FLASH_INTERNAL dst length).2) hpok
    (by rw [hN]; omega) (by rw [hN]; unfold U32; omega)
  rw [hN] at ht2 ht3
  refine ⟨FLASH_Lock t, ?_, ?_, ?_, ?_, ?_⟩
  · unfold copyAfterVerification
    dsimp only
    rw [he, if_neg (by simp), if_pos rfl, ht1]
    simp
  · show programAddresses (t.log ++ [FlashOp.lock]) = _
    rw [programAddresses_append, ht2]
    show (programAddresses ((FLASH_EraseMemory s FLASH_INTERNAL dst length).2.log ++
      [FlashOp.unlock]) ++ _) ++ _ = _
    rw [programAddresses_append, eraseMemory_programAddresses]
    simp [programAddresses]
  · intro a ha
    exact ht3 a ha
  · intro h
    omega
  · intro h
    omega


/-- Witness for the amended C22: the copy of 6 bytes with flags 0 on a healthy
flash programs `(6 + 2) / 4 = 2` words. -/
theorem C22_streaming_units_amended_witness :
    ∃ t, FLASH_CopyMemory examplePlatform (healthyFlash eightBytesImage) FLASH_INTERNAL 0x08060000 FLASH_INTERNAL 0x08020000 6 0 0 = some (true, t) ∧
      programAddresses t.log = programAddresses (healthyFlash eightBytesImage).log ++
        (List.range ((6 + 2) / 4)).map (fun i => 0x08020000 + 4 * i) ∧
      (∀ a, (a < 0x08020000 ∨ 0x08020000 + 4 * ((6 + 2) / 4) ≤ a) →
        t.mem a = (FLASH_EraseMemory (healthyFlash eightBytesImage) FLASH_INTERNAL 0x08020000 6).2.mem a) ∧
      (6 % 4 = 0 ∨ 6 % 4 = 1 →
        (6 + 2) / 4 = 6 / 4 ∧ 0x08020000 + 4 * ((6 + 2) / 4) ≤ 0x08020000 + 6) ∧
      (6 % 4 = 2 ∨ 6 % 4 = 3 →
        (6 + 2) / 4 = 6 / 4 + 1 ∧ 0x08020000 + 6 < 0x08020000 + 4 * ((6 + 2) / 4) ∧
        0x08020000 + 4 * ((6 + 2) / 4) ≤ 0x08020000 + 6 + 2) :=
  C22_streaming_units_amended examplePlatform (healthyFlash eightBytesImage) FLASH_INTERNAL
    0x08060000 FLASH_INTERNAL 0x08020000 6 0 0 (by decide) (by decide) (by decide) (by decide)
    (fun _ => rfl) (fun _ => rfl) (fun h => absurd (by decide) h.2)


/-! ## The copies of the update applier -/

/-- The copies among the calls made for a list of occupied slots: one per slot,
with the parameters stored in that slot. -/
theorem copiesOf_slotEvents (L : JournalLayout) (callback : Bool) (s : FlashState) :
    ∀ l : List Nat, copiesOf (l.flatMap (slotEvents L callback s)) = l.map (copyEventOf L s) := by
  intro l
  induction l with
  | nil => rfl
  | cons j l ih =>
    rw [List.flatMap_cons, List.map_cons, ← ih]
    unfold copiesOf
    rw [List.filter_append]
    cases callback <;> rfl

/-- C23. For every journal, every callback and whatever the status of each erase
and program: `FLASH_UpdateModules` returns, and its calls of `FLASH_CopyMemory`
are, in order, one call with the parameters stored in slot `j` at the start of
the pass for each `j` of the list of occupied general slots; that list is
strictly ascending (so each slot appears once), it contains exactly the indices
`1 <= j < MAX_MODULES_SLOT` whose magic number is `0xABCD` at the start of the
pass, and it does not contain slot 0. -/
theorem C23_copies_of_update_modules (P : Platform) (L : JournalLayout) (hL : L.WellFormed)
    (callback : Bool) (s : FlashState) :
    ∃ t ev, FLASH_UpdateModules P L callback s = some (t, ev) ∧
      copiesOf ev =
        (occupiedFrom L s GEN_START_SLOT (L.MAX_MODULES_SLOT - GEN_START_SLOT)).map
          (copyEventOf L s) ∧
      (∀ j, j ∈ occupiedFrom L s GEN_START_SLOT (L.MAX_MODULES_SLOT - GEN_START_SLOT) ↔
        (GEN_START_SLOT ≤ j ∧ j < L.MAX_MODULES_SLOT ∧
          (loadRecord L s.mem (slotAddress L j)).magicNumber = 0xABCD)) ∧
      List.Pairwise (fun a b => a < b)
        (occupiedFrom L s GEN_START_SLOT (L.MAX_MODULES_SLOT - GEN_START_SLOT)) ∧
      FAC_RESET_SLOT ∉ occupiedFrom L s GEN_START_SLOT (L.MAX_MODULES_SLOT - GEN_START_SLOT) := by
  have hmax := hL.2.2.2.1
  obtain ⟨t, ht1, _⟩ := updateLoop_spec P L hL callback s
    (L.MAX_MODULES_SLOT - GEN_START_SLOT) GEN_START_SLOT s
    (by unfold GEN_START_SLOT; omega) (fun _ _ _ => rfl)
  have hmem : ∀ j, j ∈ occupiedFrom L s GEN_START_SLOT (L.MAX_MODULES_SLOT - GEN_START_SLOT) ↔
      (GEN_START_SLOT ≤ j ∧ j < L.MAX_MODULES_SLOT ∧
        (loadRecord L s.mem (slotAddress L j)).magicNumber = 0xABCD) := by
    intro j
    unfold occupiedFrom
    rw [List.mem_filter, List.mem_range'_1, decide_eq_true_iff]
    unfold GEN_START_SLOT
    constructor
    · rintro ⟨⟨h1, h2⟩, h3⟩
      exact ⟨h1, by omega, h3⟩
    · rintro ⟨h1, h2, h3⟩
      exact ⟨⟨h1, by omega⟩, h3⟩
  refine ⟨t, _, ?_, copiesOf_slotEvents L callback s _, hmem, ?_, ?_⟩
  · unfold FLASH_UpdateModules
    exact ht1
  · unfold occupiedFrom
    exact List.Pairwise.filter _ (List.pairwise_lt_range' _ _)
  · intro h
    have := ((hmem FAC_RESET_SLOT).1 h).1
    unfold GEN_START_SLOT FAC_RESET_SLOT at this
    omega

/-- Witness for C23: the applier on the three occupied slots of `threeInstalls`. -/
theorem C23_copies_of_update_modules_witness :
    ∃ t ev, FLASH_UpdateModules examplePlatform exampleLayout true threeInstalls = some (t, ev) ∧
      copiesOf ev =
        (occupiedFrom exampleLayout threeInstalls GEN_START_SLOT
          (exampleLayout.MAX_MODULES_SLOT - GEN_START_SLOT)).map
          (copyEventOf exampleLayout threeInstalls) ∧
      (∀ j, j ∈ occupiedFrom exampleLayout threeInstalls GEN_START_SLOT
          (exampleLayout.MAX_MODULES_SLOT - GEN_START_SLOT) ↔
        (GEN_START_SLOT ≤ j ∧ j < exampleLayout.MAX_MODULES_SLOT ∧
          (loadRecord exampleLayout threeInstalls.mem
            (slotAddress exampleLayout j)).magicNumber = 0xABCD)) ∧
      List.Pairwise (fun a b => a < b)
        (occupiedFrom exampleLayout threeInstalls GEN_START_SLOT
          (exampleLayout.MAX_MODULES_SLOT - GEN_START_SLOT)) ∧
      FAC_RESET_SLOT ∉ occupiedFrom exampleLayout threeInstalls GEN_START_SLOT
        (exampleLayout.MAX_MODULES_SLOT - GEN_START_SLOT) :=
  C23_copies_of_update_modules examplePlatform exampleLayout exampleLayout_wellFormed true
    threeInstalls


/-! ## Over-the-air update -/

/-- The padding loop stores `0xFF` at the indices it visits and keeps the other
bytes of the buffer. -/
theorem padLoop_spec : ∀ (remaining index : Nat) (pBuffer : Nat → Nat),
    index + remaining < U32 →
    ∀ i, padLoop remaining index pBuffer i =
      if index ≤ i ∧ i < index + remaining then 0xFF else pBuffer i := by
  intro remaining
  induction remaining with
  | zero =>
    intro index pBuffer _ i
    rw [if_neg (by omega)]
    rfl
  | succ n ih =>
    intro index pBuffer h i
    have h1 : (index + 1) % U32 = index + 1 := Nat.mod_eq_of_lt (by omega)
    show padLoop n ((index + 1) % U32) _ i = _
    rw [h1, ih (index + 1) _ (by omega) i]
    by_cases hi : i = index
    · subst hi
      rw [if_neg (by omega), if_pos rfl, if_pos (by omega)]
    · by_cases hr : index + 1 ≤ i ∧ i < index + 1 + n
      · rw [if_pos hr, if_pos (by omega)]
      · rw [if_neg hr, if_neg hi, if_neg (by omega)]

theorem programWord_log (s : FlashState) (address data : Nat) :
    (FLASH_ProgramWord s address data).2.log = s.log ++ [FlashOp.programWord address data] := by
  unfold FLASH_ProgramWord
  split_ifs <;> rfl

theorem programWord_locked (s : FlashState) (address data : Nat) :
    (FLASH_ProgramWord s address data).2.locked = s.locked := by
  unfold FLASH_ProgramWord
  split_ifs <;> rfl

/-- The program loop of `FLASH_Update` for a buffer size of at most `2^32 - 4`:
from `index` it runs `(bufferSize + 3 - index) / 4` times, whatever status the
programs report, and programs the words of the buffer at consecutive word
addresses. -/
theorem updateWords_spec (pBuffer : Nat → Nat) (bufferSize : Nat) (hb : bufferSize + 3 < U32) :
    ∀ (fuel index address : Nat) (s : FlashState),
      address < U32 →
      index ≤ bufferSize + 3 →
      (bufferSize + 3 - index) / 4 < fuel →
      ∃ t, updateWords pBuffer bufferSize fuel index address s =
          some ((address + 4 * ((bufferSize + 3 - index) / 4)) % U32, t) ∧
        t.log = s.log ++ (List.range ((bufferSize + 3 - index) / 4)).map
          (fun i => FlashOp.programWord ((address + 4 * i) % U32)
            (readLE pBuffer (index + 4 * i) 4)) ∧
        t.locked = s.locked := by
  intro fuel
  induction fuel with
  | zero => intro index address s _ _ h; omega
  | succ fuel ih =>
    intro index address s ha hi hfuel
    unfold updateWords
    unfold U32 at hb ha
    by_cases hlt : index < bufferSize
    · rw [if_pos hlt]
      have hn : (bufferSize + 3 - index) / 4 = (bufferSize + 3 - (index + 4)) / 4 + 1 := by
        omega
      have h4 : (index + 4) % U32 = index + 4 := Nat.mod_eq_of_lt (by unfold U32; omega)
      rw [h4]
      obtain ⟨t, ht1, ht2, ht3⟩ := ih (index + 4) ((address + 4) % U32)
        (FLASH_ProgramWord s address (readLE pBuffer index 4)).2
        (Nat.mod_lt _ (by decide)) (by omega) (by omega)
      refine ⟨t, ?_, ?_, ?_⟩
      · rw [ht1, hn]
        congr 2
        unfold U32
        omega
      · rw [ht2, programWord_log, hn, List.range_succ_eq_map, List.map_cons, List.map_map,
          List.append_assoc]
        congr 1
        rw [List.singleton_append]
        congr 1
        · congr 1
          unfold U32
          omega
        · apply List.map_congr_left
          intro i _
          show FlashOp.programWord _ _ = FlashOp.programWord _ _
          congr 1
          · unfold U32
            omega
          · congr 1
            omega
      · rw [ht3, programWord_locked]
    · rw [if_neg hlt]
      have hn : (bufferSize + 3 - index) / 4 = 0 := by omega
      refine ⟨s, ?_, ?_, rfl⟩
      · rw [hn]
        congr 2
        unfold U32
        omega
      · rw [hn]
        simp


/-- The run of `FLASH_Update` for a buffer size of at most `2^32 - 4`: it returns
the index incremented by one modulo `2^16`; it has issued unlock, clear flags,
`ceil(bufferSize / 4)` word programs of the words of the buffer as the padding
loop left it, lock; the write address is `4 * ceil(bufferSize / 4)` higher;
and the padding loop has stored `0xFF` at the indices from `bufferSize` to below
`(bufferSize & 0xFFFC) + 4` when `bufferSize & 3` is not zero. -/
theorem update_spec (u : UpdateState) (pBuffer : Nat → Nat) (bufferSize : Nat)
    (hb : bufferSize + 3 < U32) (ha : u.Internal_Flash_Address < U32) :
    ∃ r, FLASH_Update u pBuffer bufferSize = some r ∧
      r.1 = (u.Internal_Flash_Update_Index + 1) % 65536 ∧
      r.2.1.Internal_Flash_Update_Index = (u.Internal_Flash_Update_Index + 1) % 65536 ∧
      r.2.1.Internal_Flash_Address =
        (u.Internal_Flash_Address + 4 * ((bufferSize + 3) / 4)) % U32 ∧
      r.2.1.Internal_Flash_Start_Address = u.Internal_Flash_Start_Address ∧
      r.2.1.flash.log = u.flash.log ++ [FlashOp.unlock, FlashOp.clearFlags] ++
        updatePrograms r.2.2 u.Internal_Flash_Address ((bufferSize + 3) / 4) ++
        [FlashOp.lock] ∧
      r.2.1.flash.locked = true ∧
      (∀ i, r.2.2 i =
        if Nat.land bufferSize 0x3 ≠ 0 ∧ bufferSize ≤ i ∧ i < Nat.land bufferSize 0xFFFC + 4
        then 0xFF else pBuffer i) := by
  have hland : Nat.land bufferSize 0xFFFC ≤ 0xFFFC := Nat.and_le_right
  have hpad : ∀ i, (if Nat.land bufferSize 0x3 ≠ 0 then
        padLoop ((Nat.land bufferSize 0xFFFC + 4) % U32 - bufferSize) bufferSize pBuffer
      else pBuffer) i =
      if Nat.land bufferSize 0x3 ≠ 0 ∧ bufferSize ≤ i ∧ i < Nat.land bufferSize 0xFFFC + 4
      then 0xFF else pBuffer i := by
    intro i
    have hm : (Nat.land bufferSize 0xFFFC + 4) % U32 = Nat.land bufferSize 0xFFFC + 4 :=
      Nat.mod_eq_of_lt (by unfold U32; omega)
    by_cases h3 : Nat.land bufferSize 0x3 ≠ 0
    · rw [if_pos h3, hm, padLoop_spec _ _ _ (by unfold U32 at *; omega)]
      by_cases hi : bufferSize ≤ i ∧ i < Nat.land bufferSize 0xFFFC + 4
      · rw [if_pos (by omega), if_pos ⟨h3, hi⟩]
      · rw [if_neg (by omega), if_neg (fun h => hi h.2)]
    · rw [if_neg h3, if_neg (fun h => h3 h.1)]
  obtain ⟨t, ht1, ht2, ht3⟩ := updateWords_spec
    (if Nat.land bufferSize 0x3 ≠ 0 then
        padLoop ((Nat.land bufferSize 0xFFFC + 4) % U32 - bufferSize) bufferSize pBuffer
      else pBuffer) bufferSize hb (bufferSize / 4 + 2) 0 u.Internal_Flash_Address
    (FLASH_ClearFlags (FLASH_Unlock u.flash)) ha (by omega) (by omega)
  have hstart : (FLASH_ClearFlags (FLASH_Unlock u.flash)).log =
      u.flash.log ++ [FlashOp.unlock, FlashOp.clearFlags] := by
    simp [FLASH_ClearFlags, FLASH_Unlock]
  rw [hstart] at ht2
  simp only [Nat.sub_zero, Nat.zero_add] at ht1 ht2
  cases hres : FLASH_Update u pBuffer bufferSize with
  | none =>
    unfold FLASH_Update at hres
    dsimp only at hres
    rw [ht1] at hres
    cases hres
  | some r =>
    unfold FLASH_Update at hres
    dsimp only at hres
    rw [ht1] at hres
    injection hres with hres
    subst hres
    refine ⟨_, rfl, rfl, rfl, rfl, rfl, ?_, rfl, hpad⟩
    show t.log ++ [FlashOp.lock] = _
    rw [ht2]
    rfl


/-- The words of `largeBuffer`: `0xAAAAAAAA` for the first `0x4000` words, then
the last byte of the buffer followed by the three zero bytes after it. -/
theorem largeBuffer_word (i : Nat) (hi : i < 16385) :
    readLE largeBuffer (4 * i) 4 = if i < 16384 then 0xAAAAAAAA else 0x000000AA := by
  simp only [readLE, largeBuffer]
  by_cases h : i < 16384
  · rw [if_pos h, if_pos (by omega), if_pos (by omega), if_pos (by omega), if_pos (by omega)]
  · rw [if_neg h, if_pos (by omega), if_neg (by omega), if_neg (by omega), if_neg (by omega)]

/-- C24 (the code at the failing input). After `FLASH_Begin(0x08020000, 0x20000)`
(write address `0x08020000`, index 0), `FLASH_Update` with the `0x10001` bytes
of `largeBuffer` returns 1 and advances the write address by
`4 * ceil(0x10001 / 4)`, but writes no padding: the buffer is left as it was,
and the last of the `0x4001` words programmed is `0x000000AA`, the last byte of
the buffer followed by the three bytes that happen to come after it, not
`0xFFFFFFAA`.  With the same buffer and `bufferSize = 1` the padding is written
and the word programmed is `0xFFFFFFAA`. -/
theorem C24_large_unaligned_buffer_not_padded :
    otaBegun.Internal_Flash_Address = 0x08020000 ∧
    otaBegun.Internal_Flash_Update_Index = 0 ∧
    Nat.land 0x10001 0x3 ≠ 0 ∧ Nat.land 0x10001 0xFFFC + 4 = 4 ∧
    (∃ r, FLASH_Update otaBegun largeBuffer 0x10001 = some r ∧
      r.1 = 1 ∧
      r.2.1.Internal_Flash_Address = 0x08020000 + 4 * 0x4001 ∧
      (∀ i, r.2.2 i = largeBuffer i) ∧
      r.2.1.flash.log = otaBegun.flash.log ++ [FlashOp.unlock, FlashOp.clearFlags] ++
        (List.range 0x4001).map (fun i => FlashOp.programWord (0x08020000 + 4 * i)
          (if i < 0x4000 then 0xAAAAAAAA else 0x000000AA)) ++ [FlashOp.lock]) ∧
    (FLASH_Update otaBegun largeBuffer 1).map
        (fun r => (r.1, r.2.1.Internal_Flash_Address, r.2.1.flash.log)) =
      some (1, 0x08020004,
        otaBegun.flash.log ++ [FlashOp.unlock, FlashOp.clearFlags,
          FlashOp.programWord 0x08020000 0xFFFFFFAA, FlashOp.lock]) ∧
    (FLASH_Update otaBegun largeBuffer 1).map
        (fun r => [r.2.2 0, r.2.2 1, r.2.2 2, r.2.2 3, r.2.2 4]) =
      some [0xAA, 0xFF, 0xFF, 0xFF, 0xAA] := by
  obtain ⟨r, hr, h1, _, h3, _, h5, _, h7⟩ :=
    update_spec otaBegun largeBuffer 0x10001 (by decide) (by decide)
  have hl : Nat.land 0x10001 0xFFFC = 0 := by decide
  have hbuf : ∀ i, r.2.2 i = largeBuffer i := by
    intro i
    rw [h7 i, hl, if_neg (by omega)]
  have hn : (0x10001 + 3) / 4 = 0x4001 := by norm_num
  have hmap : updatePrograms r.2.2 otaBegun.Internal_Flash_Address 0x4001 =
      (List.range 0x4001).map (fun i => FlashOp.programWord (0x08020000 + 4 * i)
        (if i < 0x4000 then 0xAAAAAAAA else 0x000000AA)) := by
    unfold updatePrograms
    apply List.map_congr_left
    intro i hi
    have hi2 : i < 16385 := List.mem_range.1 hi
    rw [readLE_congr r.2.2 largeBuffer 4 (4 * i) (fun x _ _ => by rw [hbuf x]),
      largeBuffer_word i hi2]
    have ha : (otaBegun.Internal_Flash_Address + 4 * i) % U32 = 0x08020000 + 4 * i := by
      show (0x08020000 + 4 * i) % U32 = _
      unfold U32
      omega
    rw [ha]
  rw [hn, hmap] at h5
  refine ⟨rfl, rfl, by decide, by decide, ⟨r, hr, ?_, ?_, hbuf, h5⟩, by decide, by decide⟩
  · rw [h1]
    rfl
  · rw [h3]
    decide

end FlashMal
